import Mathlib

/-!
# Session handlers of the IRMA server core (`internal/servercore/handle.go`)

A shallow embedding of the protocol message handlers: every handler is a pure
function from the session (and, for issuance, the revocation store) to the
updated session and the values the Go function returns.  Operations that live
outside `handle.go` (proof verification, key lookup, the CL issuer, the
revocation database, legacy conversion) are fields of `Env`; the session
helpers `fail`, `setStatus`, `markAlive`, `Finished`, `chooseProtocolVersion`,
`copyObject` and `ExtractPublicKeys`, and the replay of responses by the
router, are modelled from the specification.
A run-time failure of the Go program (failed type assertion, nil dereference,
index out of range) is the reply `Reply.panicked`.
-/

namespace Servercore

/-! ## Data model -/

/-- Session status, `server.Status`. -/
inductive Status where
  | Initialized
  | Connected
  | Cancelled
  | Done
  | Timeout
deriving DecidableEq, Repr

/-- Session kind, `irma.Action`. -/
inductive Action where
  | Disclosing
  | Signing
  | Issuing
deriving DecidableEq, Repr

/-- Error kinds of the error envelope, `server.Error`. -/
inductive ErrorKind where
  | UnexpectedRequest
  | MalformedInput
  | MalformedRequest
  | UnknownPublicKey
  | KeyshareProofMissing
  | AttributesExpired
  | InvalidProofs
  | IssuanceFailed
  | ProtocolVersion
  | InvalidRequest
  | Unknown
deriving DecidableEq, Repr

/-- The error sent to the client, `irma.RemoteError` as built by `server.RemoteError`. -/
structure RemoteError where
  ErrorName : ErrorKind
  Message : String
deriving DecidableEq, Repr

/-- A Go `error` value; `irma.ErrorMissingPublicKey` is the one the handlers compare against. -/
inductive GoError where
  | ErrorMissingPublicKey
  | other (msg : String)
deriving DecidableEq, Repr

/-- The method `err.Error()`. -/
def GoError.Error : GoError → String
  | .ErrorMissingPublicKey => "Missing public key"
  | .other msg => msg

/-- Proof status, `irma.ProofStatus`; `Unset` is the zero value of the Go string type. -/
inductive ProofStatus where
  | Unset
  | Valid
  | Expired
  | Invalid
  | UnmatchedRequest
  | MissingAttributes
deriving DecidableEq, Repr

/-- Protocol version, `irma.ProtocolVersion`. -/
structure ProtocolVersion where
  Major : Int
  Minor : Int
deriving DecidableEq, Repr

/-- The method `ProtocolVersion.Below(major, minor)`: versions are ordered as major.minor pairs. -/
def ProtocolVersion.Below (v : ProtocolVersion) (major minor : Int) : Bool :=
  decide (v.Major < major) || (decide (v.Major = major) && decide (v.Minor < minor))

/-- Strict order on versions as major.minor pairs. -/
def ProtocolVersion.BelowVersion (v w : ProtocolVersion) : Bool :=
  v.Below w.Major w.Minor

/-- Smaller of two versions. -/
def ProtocolVersion.vmin (v w : ProtocolVersion) : ProtocolVersion :=
  if w.BelowVersion v then w else v

/-- Larger of two versions. -/
def ProtocolVersion.vmax (v w : ProtocolVersion) : ProtocolVersion :=
  if v.BelowVersion w then w else v

/-- Scheme identifier `S`. -/
abbrev SchemeManagerIdentifier := String

/-- Issuer identifier `S.I`. -/
structure IssuerIdentifier where
  scheme : String
  issuer : String
deriving DecidableEq, Repr

/-- Credential type identifier `S.I.C`. -/
structure CredentialTypeIdentifier where
  scheme : String
  issuer : String
  cred : String
deriving DecidableEq, Repr

/-- The method `CredentialTypeIdentifier.IssuerIdentifier()`: the parent of `S.I.C` is `S.I`. -/
def CredentialTypeIdentifier.IssuerIdentifier (c : CredentialTypeIdentifier) : IssuerIdentifier :=
  { scheme := c.scheme, issuer := c.issuer }

/-- The method `IssuerIdentifier.SchemeManagerIdentifier()`: the parent of `S.I` is `S`. -/
def IssuerIdentifier.SchemeManagerIdentifier (i : IssuerIdentifier) : SchemeManagerIdentifier :=
  i.scheme

/-- An accumulator update attached to a request, `revocation.Record`. -/
structure Record where
  Index : Nat
  Accumulator : Nat
deriving DecidableEq, Repr

/-- Fields common to all session requests, `irma.BaseRequest`. -/
structure BaseRequest where
  ProtocolVersion : Option ProtocolVersion
  Context : Nat
  Nonce : Nat
  Revocation : List CredentialTypeIdentifier
  RevocationUpdates : List (CredentialTypeIdentifier × List Record)
deriving DecidableEq, Repr

/-- Conjunction of disjunctions of conjunctions of attribute identifiers, `irma.AttributeConDisCon`. -/
abbrev AttributeConDisCon := List (List (List String))

/-- Legacy disclosure specification: a list of disjunctions, `irma.AttributeDisjunctionList`. -/
abbrev AttributeDisjunctionList := List (List String)

/-- A credential to be issued, `irma.CredentialRequest`. -/
structure CredentialRequest where
  Validity : Option Nat
  KeyCounter : Int
  CredentialTypeID : CredentialTypeIdentifier
  Attributes : List (String × String)
  RevocationKey : String
deriving DecidableEq, Repr

structure DisclosureRequest where
  Base : BaseRequest
  Disclose : AttributeConDisCon
deriving DecidableEq, Repr

structure SignatureRequest where
  Base : BaseRequest
  Disclose : AttributeConDisCon
  Message : String
deriving DecidableEq, Repr

structure IssuanceRequest where
  Base : BaseRequest
  Disclose : AttributeConDisCon
  Credentials : List CredentialRequest
deriving DecidableEq, Repr

/-- The tagged variant `irma.SessionRequest` in the con-dis-con format. -/
inductive SessionRequest where
  | Disclosure (r : DisclosureRequest)
  | Signature (r : SignatureRequest)
  | Issuance (r : IssuanceRequest)
deriving DecidableEq, Repr

/-- The method `SessionRequest.Base()`. -/
def SessionRequest.Base : SessionRequest → BaseRequest
  | .Disclosure r => r.Base
  | .Signature r => r.Base
  | .Issuance r => r.Base

/-- In-place update of the base of a request (`Base()` returns a pointer). -/
def SessionRequest.setBase : SessionRequest → BaseRequest → SessionRequest
  | .Disclosure r, b => .Disclosure { r with Base := b }
  | .Signature r, b => .Signature { r with Base := b }
  | .Issuance r, b => .Issuance { r with Base := b }

/-- A request in the pre-con-dis-con format, as produced by `SessionRequest.Legacy()`. -/
inductive LegacyRequest where
  | Disclosure (base : BaseRequest) (content : AttributeDisjunctionList)
  | Signature (base : BaseRequest) (content : AttributeDisjunctionList) (message : String)
  | Issuance (base : BaseRequest) (credentials : List CredentialRequest)
      (disclose : AttributeDisjunctionList)
deriving DecidableEq, Repr

/-- The method `Base()` of a legacy request. -/
def LegacyRequest.Base : LegacyRequest → BaseRequest
  | .Disclosure b _ => b
  | .Signature b _ _ => b
  | .Issuance b _ _ => b

/-- In-place update of the base of a legacy request. -/
def LegacyRequest.setBase : LegacyRequest → BaseRequest → LegacyRequest
  | .Disclosure _ c, b => .Disclosure b c
  | .Signature _ c m, b => .Signature b c m
  | .Issuance _ cs d, b => .Issuance b cs d

/-- Credentials to be issued that a legacy request carries. -/
def LegacyRequest.Credentials : LegacyRequest → List CredentialRequest
  | .Issuance _ cs _ => cs
  | _ => []

/-- A value of the Go interface type `irma.SessionRequest` as returned to the client:
either format implements the interface. -/
inductive ReturnedRequest where
  | condiscon (r : SessionRequest)
  | legacy (r : LegacyRequest)
deriving DecidableEq, Repr

/-- Credentials to be issued carried by a returned request. -/
def ReturnedRequest.Credentials : ReturnedRequest → List CredentialRequest
  | .condiscon (.Issuance r) => r.Credentials
  | .condiscon _ => []
  | .legacy r => r.Credentials

/-- The base of a returned request. -/
def ReturnedRequest.Base : ReturnedRequest → BaseRequest
  | .condiscon r => r.Base
  | .legacy r => r.Base

/-- A disclosed attribute, `irma.DisclosedAttribute`. -/
structure DisclosedAttribute where
  Identifier : String
  Value : String
deriving DecidableEq, Repr

/-- An issuer public key, `gabi.PublicKey`. -/
structure PublicKey where
  Issuer : IssuerIdentifier
  Counter : Int
  N : Nat
deriving DecidableEq, Repr

/-- An issuer private key, `gabi.PrivateKey`. -/
structure PrivateKey where
  Counter : Int
  P : Nat
  Q : Nat
deriving DecidableEq, Repr

/-- A proof of the Go interface type `gabi.Proof`: an issuance commitment proof or a
disclosure proof. -/
inductive Proof where
  | ProofU (U : Nat) (response : Nat)
  | ProofD (issuer : IssuerIdentifier) (counter : Int) (response : Nat)
deriving DecidableEq, Repr

/-- Keyshare server contribution to a proof, `gabi.ProofP`. -/
structure ProofP where
  P : Nat
  SResponse : Nat
deriving DecidableEq, Repr

/-- A disclosure message, `irma.Disclosure`. -/
structure Disclosure where
  Proofs : List Proof
deriving DecidableEq, Repr

/-- An attribute-based signature, `irma.SignedMessage`. -/
structure SignedMessage where
  Signature : List Proof
  Nonce : Nat
  Context : Nat
  Message : String
deriving DecidableEq, Repr

/-- The commitment message of an issuance session, `irma.IssueCommitmentMessage`. -/
structure IssueCommitmentMessage where
  Proofs : List Proof
  Nonce2 : Nat
  ProofPjwts : List (SchemeManagerIdentifier × String)
deriving DecidableEq, Repr

/-- The method `IssueCommitmentMessage.Disclosure()`: the proofs viewed as a disclosure. -/
def IssueCommitmentMessage.Disclosure (c : IssueCommitmentMessage) : Disclosure :=
  { Proofs := c.Proofs }

/-- A non-revocation witness, `revocation.Witness`. -/
structure Witness where
  E : Nat
  U : Nat
  Index : Nat
deriving DecidableEq, Repr

/-- Record of an issued revocable credential, `revocation.IssuanceRecord`. -/
structure IssuanceRecord where
  Key : String
  Attr : Option Nat
  Issued : Nat
  ValidUntil : Nat
deriving DecidableEq, Repr

/-- The attribute list of a credential to issue, `irma.AttributeList`. -/
structure AttributeList where
  Ints : List Nat
  Expiry : Nat
deriving DecidableEq, Repr

/-- The CL signature on an issued credential, `gabi.IssueSignatureMessage`. -/
structure IssueSignatureMessage where
  Signature : Nat
  Proof : Nat
  NonRevocationWitness : Option Witness
deriving DecidableEq, Repr

/-- A per-credential-type revocation database handle, `revocation.DB`. -/
structure DB where
  Enabled : Bool
  Current : Nat
deriving DecidableEq, Repr

/-- The result of a session, `server.SessionResult`. -/
structure SessionResult where
  Token : String
  Status : Status
  Typ : Action
  ProofStatus : ProofStatus
  Disclosed : List (List DisclosedAttribute)
  Signature : Option SignedMessage
  Err : Option RemoteError
deriving DecidableEq, Repr

/-- The per-session state, `servercore.session` (without its pointers to the
configuration and the session store). -/
structure Session where
  token : String
  action : Action
  status : Status
  version : Option ProtocolVersion
  request : SessionRequest
  result : SessionResult
  lastActive : Nat
  legacyCompatible : Bool
deriving DecidableEq, Repr

/-- The revocation store as far as the handlers write to it: the issuance records
appended so far, per credential type, oldest first. -/
structure Store where
  issuanceRecords : List (CredentialTypeIdentifier × IssuanceRecord)
deriving DecidableEq, Repr

/-- The run-time failures of the Go program that the handlers can run into. -/
inductive Panic where
  | interfaceConversion
  | nilPointerDereference
  | indexOutOfRange
deriving DecidableEq, Repr

/-- What a handler hands back: the values of a normal Go return (a result that may be nil
and an error that may be nil), or a run-time failure of the Go program. -/
inductive Reply (α : Type) where
  | ret (value : Option α) (err : Option RemoteError)
  | panicked (reason : Panic)
deriving DecidableEq, Repr

/-- The error of a reply, if it returned one. -/
def Reply.err {α : Type} : Reply α → Option RemoteError
  | .ret _ e => e
  | .panicked _ => none

/-- The value of a reply, if it returned one. -/
def Reply.value {α : Type} : Reply α → Option α
  | .ret v _ => v
  | .panicked _ => none

/-- The error kind of a reply, if it returned an error. -/
def Reply.errKind {α : Type} (r : Reply α) : Option ErrorKind :=
  r.err.map RemoteError.ErrorName

/-- The operations the handlers call outside `handle.go`: the scheme registry, the proof
engine, the CL issuer, the revocation database and the request conversions, together with
the supported version interval of the server. -/
structure Env where
  minProtocolVersion : ProtocolVersion
  maxProtocolVersion : ProtocolVersion
  /-- `BaseRequest.SetRevocationRecords`: updates the base in place and may fail. -/
  SetRevocationRecords : BaseRequest → BaseRequest × Option GoError
  /-- `SessionRequest.Legacy`: the converted request, or no request (nil) and an error when
  the request cannot be expressed in the legacy format. -/
  Legacy : SessionRequest → Except GoError LegacyRequest
  /-- Failure of the encoder behind `copyObject`, if any. -/
  copyFailure : IssuanceRequest → Option GoError
  /-- `Disclosure.Verify`. -/
  VerifyDisclosure : Disclosure → DisclosureRequest →
    List (List DisclosedAttribute) × ProofStatus × Option GoError
  /-- `SignedMessage.Verify`. -/
  VerifySignature : SignedMessage → SignatureRequest →
    List (List DisclosedAttribute) × ProofStatus × Option GoError
  /-- The public key a disclosure proof was made under. -/
  extractPublicKey : Proof → Except GoError PublicKey
  /-- `Configuration.PublicKey(issuer, counter)`: a key (possibly nil) and an error. -/
  PublicKey : IssuerIdentifier → Int → Option PublicKey × Option GoError
  /-- `Configuration.PrivateKey(issuer)`. -/
  PrivateKey : IssuerIdentifier → Option PrivateKey × Option GoError
  /-- `SchemeManagers[scheme].Distributed()`. -/
  Distributed : SchemeManagerIdentifier → Bool
  /-- `session.getProofP`: the keyshare server contribution for a scheme. -/
  getProofP : IssueCommitmentMessage → SchemeManagerIdentifier → Except GoError ProofP
  /-- `Proof.MergeProofP`: the proof after merging, in place, the keyshare contribution. -/
  MergeProofP : Proof → ProofP → Servercore.PublicKey → Proof
  /-- `Disclosure.VerifyAgainstRequest`, at a given time. -/
  VerifyAgainstRequest : Disclosure → IssuanceRequest → List (Option Servercore.PublicKey) → Nat →
    List (List DisclosedAttribute) × ProofStatus × Option GoError
  /-- `CredentialRequest.AttributeList(conf, metadataVersion)`. -/
  AttributeList : CredentialRequest → Nat → Except GoError Servercore.AttributeList
  /-- `CredentialTypes[id].SupportsRevocation()`. -/
  SupportsRevocation : CredentialTypeIdentifier → Bool
  /-- `Configuration.RevocationDB(id)`. -/
  RevocationDB : CredentialTypeIdentifier → Except GoError DB
  /-- `PrivateKey.RevocationGenerateWitness(accumulator)`; the store stands for the
  randomness: a later call may give another witness. -/
  RevocationGenerateWitness : Option Servercore.PrivateKey → Nat → Store → Except GoError Witness
  /-- Failure of `DB.AddIssuanceRecord`, if any. -/
  addIssuanceRecordFailure : Store → CredentialTypeIdentifier → IssuanceRecord → Option GoError
  /-- `Issuer.IssueSignature(U, attributes, nonrevAttr, nonce2)` of the issuer made by
  `gabi.NewIssuer(sk, pk, one)`. -/
  IssueSignature : Option Servercore.PrivateKey → Option Servercore.PublicKey → Nat → List Nat → Option Nat → Nat →
    Except GoError IssueSignatureMessage
  /-- The keys of the map `conf.RevocationServers`: the credential types for which this
  server is the revocation authority (the settings stored under a key are not used by the
  handlers). -/
  RevocationServers : List CredentialTypeIdentifier
  /-- `DB.RevocationRecords(index)` of the database of a credential type: the records with
  an index greater than the given one. -/
  RevocationRecords : CredentialTypeIdentifier → DB → Int → Except GoError (List Record)

/-! ## Session helpers -/

/-- Modelled from the spec: `Status.Finished` is defined outside `handle.go`; §4.2 says
"`Done`/`Cancelled`/`Timeout` are terminal". -/
def Status.Finished : Status → Bool
  | .Done => true
  | .Cancelled => true
  | .Timeout => true
  | _ => false

/-- The constructor `server.RemoteError(kind, message)`. -/
def mkRemoteError (kind : ErrorKind) (message : String) : RemoteError :=
  { ErrorName := kind, Message := message }

/-- Modelled from the spec: `session.markAlive` is defined outside `handle.go`; §4.2 says
"Every transition updates the last-activity timestamp". -/
def Session.markAlive (session : Session) (now : Nat) : Session :=
  { session with lastActive := now }

/-- Modelled from the spec: `session.setStatus` is defined outside `handle.go`; it moves the
session to the given status, which the session result reports (§3: the result holds the
"terminal status"; §8: after a disclosure the result has `Status = Done`). -/
def Session.setStatus (session : Session) (status : Status) : Session :=
  { session with status := status, result := { session.result with Status := status } }

/-- Modelled from the spec: `session.fail` is defined outside `handle.go`; §7 says failures
"transition the session to a terminal failed state (`Cancelled` with `result.err` populated)
and return the error". -/
def Session.fail (session : Session) (kind : ErrorKind) (message : String) :
    Session × RemoteError :=
  let rerr := mkRemoteError kind message
  let session := session.setStatus .Cancelled
  ({ session with result := { session.result with Err := some rerr } }, rerr)

/-- Modelled from the spec: `session.chooseProtocolVersion` is defined outside `handle.go`;
§4.2 says "With client [C_min, C_max], negotiated = min(S_max, C_max); fail with
`ProtocolVersion` if negotiated < max(S_min, C_min)". -/
def chooseProtocolVersion (env : Env) (min max : ProtocolVersion) :
    Except GoError ProtocolVersion :=
  let negotiated := env.maxProtocolVersion.vmin max
  if negotiated.BelowVersion (env.minProtocolVersion.vmax min) then
    .error (.other "Protocol version negotiation failed")
  else
    .ok negotiated

/-- Modelled from the spec: `copyObject` is defined outside `handle.go`; §4.2 says the server
"returns a copy": when the encoder does not fail the copy equals the original. -/
def copyObject (env : Env) (r : IssuanceRequest) : Except GoError IssuanceRequest :=
  match env.copyFailure r with
  | some e => .error e
  | none => .ok r

/-! ## Handlers -/

/-- The handler `session.handleDelete`. -/
def handleDelete (now : Nat) (session : Session) : Session :=
  if session.status.Finished then
    session
  else
    let session := session.markAlive now
    let session := { session with
      result := { Token := session.token, Status := .Cancelled, Typ := session.action,
                  ProofStatus := .Unset, Disclosed := [], Signature := none, Err := none } }
    session.setStatus .Cancelled

/-- The handler `session.handleGetStatus`. -/
def handleGetStatus (session : Session) : Session × Reply Status :=
  (session, .ret (some session.status) none)

/-- The handler `session.handlePostSignature`. -/
def handlePostSignature (env : Env) (now : Nat) (session : Session) (signature : SignedMessage) :
    Session × Reply ProofStatus :=
  if session.status ≠ .Connected then
    (session, .ret none (some (mkRemoteError .UnexpectedRequest
      "Session not yet started or already finished")))
  else
    let session := session.markAlive now
    let session := { session with result := { session.result with Signature := some signature } }
    match session.request with
    | .Signature request =>
      let (disclosed, proofStatus, err) := env.VerifySignature signature request
      let session := { session with
        result := { session.result with Disclosed := disclosed, ProofStatus := proofStatus } }
      match err with
      | none =>
        let session := session.setStatus .Done
        (session, .ret (some session.result.ProofStatus) none)
      | some err =>
        let (session, rerr) :=
          if err = .ErrorMissingPublicKey then session.fail .UnknownPublicKey err.Error
          else session.fail .Unknown err.Error
        (session, .ret (some session.result.ProofStatus) (some rerr))
    | _ => (session, .panicked .interfaceConversion)

/-- The handler `session.handlePostDisclosure`. -/
def handlePostDisclosure (env : Env) (now : Nat) (session : Session) (disclosure : Disclosure) :
    Session × Reply ProofStatus :=
  if session.status ≠ .Connected then
    (session, .ret none (some (mkRemoteError .UnexpectedRequest
      "Session not yet started or already finished")))
  else
    let session := session.markAlive now
    match session.request with
    | .Disclosure request =>
      let (disclosed, proofStatus, err) := env.VerifyDisclosure disclosure request
      let session := { session with
        result := { session.result with Disclosed := disclosed, ProofStatus := proofStatus } }
      match err with
      | none =>
        let session := session.setStatus .Done
        (session, .ret (some session.result.ProofStatus) none)
      | some err =>
        let (session, rerr) :=
          if err = .ErrorMissingPublicKey then session.fail .UnknownPublicKey err.Error
          else session.fail .Unknown err.Error
        (session, .ret (some session.result.ProofStatus) (some rerr))
    | _ => (session, .panicked .interfaceConversion)

/-- The handler `session.handleGetRequest`.  A failed negotiation leaves the session
without version (the helper returns no version together with its error). -/
def handleGetRequest (env : Env) (now : Nat) (session : Session) (min max : ProtocolVersion) :
    Session × Reply ReturnedRequest :=
  if session.status ≠ .Initialized then
    (session, .ret none (some (mkRemoteError .UnexpectedRequest "Session already started")))
  else
    let session := session.markAlive now
    let (base, err) := env.SetRevocationRecords session.request.Base
    let session := { session with request := session.request.setBase base }
    match err with
    | some err =>
      let (session, rerr) := session.fail .Unknown err.Error
      (session, .ret none (some rerr))
    | none =>
      let (legacy, legacyErr) : Option LegacyRequest × Option GoError :=
        match env.Legacy session.request with
        | .ok legacy => (some legacy, none)
        | .error err => (none, some err)
      let session := { session with legacyCompatible := legacyErr.isNone }
      match chooseProtocolVersion env min max with
      | .error _ =>
        let session := { session with version := none }
        let (session, rerr) := session.fail .ProtocolVersion ""
        (session, .ret none (some rerr))
      | .ok version =>
        let session := { session with version := some version }
        let session := { session with
          request := session.request.setBase
            { session.request.Base with ProtocolVersion := session.version } }
        let session := session.setStatus .Connected
        if version.Below 2 5 then
          match legacy with
          | none => (session, .panicked .nilPointerDereference)
          | some legacy =>
            let legacy := legacy.setBase { legacy.Base with ProtocolVersion := session.version }
            (session, .ret (some (.legacy legacy)) none)
        else
          match session.request with
          | .Issuance isreq =>
            match copyObject env isreq with
            | .error err =>
              let (session, rerr) := session.fail .Unknown err.Error
              (session, .ret none (some rerr))
            | .ok cpy =>
              let cpy := { cpy with
                Credentials := cpy.Credentials.map fun cred => { cred with RevocationKey := "" } }
              (session, .ret (some (.condiscon (.Issuance cpy))) none)
          | _ => (session, .ret (some (.condiscon session.request)) none)

/-- How a loop of `handlePostCommitments` ends: normally, by `session.fail` with an error
kind and message, or by a run-time failure. -/
inductive Step (α : Type) where
  | ok (a : α)
  | fail (kind : ErrorKind) (message : String)
  | panicked (reason : Panic)
deriving DecidableEq, Repr

/-- Modelled from the spec: `ProofList.ExtractPublicKeys` is defined outside `handle.go`;
§4.3.1 says the first `d` keys "are extracted from the `d` disclosure proofs (each proof
carries its `issuer.counter`)": one key per proof, in proof order, or the first error. -/
def ExtractPublicKeys (env : Env) : List Proof → Except GoError (List (Option PublicKey))
  | [] => .ok []
  | proof :: proofs =>
    match env.extractPublicKey proof with
    | .error err => .error err
    | .ok publicKey =>
      match ExtractPublicKeys env proofs with
      | .error err => .error err
      | .ok publicKeys => .ok (some publicKey :: publicKeys)

/-- The loop of `handlePostCommitments` that appends the registry keys of the requested
credentials to the public keys of the disclosure proofs. -/
def appendCredentialKeys (env : Env) (pubkeys : List (Option PublicKey))
    (credentials : List CredentialRequest) : List (Option PublicKey) :=
  credentials.foldl
    (fun pubkeys cred =>
      let iss := cred.CredentialTypeID.IssuerIdentifier
      let (pubkey, _) := env.PublicKey iss cred.KeyCounter
      pubkeys ++ [pubkey])
    pubkeys

/-- The keyshare loop of `handlePostCommitments`: `rest` are the proofs still to visit, `i` the index of
the first of them, and `commitments` holds the proofs as merged so far. -/
def mergeKeyshareProofs (env : Env) (pubkeys : List (Option PublicKey)) :
    List Proof → Nat → IssueCommitmentMessage → Step IssueCommitmentMessage
  | [], _, commitments => .ok commitments
  | proof :: rest, i, commitments =>
    match pubkeys[i]? with
    | none => .panicked .indexOutOfRange
    | some none => .panicked .nilPointerDereference
    | some (some pubkey) =>
      let schemeid := pubkey.Issuer.SchemeManagerIdentifier
      if env.Distributed schemeid then
        match env.getProofP commitments schemeid with
        | .error err => .fail .KeyshareProofMissing err.Error
        | .ok proofP =>
          mergeKeyshareProofs env pubkeys rest (i + 1)
            { commitments with Proofs := commitments.Proofs.set i (env.MergeProofP proof proofP pubkey) }
      else
        mergeKeyshareProofs env pubkeys rest (i + 1) commitments

/-- The revocation block in the body of the signing loop of `handlePostCommitments`: for a
credential type that supports revocation and whose database is enabled, generate a witness
and append the issuance record. Gives the store afterwards and either the error kind and
message to fail with, or the variables `witness` and `nonrevAttr`. -/
def issueWitness (env : Env) (now : Nat) (cred : CredentialRequest)
    (attributes : AttributeList) (sk : Option PrivateKey) (store : Store) :
    Store × Except (ErrorKind × String) (Option Witness × Option Nat) :=
  if env.SupportsRevocation cred.CredentialTypeID then
    match env.RevocationDB cred.CredentialTypeID with
    | .error err => (store, .error (.IssuanceFailed, err.Error))
    | .ok db =>
      if db.Enabled then
        match env.RevocationGenerateWitness sk db.Current store with
        | .error err => (store, .error (.IssuanceFailed, err.Error))
        | .ok witness =>
          let nonrevAttr := some witness.E
          let record : IssuanceRecord :=
            { Key := cred.RevocationKey, Attr := nonrevAttr, Issued := now,
              ValidUntil := attributes.Expiry }
          match env.addIssuanceRecordFailure store cred.CredentialTypeID record with
          | some _ => (store, .error (.Unknown, "failed to save nonrevocation witness"))
          | none =>
            ({ store with
                issuanceRecords := store.issuanceRecords ++ [(cred.CredentialTypeID, record)] },
              .ok (some witness, nonrevAttr))
      else (store, .ok (none, none))
  else (store, .ok (none, none))

/-- The signing loop of `handlePostCommitments`: `credentials` are the credentials still to
sign, `i` the index of the first of them, `sigs` the signatures made so far. Issuance
records are appended to the store as the loop goes. -/
def signCredentials (env : Env) (now : Nat) (commitments : IssueCommitmentMessage)
    (discloseCount : Nat) :
    List CredentialRequest → Nat → Store → List IssueSignatureMessage →
      Store × Step (List IssueSignatureMessage)
  | [], _, store, sigs => (store, .ok sigs)
  | cred :: credentials, i, store, sigs =>
    let id := cred.CredentialTypeID.IssuerIdentifier
    let (pk, _) := env.PublicKey id cred.KeyCounter
    let (sk, _) := env.PrivateKey id
    match commitments.Proofs[i + discloseCount]? with
    | none => (store, .panicked .indexOutOfRange)
    | some (.ProofD _ _ _) => (store, .fail .MalformedInput "Received invalid issuance commitment")
    | some (.ProofU U _) =>
      match env.AttributeList cred 0x03 with
      | .error err => (store, .fail .IssuanceFailed err.Error)
      | .ok attributes =>
        match issueWitness env now cred attributes sk store with
        | (store, .error (kind, message)) => (store, .fail kind message)
        | (store, .ok (witness, nonrevAttr)) =>
          match env.IssueSignature sk pk U attributes.Ints nonrevAttr commitments.Nonce2 with
          | .error err => (store, .fail .IssuanceFailed err.Error)
          | .ok sig =>
            let sig := { sig with NonRevocationWitness := witness }
            signCredentials env now commitments discloseCount credentials (i + 1) store
              (sigs ++ [sig])

/-- The statement `return nil, session.fail(kind, message)`. -/
def failWith {α : Type} (session : Session) (store : Store) (kind : ErrorKind)
    (message : String) : Session × Store × Reply α :=
  let (session, rerr) := session.fail kind message
  (session, store, .ret none (some rerr))

/-- The second half of `handlePostCommitments` (from the comment "Verify all proofs and check
disclosed attributes" to the end): verify the proofs, as merged with the keyshare
contributions, against the request, and sign the credentials when the proofs are valid. -/
def verifyAndSign (env : Env) (now : Nat) (session : Session) (store : Store)
    (request : IssuanceRequest) (commitments : IssueCommitmentMessage)
    (pubkeys : List (Option PublicKey)) (discloseCount : Nat) :
    Session × Store × Reply (List IssueSignatureMessage) :=
  let (disclosed, proofStatus, err) :=
    env.VerifyAgainstRequest commitments.Disclosure request pubkeys now
  let session := { session with
    result := { session.result with Disclosed := disclosed, ProofStatus := proofStatus } }
  match err with
  | some err =>
    if err = .ErrorMissingPublicKey then failWith session store .UnknownPublicKey ""
    else failWith session store .Unknown ""
  | none =>
    if session.result.ProofStatus = .Expired then
      failWith session store .AttributesExpired ""
    else if session.result.ProofStatus ≠ .Valid then
      failWith session store .InvalidProofs ""
    else
      match signCredentials env now commitments discloseCount request.Credentials 0 store [] with
      | (store, .panicked reason) => (session, store, .panicked reason)
      | (store, .fail kind message) => failWith session store kind message
      | (store, .ok sigs) => (session.setStatus .Done, store, .ret (some sigs) none)

/-- The handler `session.handlePostCommitments`; the revocation store is threaded through. -/
def handlePostCommitments (env : Env) (now : Nat) (session : Session) (store : Store)
    (commitments : IssueCommitmentMessage) :
    Session × Store × Reply (List IssueSignatureMessage) :=
  if session.status ≠ .Connected then
    (session, store, .ret none (some (mkRemoteError .UnexpectedRequest
      "Session not yet started or already finished")))
  else
    let session := session.markAlive now
    match session.request with
    | .Issuance request =>
      let discloseCount : Int :=
        (commitments.Proofs.length : Int) - (request.Credentials.length : Int)
      if discloseCount < 0 then
        failWith session store .MalformedInput "Received insufficient proofs"
      else
        let disclosureproofs := commitments.Proofs.take discloseCount.toNat
        match ExtractPublicKeys env disclosureproofs with
        | .error err => failWith session store .MalformedInput err.Error
        | .ok pubkeys =>
          let pubkeys := appendCredentialKeys env pubkeys request.Credentials
          match mergeKeyshareProofs env pubkeys commitments.Proofs 0 commitments with
          | .panicked reason => (session, store, .panicked reason)
          | .fail kind message => failWith session store kind message
          | .ok commitments =>
            verifyAndSign env now session store request commitments pubkeys discloseCount.toNat
    | _ => (session, store, .panicked .interfaceConversion)

/-- An access of a handler to a revocation database: opening the database of a credential
type with `Configuration.RevocationDB`, or reading its records from an index on with
`DB.RevocationRecords`. -/
inductive DBAccess where
  | opened (cred : CredentialTypeIdentifier)
  | read (cred : CredentialTypeIdentifier) (index : Int)
deriving DecidableEq, Repr

/-- The handler `Server.handleGetRevocationRecords`, with the accesses to the revocation
database it makes, in the order it makes them. -/
def handleGetRevocationRecords (env : Env) (cred : CredentialTypeIdentifier) (index : Int) :
    List DBAccess × Reply (List Record) :=
  if cred ∈ env.RevocationServers then
    ([], .ret none (some (mkRemoteError .InvalidRequest "not supported by this server")))
  else
    match env.RevocationDB cred with
    | .error err => ([.opened cred], .ret none (some (mkRemoteError .Unknown err.Error)))
    | .ok db =>
      match env.RevocationRecords cred db index with
      | .error err =>
        ([.opened cred, .read cred index], .ret none (some (mkRemoteError .Unknown err.Error)))
      | .ok records => ([.opened cred, .read cred index], .ret (some records) none)

/-! ## Routing layer

`handle.go` leaves the decoding of messages and the encoding of replies to the router, which
is not among the sources; its replay of responses is modelled from the specification. -/

/-- A message of the wallet as the router hands it to the handlers: `GET /` with the version
headers, or `POST /proofs` with a disclosure or a signed message as body. -/
inductive ClientMessage where
  | GetRequest (min max : ProtocolVersion)
  | PostDisclosure (disclosure : Disclosure)
  | PostSignature (signature : SignedMessage)
deriving DecidableEq, Repr

/-- The content of a response: the reply of the handler that computed it. -/
inductive ResponseBody where
  | request (reply : Reply ReturnedRequest)
  | proofStatus (reply : Reply ProofStatus)
deriving DecidableEq, Repr

/-- A response to the wallet: HTTP status and content. -/
structure Response where
  status : Nat
  body : ResponseBody
deriving DecidableEq, Repr

/-- The error that a response carries, if any. -/
def Response.error (response : Response) : Option RemoteError :=
  match response.body with
  | .request reply => reply.err
  | .proofStatus reply => reply.err

/-- Modelled from the spec: the encoding of a reply as an HTTP response is done by the
router, which is not under src/; §6 says "All protocol errors return `{ "error": <kind>, ... }`
with HTTP 4xx". A reply without error has status 200, a reply with an error status 400, and
a run-time failure of the handler status 500. -/
def httpStatus {α : Type} : Reply α → Nat
  | .ret _ none => 200
  | .ret _ (some _) => 400
  | .panicked _ => 500

/-- Modelled from the spec: the dispatch of a wallet message to its handler is done by the
router, which is not under src/; §6 says "`GET /` — request the session's `SessionRequest`"
and "`POST /proofs` — disclosure (body: `Disclosure`) or signature (body:
`SignedMessage`)". -/
def route (env : Env) (now : Nat) (session : Session) : ClientMessage → Session × Response
  | .GetRequest min max =>
    let (session, reply) := handleGetRequest env now session min max
    (session, { status := httpStatus reply, body := .request reply })
  | .PostDisclosure disclosure =>
    let (session, reply) := handlePostDisclosure env now session disclosure
    (session, { status := httpStatus reply, body := .proofStatus reply })
  | .PostSignature signature =>
    let (session, reply) := handlePostSignature env now session signature
    (session, { status := httpStatus reply, body := .proofStatus reply })

/-- Modelled from the spec: the session as the router holds it, with the response it keeps
for replays; the router is not under src/. §7 says "the server keeps the computed result on
the session and replies from it until the session is reaped". -/
structure ServedSession where
  session : Session
  kept : Option (ClientMessage × Response)
deriving DecidableEq, Repr

/-- Modelled from the spec: the serving of a wallet message by the router, which is not
under src/. §7 says "Replays of a terminal `POST /proofs` with the same body yield the same
response (the server keeps the computed result on the session and replies from it until the
session is reaped)", and §8 "two consecutive `GET /` calls on the same session under versions
`[2.5, 2.5]` both succeed; status remains `Connected` after the second" and "replaying an
accepted disclosure body a second time returns HTTP <300 and the same server state". A
message equal to the one whose response is kept is answered from the kept response and
leaves the session as it is; any other message goes to its handler, and its response is
kept. -/
def handleProtocolMessage (env : Env) (now : Nat) (served : ServedSession)
    (message : ClientMessage) : ServedSession × Response :=
  match served.kept with
  | some (keptMessage, keptResponse) =>
    if keptMessage = message then (served, keptResponse)
    else
      let (session, response) := route env now served.session message
      ({ session := session, kept := some (message, response) }, response)
  | none =>
    let (session, response) := route env now served.session message
    ({ session := session, kept := some (message, response) }, response)

/-! ## Concrete configurations and sessions

A small registry with one issuer, used to evaluate the handlers on concrete inputs. -/

/-- Conversion of a con-dis-con to a list of disjunctions: possible when every inner
conjunction holds exactly one attribute. -/
def demoConvert : AttributeConDisCon → Except GoError AttributeDisjunctionList
  | [] => .ok []
  | dis :: rest =>
    if dis.all (fun con => con.length == 1) then
      match demoConvert rest with
      | .ok ds => .ok (dis.flatten :: ds)
      | .error e => .error e
    else .error (.other "request not convertible to legacy request")

/-- Legacy conversion that changes the disclosure specification only. -/
def demoLegacy : SessionRequest → Except GoError LegacyRequest
  | .Disclosure r =>
    match demoConvert r.Disclose with
    | .ok ds => .ok (.Disclosure r.Base ds)
    | .error e => .error e
  | .Signature r =>
    match demoConvert r.Disclose with
    | .ok ds => .ok (.Signature r.Base ds r.Message)
    | .error e => .error e
  | .Issuance r =>
    match demoConvert r.Disclose with
    | .ok ds => .ok (.Issuance r.Base r.Credentials ds)
    | .error e => .error e

def demoIssuer : IssuerIdentifier := { scheme := "irma-demo", issuer := "MijnOverheid" }

def demoCredType : CredentialTypeIdentifier :=
  { scheme := "irma-demo", issuer := "MijnOverheid", cred := "root" }

def demoPublicKey : PublicKey := { Issuer := demoIssuer, Counter := 2, N := 77 }

def demoPrivateKey : PrivateKey := { Counter := 2, P := 7, Q := 11 }

/-- A server supporting versions 2.4 to 2.5 whose proof engine accepts every proof, whose
registry knows one issuer, and where `revocable` says whether credential types support
revocation. -/
def demoEnv (revocable : Bool) : Env where
  minProtocolVersion := { Major := 2, Minor := 4 }
  maxProtocolVersion := { Major := 2, Minor := 5 }
  SetRevocationRecords := fun base => (base, none)
  Legacy := demoLegacy
  copyFailure := fun _ => none
  VerifyDisclosure := fun _ _ => ([[{ Identifier := "irma-demo.RU.studentCard.studentID",
                                      Value := "s1234567" }]], .Valid, none)
  VerifySignature := fun _ _ => ([[{ Identifier := "irma-demo.RU.studentCard.studentID",
                                     Value := "s1234567" }]], .Valid, none)
  extractPublicKey := fun proof =>
    match proof with
    | .ProofD issuer counter _ => .ok { Issuer := issuer, Counter := counter, N := 77 }
    | .ProofU _ _ => .error (.other "Cannot extract public key, not a disclosure proofD")
  PublicKey := fun issuer counter =>
    if issuer = demoIssuer then (some { demoPublicKey with Counter := counter }, none)
    else (none, some .ErrorMissingPublicKey)
  PrivateKey := fun issuer =>
    if issuer = demoIssuer then (some demoPrivateKey, none)
    else (none, some (.other "unknown issuer"))
  Distributed := fun _ => false
  getProofP := fun _ _ => .error (.other "no keyshare proof")
  MergeProofP := fun proof _ _ => proof
  VerifyAgainstRequest := fun _ _ _ _ => ([], .Valid, none)
  AttributeList := fun cred version =>
    .ok { Ints := version :: cred.Attributes.map (fun a => a.2.length), Expiry := 1000 }
  SupportsRevocation := fun _ => revocable
  RevocationDB := fun _ => .ok { Enabled := true, Current := 5 }
  RevocationGenerateWitness := fun _ current store =>
    .ok { E := 101 + store.issuanceRecords.length, U := current, Index := 1 }
  addIssuanceRecordFailure := fun _ _ _ => none
  IssueSignature := fun _ _ U ints nonrevAttr nonce2 =>
    .ok { Signature := U + ints.sum + nonrevAttr.getD 0 + nonce2, Proof := 0,
          NonRevocationWitness := none }
  RevocationServers := []
  RevocationRecords := fun _ _ index =>
    .ok (([{ Index := 1, Accumulator := 10 }, { Index := 2, Accumulator := 20 }] :
      List Record).filter (fun r => decide (index < (r.Index : Int))))

def demoBase : BaseRequest :=
  { ProtocolVersion := none, Context := 1, Nonce := 42, Revocation := [],
    RevocationUpdates := [] }

/-- A disclosure request for one attribute. -/
def demoDisclosureRequest : SessionRequest :=
  .Disclosure { Base := demoBase, Disclose := [[["irma-demo.RU.studentCard.studentID"]]] }

/-- A signature request for one attribute. -/
def demoSignatureRequest : SessionRequest :=
  .Signature { Base := demoBase, Disclose := [[["irma-demo.RU.studentCard.studentID"]]],
               Message := "message" }

def demoCredential : CredentialRequest :=
  { Validity := none, KeyCounter := 2, CredentialTypeID := demoCredType,
    Attributes := [("BSN", "12345")], RevocationKey := "12345" }

/-- An issuance request for one credential with a revocation key. -/
def demoIssuance : IssuanceRequest :=
  { Base := demoBase, Disclose := [], Credentials := [demoCredential] }

def demoIssuanceRequest : SessionRequest := .Issuance demoIssuance

/-- A session as it is after `StartSession`. -/
def demoSession (action : Action) (request : SessionRequest) (status : Status) : Session :=
  { token := "token", action := action, status := status, version := none, request := request,
    result := { Token := "token", Status := status, Typ := action, ProofStatus := .Unset,
                Disclosed := [], Signature := none, Err := none },
    lastActive := 0, legacyCompatible := false }

def demoDisclosure : Disclosure := { Proofs := [.ProofD demoIssuer 2 9] }

def demoSignedMessage : SignedMessage :=
  { Signature := [.ProofD demoIssuer 2 9], Nonce := 42, Context := 1, Message := "message" }

def demoCommitments : IssueCommitmentMessage :=
  { Proofs := [.ProofD demoIssuer 2 9, .ProofU 6 8], Nonce2 := 13, ProofPjwts := [] }

def v24 : ProtocolVersion := { Major := 2, Minor := 4 }

def v25 : ProtocolVersion := { Major := 2, Minor := 5 }

/-- The edges of the status graph of §4.2 that a handler can take. -/
def Status.Edge : Status → Status → Bool
  | .Initialized, .Connected => true
  | .Initialized, .Cancelled => true
  | .Connected, .Done => true
  | .Connected, .Cancelled => true
  | _, _ => false

/-- The request with the `RevocationKey` of every credential to issue cleared; requests other
than issuance requests hold no credentials to issue and are left as they are. -/
def stripRevocationKeys : SessionRequest → SessionRequest
  | .Issuance r =>
    .Issuance { r with
      Credentials := r.Credentials.map fun cred => { cred with RevocationKey := "" } }
  | r => r

/-- Whether a returned request is in the legacy format. -/
def ReturnedRequest.isLegacy : ReturnedRequest → Bool
  | .legacy _ => true
  | .condiscon _ => false

/-- The error kind with which issuance is refused, by the outcome of proof verification:
`UnknownPublicKey` for the missing-public-key error, `Unknown` for any other error,
`AttributesExpired` for the status `Expired`, `InvalidProofs` for any other status. -/
def rejectionKind (err : Option GoError) (proofStatus : ProofStatus) : ErrorKind :=
  match err with
  | some e => if e = .ErrorMissingPublicKey then .UnknownPublicKey else .Unknown
  | none => if proofStatus = .Expired then .AttributesExpired else .InvalidProofs

/-- The signature `sig` is what the signing loop makes for the credential `cred` from the
proof at position `index`: that proof is a `ProofU`, and `sig` is the signature of the CL
issuer (made of the private key of the issuer of the credential and the public key with the
`KeyCounter` of the credential) over the commitment `U` of the proof, the attribute integers
of the credential computed with metadata byte `0x03`, the non-revocation attribute if any,
and `Nonce2` of the commitment message, with the witness attached. -/
def IsIssuedSignature (env : Env) (now : Nat) (commitments : IssueCommitmentMessage)
    (index : Nat) (cred : CredentialRequest) (sig : IssueSignatureMessage) : Prop :=
  ∃ U response attributes witness nonrevAttr sig0 store store',
    commitments.Proofs[index]? = some (.ProofU U response) ∧
    env.AttributeList cred 0x03 = .ok attributes ∧
    issueWitness env now cred attributes
      (env.PrivateKey cred.CredentialTypeID.IssuerIdentifier).1 store =
        (store', .ok (witness, nonrevAttr)) ∧
    env.IssueSignature (env.PrivateKey cred.CredentialTypeID.IssuerIdentifier).1
      (env.PublicKey cred.CredentialTypeID.IssuerIdentifier cred.KeyCounter).1
      U attributes.Ints nonrevAttr commitments.Nonce2 = .ok sig0 ∧
    sig = { sig0 with NonRevocationWitness := witness }

/-- Whether the signing loop records the issuance of a credential: its credential type
supports revocation and the revocation database of the type is enabled. -/
def revocationEnabled (env : Env) (cred : CredentialRequest) : Bool :=
  env.SupportsRevocation cred.CredentialTypeID &&
    (match env.RevocationDB cred.CredentialTypeID with
      | .ok db => db.Enabled
      | .error _ => false)

/-- The issuance record that the signing loop appends for a credential issued at time `now`
with the given attribute list and witness. -/
def issuanceRecordFor (now : Nat) (cred : CredentialRequest) (attributes : AttributeList)
    (witness : Witness) : CredentialTypeIdentifier × IssuanceRecord :=
  (cred.CredentialTypeID,
    { Key := cred.RevocationKey, Attr := some witness.E, Issued := now,
      ValidUntil := attributes.Expiry })

/-- The record `r` was written for the credential `cred`: it lies in the database of the
credential type of `cred` and has the revocation key of `cred` as `Key`, and the issuance
of `cred` is recorded. -/
def recordOf (env : Env) (cred : CredentialRequest)
    (r : CredentialTypeIdentifier × IssuanceRecord) : Prop :=
  r.1 = cred.CredentialTypeID ∧ r.2.Key = cred.RevocationKey ∧
    revocationEnabled env cred = true

/-- The records of `after` that follow the records of `before`: what a call that turned the
store `before` into `after` has appended. -/
def appendedRecords (before after : Store) : List (CredentialTypeIdentifier × IssuanceRecord) :=
  after.issuanceRecords.drop before.issuanceRecords.length

/-- The position, among the records that the signing loop appends, of the record of the
credential at position `j`: the number of credentials before it whose issuance is
recorded. -/
def recordIndex (env : Env) (credentials : List CredentialRequest) (j : Nat) : Nat :=
  ((credentials.take j).filter (revocationEnabled env)).length

/-- The signature `sig` of the credential `cred` uses one prime throughout. The signature is
made from the `ProofU` at position `index` of `proofs` and the attribute list of the
credential. If the issuance of the credential is recorded (its type supports revocation and
its database is enabled), then a witness `w` was generated from the private key of the issuer
and the accumulator of the database, on the store as it was after the first `k` of the
`appended` records; the record at position `k` of `appended` is the record of the credential
with `Attr` the `E` of `w`; the CL issuer was given the `E` of `w` as non-revocation
attribute; and `sig` is its signature with `w` attached. Otherwise the CL issuer was given
no non-revocation attribute and `sig` is its signature with no witness attached. -/
def UsesWitnessPrime (env : Env) (now : Nat) (store : Store) (proofs : List Proof)
    (index : Nat) (nonce2 : Nat) (cred : CredentialRequest) (sig : IssueSignatureMessage)
    (appended : List (CredentialTypeIdentifier × IssuanceRecord)) (k : Nat) : Prop :=
  ∃ U response attributes sig0,
    proofs[index]? = some (.ProofU U response) ∧
    env.AttributeList cred 0x03 = .ok attributes ∧
    ((revocationEnabled env cred = true ∧
        ∃ db w,
          env.RevocationDB cred.CredentialTypeID = .ok db ∧
          env.RevocationGenerateWitness
            (env.PrivateKey cred.CredentialTypeID.IssuerIdentifier).1 db.Current
            { issuanceRecords := store.issuanceRecords ++ appended.take k } = .ok w ∧
          appended[k]? = some (cred.CredentialTypeID,
            { Key := cred.RevocationKey, Attr := some w.E, Issued := now,
              ValidUntil := attributes.Expiry }) ∧
          env.IssueSignature (env.PrivateKey cred.CredentialTypeID.IssuerIdentifier).1
            (env.PublicKey cred.CredentialTypeID.IssuerIdentifier cred.KeyCounter).1
            U attributes.Ints (some w.E) nonce2 = .ok sig0 ∧
          sig = { sig0 with NonRevocationWitness := some w }) ∨
      (revocationEnabled env cred = false ∧
        env.IssueSignature (env.PrivateKey cred.CredentialTypeID.IssuerIdentifier).1
          (env.PublicKey cred.CredentialTypeID.IssuerIdentifier cred.KeyCounter).1
          U attributes.Ints none nonce2 = .ok sig0 ∧
        sig = { sig0 with NonRevocationWitness := none }))

/-- The server of `demoEnv true`, except that the revocation database of every credential
type is not enabled. -/
def demoEnvDisabled : Env :=
  { demoEnv true with RevocationDB := fun _ => .ok { Enabled := false, Current := 5 } }

/-- The server of `demoEnv true`, except that the CL issuer fails. -/
def demoEnvIssuerFails : Env :=
  { demoEnv true with IssueSignature := fun _ _ _ _ _ _ => .error (.other "CL issuer failed") }

/-- A commitment message without proofs. -/
def demoNoProofs : IssueCommitmentMessage := { Proofs := [], Nonce2 := 13, ProofPjwts := [] }

/-- The server of `demoEnv true` configured as the revocation authority of the demo
credential type. -/
def demoEnvAuthority : Env :=
  { demoEnv true with RevocationServers := [demoCredType] }

/-- A credential type for which no server of the demo is the revocation authority. -/
def demoStudentCard : CredentialTypeIdentifier :=
  { scheme := "irma-demo", issuer := "RU", cred := "studentCard" }

/-- The server of `demoEnv false`, except that fetching the revocation records fails. -/
def demoEnvNoRecords : Env :=
  { demoEnv false with
    SetRevocationRecords := fun base => (base, some (.other "no revocation records")) }

/-- A freshly started disclosure session as the router holds it. -/
def demoServed : ServedSession :=
  { session := demoSession .Disclosing demoDisclosureRequest .Initialized, kept := none }

/-- Whether a message is a `POST /proofs`. -/
def ClientMessage.isPostProofs : ClientMessage → Bool
  | .GetRequest _ _ => false
  | .PostDisclosure _ => true
  | .PostSignature _ => true

/-- The body of the signing loop fails for the credential `cred`, whose proof is at position
`index` of the proofs of `commitments`, on the store `before`, with the error `kind` and
`message`, leaving the records `extra` appended to `before`. The causes, in the order of the
body: the proof is not a `ProofU`; the attribute list cannot be computed; the revocation
block fails (the database cannot be opened, the witness cannot be generated, or the record
cannot be saved); the CL issuer fails for a credential whose issuance is not recorded, the
revocation block having passed without witness; the CL issuer fails for a credential whose issuance is recorded, after a witness was generated
and the record was saved. Only in the last case is a record left behind: the record of
`cred` itself, saved before the issuer was called. -/
def FailsAt (env : Env) (now : Nat) (commitments : IssueCommitmentMessage) (index : Nat)
    (cred : CredentialRequest) (before : Store) (kind : ErrorKind) (message : String)
    (extra : List (CredentialTypeIdentifier × IssuanceRecord)) : Prop :=
  (∃ issuer counter response,
    commitments.Proofs[index]? = some (.ProofD issuer counter response) ∧
    kind = .MalformedInput ∧ message = "Received invalid issuance commitment" ∧ extra = []) ∨
  (∃ U response,
    commitments.Proofs[index]? = some (.ProofU U response) ∧
    ((∃ err, env.AttributeList cred 0x03 = .error err ∧
        kind = .IssuanceFailed ∧ message = err.Error ∧ extra = []) ∨
      (∃ attributes, env.AttributeList cred 0x03 = .ok attributes ∧
        ((issueWitness env now cred attributes
            (env.PrivateKey cred.CredentialTypeID.IssuerIdentifier).1 before =
              (before, .error (kind, message)) ∧ extra = []) ∨
          (∃ err, revocationEnabled env cred = false ∧
            issueWitness env now cred attributes
              (env.PrivateKey cred.CredentialTypeID.IssuerIdentifier).1 before =
                (before, .ok (none, none)) ∧
            env.IssueSignature (env.PrivateKey cred.CredentialTypeID.IssuerIdentifier).1
              (env.PublicKey cred.CredentialTypeID.IssuerIdentifier cred.KeyCounter).1
              U attributes.Ints none commitments.Nonce2 = .error err ∧
            kind = .IssuanceFailed ∧ message = err.Error ∧ extra = []) ∨
          (∃ db w err, revocationEnabled env cred = true ∧
            env.RevocationDB cred.CredentialTypeID = .ok db ∧
            env.RevocationGenerateWitness
              (env.PrivateKey cred.CredentialTypeID.IssuerIdentifier).1 db.Current before =
                .ok w ∧
            env.addIssuanceRecordFailure before cred.CredentialTypeID
              (issuanceRecordFor now cred attributes w).2 = none ∧
            env.IssueSignature (env.PrivateKey cred.CredentialTypeID.IssuerIdentifier).1
              (env.PublicKey cred.CredentialTypeID.IssuerIdentifier cred.KeyCounter).1
              U attributes.Ints (some w.E) commitments.Nonce2 = .error err ∧
            kind = .IssuanceFailed ∧ message = err.Error ∧
            extra = [issuanceRecordFor now cred attributes w])))))

/-- A second credential of the demo credential type, with another revocation key. -/
def demoSecondCredential : CredentialRequest :=
  { Validity := none, KeyCounter := 2, CredentialTypeID := demoCredType,
    Attributes := [("BSN", "67890")], RevocationKey := "67890" }

/-- An issuance request for two credentials. -/
def demoTwoCredentials : IssuanceRequest :=
  { Base := demoBase, Disclose := [], Credentials := [demoCredential, demoSecondCredential] }

/-- A commitment message for two credentials whose second proof is not a `ProofU`. -/
def demoSecondNotProofU : IssueCommitmentMessage :=
  { Proofs := [.ProofU 6 8, .ProofD demoIssuer 2 9], Nonce2 := 13, ProofPjwts := [] }

/-! ## Theorems -/

/-- C1: a handler called in a non-matching status returns the error `UnexpectedRequest`
(and no value) and leaves the whole session unchanged: `handleGetRequest` when the status
is not `Initialized`; `handlePostSignature`, `handlePostDisclosure` and
`handlePostCommitments` (which also leaves the revocation store unchanged) when the status
is not `Connected`. -/
theorem unexpectedRequest_leaves_session_unchanged (env : Env) (now : Nat) (session : Session)
    (store : Store) (min max : ProtocolVersion) (signature : SignedMessage)
    (disclosure : Disclosure) (commitments : IssueCommitmentMessage) :
    (session.status ≠ .Initialized →
      (handleGetRequest env now session min max).1 = session ∧
      (handleGetRequest env now session min max).2 =
        .ret none (some (mkRemoteError .UnexpectedRequest "Session already started"))) ∧
    (session.status ≠ .Connected →
      ((handlePostSignature env now session signature).1 = session ∧
        (handlePostSignature env now session signature).2.value = none ∧
        (handlePostSignature env now session signature).2.errKind = some .UnexpectedRequest) ∧
      ((handlePostDisclosure env now session disclosure).1 = session ∧
        (handlePostDisclosure env now session disclosure).2.value = none ∧
        (handlePostDisclosure env now session disclosure).2.errKind = some .UnexpectedRequest) ∧
      ((handlePostCommitments env now session store commitments).1 = session ∧
        (handlePostCommitments env now session store commitments).2.1 = store ∧
        (handlePostCommitments env now session store commitments).2.2.value = none ∧
        (handlePostCommitments env now session store commitments).2.2.errKind =
          some .UnexpectedRequest)) := by
  refine ⟨fun h => ?_, fun h => ?_⟩
  · simp [handleGetRequest, h]
  · simp [handlePostSignature, handlePostDisclosure, handlePostCommitments, h, Reply.value,
      Reply.errKind, Reply.err, mkRemoteError]


/-- Witness for C1: a finished disclosure session refuses every handler and stays as it is. -/
theorem unexpectedRequest_leaves_session_unchanged_witness :
    (demoSession .Disclosing demoDisclosureRequest .Done).status ≠ .Initialized ∧
    (demoSession .Disclosing demoDisclosureRequest .Done).status ≠ .Connected ∧
    (handleGetRequest (demoEnv false) 7 (demoSession .Disclosing demoDisclosureRequest .Done)
        v25 v25).1 = demoSession .Disclosing demoDisclosureRequest .Done ∧
    (handlePostDisclosure (demoEnv false) 7 (demoSession .Disclosing demoDisclosureRequest .Done)
        demoDisclosure).1 = demoSession .Disclosing demoDisclosureRequest .Done ∧
    (handlePostDisclosure (demoEnv false) 7 (demoSession .Disclosing demoDisclosureRequest .Done)
        demoDisclosure).2.errKind = some .UnexpectedRequest :=
  ⟨by decide, by decide,
    ((unexpectedRequest_leaves_session_unchanged (demoEnv false) 7
      (demoSession .Disclosing demoDisclosureRequest .Done) ⟨[]⟩ v25 v25 demoSignedMessage
      demoDisclosure demoCommitments).1 (by decide)).1,
    ((unexpectedRequest_leaves_session_unchanged (demoEnv false) 7
      (demoSession .Disclosing demoDisclosureRequest .Done) ⟨[]⟩ v25 v25 demoSignedMessage
      demoDisclosure demoCommitments).2 (by decide)).2.1.1,
    ((unexpectedRequest_leaves_session_unchanged (demoEnv false) 7
      (demoSession .Disclosing demoDisclosureRequest .Done) ⟨[]⟩ v25 v25 demoSignedMessage
      demoDisclosure demoCommitments).2 (by decide)).2.1.2.2⟩

/-! ### Status after each helper and handler -/

theorem setStatus_status (session : Session) (status : Status) :
    (session.setStatus status).status = status := rfl

theorem fail_status (session : Session) (kind : ErrorKind) (message : String) :
    (session.fail kind message).1.status = .Cancelled := rfl

theorem fail_error (session : Session) (kind : ErrorKind) (message : String) :
    (session.fail kind message).2 = mkRemoteError kind message := rfl

theorem failWith_status {α : Type} (session : Session) (store : Store) (kind : ErrorKind)
    (message : String) :
    (failWith session store kind message : Session × Store × Reply α).1.status = .Cancelled := rfl

theorem failWith_store {α : Type} (session : Session) (store : Store) (kind : ErrorKind)
    (message : String) :
    (failWith session store kind message : Session × Store × Reply α).2.1 = store := rfl

theorem failWith_reply {α : Type} (session : Session) (store : Store) (kind : ErrorKind)
    (message : String) :
    (failWith session store kind message : Session × Store × Reply α).2.2 =
      .ret none (some (mkRemoteError kind message)) := rfl

/-- The status `handleDelete` leaves: unchanged when finished, `Cancelled` otherwise. -/
theorem handleDelete_status (now : Nat) (session : Session) :
    (handleDelete now session).status =
      if session.status.Finished then session.status else .Cancelled := by
  unfold handleDelete
  split <;> rfl

/-- After `handleGetRequest`: an `Initialized` session is `Connected` or `Cancelled`, any other
session keeps its status. -/
theorem handleGetRequest_status (env : Env) (now : Nat) (session : Session)
    (min max : ProtocolVersion) :
    (session.status ≠ .Initialized ∧
        (handleGetRequest env now session min max).1.status = session.status) ∨
    (session.status = .Initialized ∧
        ((handleGetRequest env now session min max).1.status = .Connected ∨
         (handleGetRequest env now session min max).1.status = .Cancelled)) := by
  by_cases h : session.status = .Initialized
  · right
    refine ⟨h, ?_⟩
    unfold handleGetRequest
    simp only [h, ne_eq, not_true_eq_false, if_false]
    repeat' split
    all_goals simp [Session.fail, Session.setStatus]
  · left
    refine ⟨h, ?_⟩
    simp [handleGetRequest, h]


/-- After `handlePostSignature`: a `Connected` session is `Done`, `Cancelled` or (after a
run-time failure) still `Connected`; any other session keeps its status. -/
theorem handlePostSignature_status (env : Env) (now : Nat) (session : Session)
    (signature : SignedMessage) :
    (session.status ≠ .Connected ∧
        (handlePostSignature env now session signature).1.status = session.status) ∨
    (session.status = .Connected ∧
        ((handlePostSignature env now session signature).1.status = .Connected ∨
         (handlePostSignature env now session signature).1.status = .Done ∨
         (handlePostSignature env now session signature).1.status = .Cancelled)) := by
  by_cases h : session.status = .Connected
  · right
    refine ⟨h, ?_⟩
    unfold handlePostSignature
    simp only [h, ne_eq, not_true_eq_false, if_false]
    repeat' split
    all_goals simp [Session.fail, Session.setStatus, Session.markAlive, h]
  · left
    refine ⟨h, ?_⟩
    simp [handlePostSignature, h]

/-- After `handlePostDisclosure`: as for `handlePostSignature`. -/
theorem handlePostDisclosure_status (env : Env) (now : Nat) (session : Session)
    (disclosure : Disclosure) :
    (session.status ≠ .Connected ∧
        (handlePostDisclosure env now session disclosure).1.status = session.status) ∨
    (session.status = .Connected ∧
        ((handlePostDisclosure env now session disclosure).1.status = .Connected ∨
         (handlePostDisclosure env now session disclosure).1.status = .Done ∨
         (handlePostDisclosure env now session disclosure).1.status = .Cancelled)) := by
  by_cases h : session.status = .Connected
  · right
    refine ⟨h, ?_⟩
    unfold handlePostDisclosure
    simp only [h, ne_eq, not_true_eq_false, if_false]
    repeat' split
    all_goals simp [Session.fail, Session.setStatus, Session.markAlive, h]
  · left
    refine ⟨h, ?_⟩
    simp [handlePostDisclosure, h]

/-- After `verifyAndSign` the status is unchanged, `Done` or `Cancelled`. -/
theorem verifyAndSign_status (env : Env) (now : Nat) (session : Session) (store : Store)
    (request : IssuanceRequest) (commitments : IssueCommitmentMessage)
    (pubkeys : List (Option PublicKey)) (discloseCount : Nat) :
    (verifyAndSign env now session store request commitments pubkeys discloseCount).1.status =
        session.status ∨
    (verifyAndSign env now session store request commitments pubkeys discloseCount).1.status =
        .Done ∨
    (verifyAndSign env now session store request commitments pubkeys discloseCount).1.status =
        .Cancelled := by
  unfold verifyAndSign
  dsimp only
  repeat' split
  all_goals simp [failWith_status, Session.setStatus]

/-- After `handlePostCommitments`: as for `handlePostSignature`. -/
theorem handlePostCommitments_status (env : Env) (now : Nat) (session : Session) (store : Store)
    (commitments : IssueCommitmentMessage) :
    (session.status ≠ .Connected ∧
        (handlePostCommitments env now session store commitments).1.status = session.status) ∨
    (session.status = .Connected ∧
        ((handlePostCommitments env now session store commitments).1.status = .Connected ∨
         (handlePostCommitments env now session store commitments).1.status = .Done ∨
         (handlePostCommitments env now session store commitments).1.status = .Cancelled)) := by
  by_cases h : session.status = .Connected
  · right
    refine ⟨h, ?_⟩
    unfold handlePostCommitments
    simp only [h, ne_eq, not_true_eq_false, if_false]
    repeat' split
    all_goals first
      | (simp [failWith_status, Session.setStatus, Session.markAlive, h]; done)
      | (refine Or.imp (fun hv => hv.trans ?_) id (verifyAndSign_status env now _ store _ _ _ _)
         simp [Session.markAlive, h])
  · left
    refine ⟨h, ?_⟩
    simp [handlePostCommitments, h]

/-- C2: under every handler and for all arguments the status after the call equals the status
before or is reached from it by one edge of the graph `Initialized -> Connected`,
`Initialized -> Cancelled`, `Connected -> Done`, `Connected -> Cancelled`; a session that is
`Done`, `Cancelled` or `Timeout` keeps its status, and no handler moves a `Connected` session
back to `Initialized`. -/
theorem status_advances_along_graph (env : Env) (now : Nat) (session : Session) (store : Store)
    (min max : ProtocolVersion) (signature : SignedMessage) (disclosure : Disclosure)
    (commitments : IssueCommitmentMessage) :
    ∀ after ∈ [(handleDelete now session).status,
               (handleGetRequest env now session min max).1.status,
               (handleGetStatus session).1.status,
               (handlePostSignature env now session signature).1.status,
               (handlePostDisclosure env now session disclosure).1.status,
               (handlePostCommitments env now session store commitments).1.status],
      (after = session.status ∨ session.status.Edge after = true) ∧
      (session.status.Finished = true → after = session.status) ∧
      ¬ (session.status = .Connected ∧ after = .Initialized) := by
  intro after hmem
  simp only [List.mem_cons, List.mem_singleton, List.not_mem_nil, or_false] at hmem
  have hD := handleDelete_status now session
  have hG := handleGetRequest_status env now session min max
  have hS := handlePostSignature_status env now session signature
  have hP := handlePostDisclosure_status env now session disclosure
  have hC := handlePostCommitments_status env now session store commitments
  have hT : (handleGetStatus session).1.status = session.status := rfl
  rcases hmem with rfl | rfl | rfl | rfl | rfl | rfl
  · rw [hD]
    cases hs : session.status <;> simp [Status.Finished, Status.Edge]
  · rcases hG with ⟨_, h2⟩ | ⟨h1, h2 | h2⟩ <;> simp_all [Status.Finished, Status.Edge]
  · rw [hT]
    refine ⟨Or.inl rfl, fun _ => rfl, ?_⟩
    rintro ⟨h1, h2⟩
    rw [h1] at h2
    exact absurd h2 (by decide)
  · rcases hS with ⟨_, h2⟩ | ⟨h1, h2 | h2 | h2⟩ <;> simp_all [Status.Finished, Status.Edge]
  · rcases hP with ⟨_, h2⟩ | ⟨h1, h2 | h2 | h2⟩ <;> simp_all [Status.Finished, Status.Edge]
  · rcases hC with ⟨_, h2⟩ | ⟨h1, h2 | h2 | h2⟩ <;> simp_all [Status.Finished, Status.Edge]


/-- Witness for C2: posting a disclosure moves a `Connected` session along an edge, and
`handleDelete` leaves a `Done` session where it is. -/
theorem status_advances_along_graph_witness :
    ((handlePostDisclosure (demoEnv false) 7
        (demoSession .Disclosing demoDisclosureRequest .Connected) demoDisclosure).1.status =
        (demoSession .Disclosing demoDisclosureRequest .Connected).status ∨
      (demoSession .Disclosing demoDisclosureRequest .Connected).status.Edge
        (handlePostDisclosure (demoEnv false) 7
          (demoSession .Disclosing demoDisclosureRequest .Connected) demoDisclosure).1.status =
        true) ∧
    (demoSession .Disclosing demoDisclosureRequest .Done).status.Finished = true ∧
    (handleDelete 7 (demoSession .Disclosing demoDisclosureRequest .Done)).status =
      (demoSession .Disclosing demoDisclosureRequest .Done).status :=
  ⟨(status_advances_along_graph (demoEnv false) 7
      (demoSession .Disclosing demoDisclosureRequest .Connected) ⟨[]⟩ v25 v25 demoSignedMessage
      demoDisclosure demoCommitments _ (by simp)).1,
   by decide,
   (status_advances_along_graph (demoEnv false) 7
      (demoSession .Disclosing demoDisclosureRequest .Done) ⟨[]⟩ v25 v25 demoSignedMessage
      demoDisclosure demoCommitments _ (by simp)).2.1 (by decide)⟩

/-- C3: `handleDelete` changes no field of a session that is `Done`, `Cancelled` or `Timeout`;
hence calling it twice leaves the same status and result as calling it once, and these are
status `Cancelled` and the result with the token and action of the session and status
`Cancelled` when the session was not finished before the first call. -/
theorem handleDelete_idempotent (now later : Nat) (session : Session) :
    (session.status.Finished = true → handleDelete now session = session) ∧
    ((handleDelete later (handleDelete now session)).status =
        (handleDelete now session).status ∧
      (handleDelete later (handleDelete now session)).result =
        (handleDelete now session).result) ∧
    (session.status.Finished = false →
      (handleDelete now session).status = .Cancelled ∧
      (handleDelete now session).result =
        { Token := session.token, Status := .Cancelled, Typ := session.action,
          ProofStatus := .Unset, Disclosed := [], Signature := none, Err := none }) := by
  have hfin : ∀ (t : Nat) (s : Session), s.status.Finished = true → handleDelete t s = s := by
    intro t s h
    unfold handleDelete
    rw [if_pos h]
  have hnot : ∀ (t : Nat) (s : Session), s.status.Finished = false →
      handleDelete t s =
        { s with
          status := .Cancelled, lastActive := t,
          result := { Token := s.token, Status := .Cancelled, Typ := s.action,
                      ProofStatus := .Unset, Disclosed := [], Signature := none, Err := none } } := by
    intro t s h
    unfold handleDelete
    rw [if_neg (by simp [h])]
    rfl
  refine ⟨hfin now session, ?_, fun h => ?_⟩
  · cases h : session.status.Finished
    · rw [hfin later (handleDelete now session) (by rw [hnot now session h]; rfl)]
      exact ⟨rfl, rfl⟩
    · rw [hfin now session h, hfin later session h]
      exact ⟨rfl, rfl⟩
  · rw [hnot now session h]
    exact ⟨rfl, rfl⟩

/-- Witness for C3: deleting a cancelled session changes nothing, and deleting a connected
session cancels it. -/
theorem handleDelete_idempotent_witness :
    (demoSession .Issuing demoIssuanceRequest .Cancelled).status.Finished = true ∧
    handleDelete 7 (demoSession .Issuing demoIssuanceRequest .Cancelled) =
      demoSession .Issuing demoIssuanceRequest .Cancelled ∧
    (demoSession .Issuing demoIssuanceRequest .Connected).status.Finished = false ∧
    (handleDelete 7 (demoSession .Issuing demoIssuanceRequest .Connected)).status =
      .Cancelled :=
  ⟨by decide,
   (handleDelete_idempotent 7 8 (demoSession .Issuing demoIssuanceRequest .Cancelled)).1
     (by decide),
   by decide,
   ((handleDelete_idempotent 7 8 (demoSession .Issuing demoIssuanceRequest .Connected)).2.2
     (by decide)).1⟩

/-- C4: on a `Connected` disclosure session `handlePostDisclosure`, and on a `Connected`
signature session `handlePostSignature`, ends in a terminal status: `Done` exactly when the
verifier returns no error, whatever proof status it returns, and then the result holds the
disclosed attributes and proof status of the verifier and no error is returned; when the
verifier returns an error the session is `Cancelled` with the error recorded, of kind
`UnknownPublicKey` for the missing-public-key error and `Unknown` otherwise. The session
never remains `Connected`. -/
theorem post_proof_ends_session (env : Env) (now : Nat) (session : Session)
    (hstatus : session.status = .Connected) :
    (∀ (disclosure : Disclosure) (request : DisclosureRequest),
      session.request = .Disclosure request →
      ((handlePostDisclosure env now session disclosure).1.status ≠ .Connected) ∧
      ((handlePostDisclosure env now session disclosure).1.status = .Done ↔
        (env.VerifyDisclosure disclosure request).2.2 = none) ∧
      ((env.VerifyDisclosure disclosure request).2.2 = none →
        (handlePostDisclosure env now session disclosure).1.result.Disclosed =
          (env.VerifyDisclosure disclosure request).1 ∧
        (handlePostDisclosure env now session disclosure).1.result.ProofStatus =
          (env.VerifyDisclosure disclosure request).2.1 ∧
        (handlePostDisclosure env now session disclosure).2.err = none) ∧
      (∀ err, (env.VerifyDisclosure disclosure request).2.2 = some err →
        (handlePostDisclosure env now session disclosure).1.status = .Cancelled ∧
        (handlePostDisclosure env now session disclosure).1.result.Err =
          some (mkRemoteError
            (if err = .ErrorMissingPublicKey then .UnknownPublicKey else .Unknown) err.Error) ∧
        (handlePostDisclosure env now session disclosure).2.err =
          some (mkRemoteError
            (if err = .ErrorMissingPublicKey then .UnknownPublicKey else .Unknown) err.Error))) ∧
    (∀ (signature : SignedMessage) (request : SignatureRequest),
      session.request = .Signature request →
      ((handlePostSignature env now session signature).1.status ≠ .Connected) ∧
      ((handlePostSignature env now session signature).1.status = .Done ↔
        (env.VerifySignature signature request).2.2 = none) ∧
      ((env.VerifySignature signature request).2.2 = none →
        (handlePostSignature env now session signature).1.result.Disclosed =
          (env.VerifySignature signature request).1 ∧
        (handlePostSignature env now session signature).1.result.ProofStatus =
          (env.VerifySignature signature request).2.1 ∧
        (handlePostSignature env now session signature).2.err = none) ∧
      (∀ err, (env.VerifySignature signature request).2.2 = some err →
        (handlePostSignature env now session signature).1.status = .Cancelled ∧
        (handlePostSignature env now session signature).1.result.Err =
          some (mkRemoteError
            (if err = .ErrorMissingPublicKey then .UnknownPublicKey else .Unknown) err.Error) ∧
        (handlePostSignature env now session signature).2.err =
          some (mkRemoteError
            (if err = .ErrorMissingPublicKey then .UnknownPublicKey else .Unknown) err.Error))) := by
  constructor
  · intro disclosure request hreq
    rcases hv : env.VerifyDisclosure disclosure request with ⟨disclosed, proofStatus, err⟩
    cases err with
    | none => simp [handlePostDisclosure, hstatus, hreq, hv, Session.markAlive, Session.setStatus,
        Reply.err]
    | some err =>
      by_cases hm : err = .ErrorMissingPublicKey <;>
        simp [handlePostDisclosure, hstatus, hreq, hv, hm, Session.markAlive, Session.fail,
          Session.setStatus, Reply.err, mkRemoteError]
  · intro signature request hreq
    rcases hv : env.VerifySignature signature request with ⟨disclosed, proofStatus, err⟩
    cases err with
    | none => simp [handlePostSignature, hstatus, hreq, hv, Session.markAlive, Session.setStatus,
        Reply.err]
    | some err =>
      by_cases hm : err = .ErrorMissingPublicKey <;>
        simp [handlePostSignature, hstatus, hreq, hv, hm, Session.markAlive, Session.fail,
          Session.setStatus, Reply.err, mkRemoteError]

/-- Witness for C4: an accepted disclosure ends the session in `Done`, and a verifier that
misses a public key ends it in `Cancelled` with `UnknownPublicKey`. -/
theorem post_proof_ends_session_witness :
    (demoSession .Disclosing demoDisclosureRequest .Connected).status = .Connected ∧
    (handlePostDisclosure (demoEnv false) 7
      (demoSession .Disclosing demoDisclosureRequest .Connected) demoDisclosure).1.status =
      .Done ∧
    (handlePostDisclosure
      { demoEnv false with
        VerifyDisclosure := fun _ _ => ([], .Invalid, some .ErrorMissingPublicKey) } 7
      (demoSession .Disclosing demoDisclosureRequest .Connected) demoDisclosure).1.status =
      .Cancelled :=
  ⟨rfl,
   ((post_proof_ends_session (demoEnv false) 7
      (demoSession .Disclosing demoDisclosureRequest .Connected) rfl).1 demoDisclosure _
      rfl).2.1.mpr rfl,
   (((post_proof_ends_session
      { demoEnv false with
        VerifyDisclosure := fun _ _ => ([], .Invalid, some .ErrorMissingPublicKey) } 7
      (demoSession .Disclosing demoDisclosureRequest .Connected) rfl).1 demoDisclosure _
      rfl).2.2.2 _ rfl).1⟩


/-- Counterexample to C5 as stated. First, when fetching the revocation records fails the
handler returns `Unknown` although the version intervals do not overlap (server 2.4 to 2.5,
client 2.6 to 2.6): the records are fetched before the version is negotiated. Second, on an
issuance session whose request cannot be copied the negotiation succeeds and the session
nevertheless ends `Cancelled`, not `Connected`. -/
theorem handleGetRequest_protocolVersion_counterexample :
    ((demoSession .Disclosing demoDisclosureRequest .Initialized).status = .Initialized ∧
      (((demoEnv false).maxProtocolVersion.vmin { Major := 2, Minor := 6 }).BelowVersion
        ((demoEnv false).minProtocolVersion.vmax { Major := 2, Minor := 6 }) = true) ∧
      (handleGetRequest
        { demoEnv false with
          SetRevocationRecords := fun base => (base, some (.other "no revocation records")) } 7
        (demoSession .Disclosing demoDisclosureRequest .Initialized)
        { Major := 2, Minor := 6 } { Major := 2, Minor := 6 }).2.errKind = some .Unknown) ∧
    ((((demoEnv false).maxProtocolVersion.vmin v25).BelowVersion
        ((demoEnv false).minProtocolVersion.vmax v25) = false) ∧
      (handleGetRequest
        { demoEnv false with copyFailure := fun _ => some (.other "encoding failed") } 7
        (demoSession .Issuing demoIssuanceRequest .Initialized) v25 v25).1.status =
        .Cancelled) := by
  decide


/-- C5 (amended): on an `Initialized` session whose revocation records are fetched without
error, `handleGetRequest` fails with `ProtocolVersion` when
`min(S_max, C_max) < max(S_min, C_min)`; otherwise it sets `session.version` and the stored
request's `ProtocolVersion` to `min(S_max, C_max)` and sets the status `Connected`, which the
session keeps unless copying an issuance request then fails (error `Unknown`, status
`Cancelled`). -/
theorem handleGetRequest_negotiates_version (env : Env) (now : Nat) (session : Session)
    (min max : ProtocolVersion) (hstatus : session.status = .Initialized)
    (hrev : (env.SetRevocationRecords session.request.Base).2 = none) :
    ((env.maxProtocolVersion.vmin max).BelowVersion (env.minProtocolVersion.vmax min) = true →
      (handleGetRequest env now session min max).2.errKind = some .ProtocolVersion ∧
      (handleGetRequest env now session min max).2.value = none) ∧
    ((env.maxProtocolVersion.vmin max).BelowVersion (env.minProtocolVersion.vmax min) = false →
      (handleGetRequest env now session min max).1.version =
        some (env.maxProtocolVersion.vmin max) ∧
      (handleGetRequest env now session min max).1.request.Base.ProtocolVersion =
        some (env.maxProtocolVersion.vmin max) ∧
      ((handleGetRequest env now session min max).1.status = .Connected ∨
        ((handleGetRequest env now session min max).1.status = .Cancelled ∧
          (handleGetRequest env now session min max).2.errKind = some .Unknown ∧
          (env.maxProtocolVersion.vmin max).Below 2 5 = false ∧
          ∃ isreq, (handleGetRequest env now session min max).1.request = .Issuance isreq ∧
            env.copyFailure isreq ≠ none))) := by
  rcases hsr : env.SetRevocationRecords session.request.Base with ⟨base, e⟩
  rw [hsr] at hrev
  simp only at hrev
  subst hrev
  constructor
  · intro hbelow
    simp [handleGetRequest, hstatus, Session.markAlive, hsr, chooseProtocolVersion, hbelow,
      Session.fail, Reply.errKind, Reply.err, Reply.value, mkRemoteError]
  · intro hbelow
    unfold handleGetRequest
    simp only [hstatus, ne_eq, not_true_eq_false, if_false, Session.markAlive, hsr,
      chooseProtocolVersion, hbelow, Bool.false_eq_true]
    cases hlow : (env.maxProtocolVersion.vmin max).Below 2 5
    · simp only [Bool.false_eq_true, if_false]
      cases hreq : session.request with
      | Disclosure r =>
        simp [SessionRequest.setBase, SessionRequest.Base, Session.setStatus]
      | Signature r =>
        simp [SessionRequest.setBase, SessionRequest.Base, Session.setStatus]
      | Issuance r =>
        simp only [SessionRequest.setBase, SessionRequest.Base, Session.setStatus, copyObject]
        cases hcopy : env.copyFailure { r with Base := { base with
            ProtocolVersion := some (env.maxProtocolVersion.vmin max) } } with
        | none => simp [hcopy]
        | some err =>
          simp [hcopy, Session.fail, Session.setStatus, Reply.errKind, Reply.err, mkRemoteError,
            SessionRequest.Base]
    · simp only [if_true]
      cases hleg : env.Legacy (session.request.setBase base) <;>
        cases hreq : session.request <;>
        simp [SessionRequest.setBase, SessionRequest.Base, Session.setStatus]


/-- Witness for C5: versions 2.5 to 2.5 are negotiated to 2.5, versions 2.6 to 2.6 are
refused by a server that supports 2.4 to 2.5. -/
theorem handleGetRequest_negotiates_version_witness :
    (demoSession .Disclosing demoDisclosureRequest .Initialized).status = .Initialized ∧
    (handleGetRequest (demoEnv false) 7
      (demoSession .Disclosing demoDisclosureRequest .Initialized) v25 v25).1.version =
      some v25 ∧
    (handleGetRequest (demoEnv false) 7
      (demoSession .Disclosing demoDisclosureRequest .Initialized)
      { Major := 2, Minor := 6 } { Major := 2, Minor := 6 }).2.errKind =
      some .ProtocolVersion :=
  ⟨rfl,
   ((handleGetRequest_negotiates_version (demoEnv false) 7
      (demoSession .Disclosing demoDisclosureRequest .Initialized) v25 v25 rfl rfl).2
      (by decide)).1,
   ((handleGetRequest_negotiates_version (demoEnv false) 7
      (demoSession .Disclosing demoDisclosureRequest .Initialized)
      { Major := 2, Minor := 6 } { Major := 2, Minor := 6 } rfl rfl).1 (by decide)).1⟩

/-- C6, the code at the failing input: an `Initialized` issuance session for one credential
with revocation key "12345" and a client that offers versions 2.4 to 2.4. The handler
succeeds, negotiates 2.4 and returns the legacy request, whose credential still carries the
revocation key: the keys are cleared only on the path for versions from 2.5. -/
theorem handleGetRequest_legacy_returns_revocationKey :
    (demoSession .Issuing demoIssuanceRequest .Initialized).status = .Initialized ∧
    (handleGetRequest (demoEnv true) 7 (demoSession .Issuing demoIssuanceRequest .Initialized)
      v24 v24).1.version = some v24 ∧
    (handleGetRequest (demoEnv true) 7 (demoSession .Issuing demoIssuanceRequest .Initialized)
      v24 v24).2 =
      .ret (some (.legacy (.Issuance { demoBase with ProtocolVersion := some v24 }
        [demoCredential] []))) none ∧
    demoCredential.RevocationKey = "12345" := by
  decide

/-- What a successful `handleGetRequest` did: the session was `Initialized`, the revocation
records were fetched, a version was negotiated and stored in the session and in its request,
the legacy flag tells whether the legacy conversion succeeded, and the returned request is
the converted request below version 2.5 and the request with cleared revocation keys from
version 2.5 on. -/
theorem handleGetRequest_success (env : Env) (now : Nat) (session : Session)
    (min max : ProtocolVersion) (v : Option ReturnedRequest)
    (hret : (handleGetRequest env now session min max).2 = .ret v none) :
    session.status = .Initialized ∧
    ∃ base version r,
      v = some r ∧
      env.SetRevocationRecords session.request.Base = (base, none) ∧
      chooseProtocolVersion env min max = .ok version ∧
      (handleGetRequest env now session min max).1.version = some version ∧
      (handleGetRequest env now session min max).1.request =
        session.request.setBase { base with ProtocolVersion := some version } ∧
      ((handleGetRequest env now session min max).1.legacyCompatible = true ↔
        ∃ legacy, env.Legacy (session.request.setBase base) = .ok legacy) ∧
      (version.Below 2 5 = true →
        ∃ legacy, env.Legacy (session.request.setBase base) = .ok legacy ∧
          r = .legacy (legacy.setBase { legacy.Base with ProtocolVersion := some version })) ∧
      (version.Below 2 5 = false →
        r = .condiscon (stripRevocationKeys
          (session.request.setBase { base with ProtocolVersion := some version }))) := by
  by_cases hstatus : session.status = .Initialized
  swap
  · simp [handleGetRequest, hstatus] at hret
  refine ⟨hstatus, ?_⟩
  rcases hsr : env.SetRevocationRecords session.request.Base with ⟨base, e⟩
  cases e with
  | some e => simp [handleGetRequest, hstatus, Session.markAlive, hsr, Session.fail] at hret
  | none =>
    cases hchoose : chooseProtocolVersion env min max with
    | error e =>
      simp [handleGetRequest, hstatus, Session.markAlive, hsr, hchoose, Session.fail] at hret
    | ok version =>
      refine ⟨base, version, ?_⟩
      cases hreq : session.request with
      | Disclosure q =>
        simp only [hreq, SessionRequest.Base, SessionRequest.setBase] at hsr
        cases hneg : version.Below 2 5 <;>
          cases hleg : env.Legacy (.Disclosure { q with Base := base }) <;>
          simp [handleGetRequest, hstatus, Session.markAlive, hsr, hchoose, hneg, hleg, hreq,
            Session.setStatus, Session.fail, SessionRequest.setBase, SessionRequest.Base,
            stripRevocationKeys] at hret ⊢ <;>
          (subst hret; simp)
      | Signature q =>
        simp only [hreq, SessionRequest.Base, SessionRequest.setBase] at hsr
        cases hneg : version.Below 2 5 <;>
          cases hleg : env.Legacy (.Signature { q with Base := base }) <;>
          simp [handleGetRequest, hstatus, Session.markAlive, hsr, hchoose, hneg, hleg, hreq,
            Session.setStatus, Session.fail, SessionRequest.setBase, SessionRequest.Base,
            stripRevocationKeys] at hret ⊢ <;>
          (subst hret; simp)
      | Issuance q =>
        simp only [hreq, SessionRequest.Base, SessionRequest.setBase] at hsr
        cases hcopy : env.copyFailure
            { q with Base := { base with ProtocolVersion := some version } } <;>
          cases hneg : version.Below 2 5 <;>
          cases hleg : env.Legacy (.Issuance { q with Base := base }) <;>
          simp [handleGetRequest, hstatus, Session.markAlive, hsr, hchoose, hneg, hleg, hreq,
            Session.setStatus, Session.fail, SessionRequest.setBase, SessionRequest.Base,
            stripRevocationKeys, copyObject, hcopy] at hret ⊢ <;>
          (subst hret; simp)

/-- From version 2.5 on, every credential in the request that a successful
`handleGetRequest` returns has an empty `RevocationKey`. -/
theorem handleGetRequest_clears_revocationKeys (env : Env) (now : Nat) (session : Session)
    (min max version : ProtocolVersion) (r : ReturnedRequest)
    (hret : (handleGetRequest env now session min max).2 = .ret (some r) none)
    (hversion : (handleGetRequest env now session min max).1.version = some version)
    (hlow : version.Below 2 5 = false) :
    ∀ cred ∈ r.Credentials, cred.RevocationKey = "" := by
  obtain ⟨_, base, negotiated, r', hr, _, _, hv, _, _, _, hcon⟩ :=
    handleGetRequest_success env now session min max (some r) hret
  rw [hv] at hversion
  cases hversion
  cases hr
  rw [hcon hlow]
  cases session.request <;>
    simp [SessionRequest.setBase, stripRevocationKeys, ReturnedRequest.Credentials]

/-- C7: when `handleGetRequest` succeeds it returns a request (not nil); this request is the
legacy conversion of the session request, with its `ProtocolVersion` set to the negotiated
version, if and only if the negotiated version is below 2.5, and otherwise it is the
con-dis-con request of the session (revocation keys cleared); `session.legacyCompatible` is
true exactly when the legacy conversion succeeds, so whenever the legacy format is returned
the conversion did succeed. -/
theorem handleGetRequest_returns_legacy_iff_below_2_5 (env : Env) (now : Nat)
    (session : Session) (min max : ProtocolVersion) (v : Option ReturnedRequest)
    (hret : (handleGetRequest env now session min max).2 = .ret v none) :
    ∃ version r,
      v = some r ∧
      (handleGetRequest env now session min max).1.version = some version ∧
      (r.isLegacy = true ↔ version.Below 2 5 = true) ∧
      (r.isLegacy = true →
        (handleGetRequest env now session min max).1.legacyCompatible = true ∧
        ∃ legacy,
          env.Legacy (session.request.setBase
            (env.SetRevocationRecords session.request.Base).1) = .ok legacy ∧
          r = .legacy (legacy.setBase { legacy.Base with ProtocolVersion := some version })) ∧
      (r.isLegacy = false →
        r = .condiscon
          (stripRevocationKeys (handleGetRequest env now session min max).1.request) ∧
        (handleGetRequest env now session min max).1.request.Base.ProtocolVersion =
          some version) ∧
      ((handleGetRequest env now session min max).1.legacyCompatible = true ↔
        ∃ legacy,
          env.Legacy (session.request.setBase
            (env.SetRevocationRecords session.request.Base).1) = .ok legacy) := by
  obtain ⟨_, base, version, r, hr, hsr, _, hv, hreq, hcompat, hleg, hcon⟩ :=
    handleGetRequest_success env now session min max v hret
  rw [hsr]
  refine ⟨version, r, hr, hv, ?_, ?_, ?_, hcompat⟩
  · cases hlow : version.Below 2 5
    · rw [hcon hlow]
      simp [ReturnedRequest.isLegacy]
    · obtain ⟨legacy, _, hrl⟩ := hleg hlow
      rw [hrl]
      simp [ReturnedRequest.isLegacy]
  · intro hisLegacy
    cases hlow : version.Below 2 5
    · rw [hcon hlow] at hisLegacy
      simp [ReturnedRequest.isLegacy] at hisLegacy
    · obtain ⟨legacy, hok, hrl⟩ := hleg hlow
      exact ⟨hcompat.mpr ⟨legacy, hok⟩, legacy, hok, hrl⟩
  · intro hisLegacy
    cases hlow : version.Below 2 5
    · rw [hreq]
      refine ⟨hcon hlow, ?_⟩
      cases session.request <;> simp [SessionRequest.setBase, SessionRequest.Base]
    · obtain ⟨legacy, _, hrl⟩ := hleg hlow
      rw [hrl] at hisLegacy
      simp [ReturnedRequest.isLegacy] at hisLegacy

/-- Witness for C7: for a disclosure session, versions 2.4 to 2.4 give the legacy request and
versions 2.5 to 2.5 the con-dis-con request. -/
theorem handleGetRequest_returns_legacy_iff_below_2_5_witness :
    ((handleGetRequest (demoEnv false) 7
        (demoSession .Disclosing demoDisclosureRequest .Initialized) v24 v24).2 =
      .ret (some (.legacy (.Disclosure { demoBase with ProtocolVersion := some v24 }
        [["irma-demo.RU.studentCard.studentID"]]))) none) ∧
    (∃ version r,
      some (ReturnedRequest.legacy (.Disclosure { demoBase with ProtocolVersion := some v24 }
        [["irma-demo.RU.studentCard.studentID"]])) = some r ∧
      (handleGetRequest (demoEnv false) 7
        (demoSession .Disclosing demoDisclosureRequest .Initialized) v24 v24).1.version =
        some version ∧
      (r.isLegacy = true ↔ version.Below 2 5 = true)) :=
  ⟨by decide,
   let ⟨version, r, h1, h2, h3, _⟩ :=
     handleGetRequest_returns_legacy_iff_below_2_5 (demoEnv false) 7
       (demoSession .Disclosing demoDisclosureRequest .Initialized) v24 v24 _ (by decide)
   ⟨version, r, h1, h2, h3⟩⟩


/-! ### The public-key vector of `handlePostCommitments` -/

/-- The extracted keys: as many as proofs, the key at each position extracted from the
proof at that position. -/
theorem ExtractPublicKeys_spec (env : Env) (proofs : List Proof)
    (keys : List (Option PublicKey)) (h : ExtractPublicKeys env proofs = .ok keys) :
    keys.length = proofs.length ∧
    ∀ (i : Nat) (proof : Proof), proofs[i]? = some proof →
      ∃ key, env.extractPublicKey proof = .ok key ∧ keys[i]? = some (some key) := by
  induction proofs generalizing keys with
  | nil =>
    simp [ExtractPublicKeys] at h
    subst h
    simp
  | cons p ps ih =>
    unfold ExtractPublicKeys at h
    cases hp : env.extractPublicKey p with
    | error e => simp [hp] at h
    | ok key =>
      cases hps : ExtractPublicKeys env ps with
      | error e => simp [hp, hps] at h
      | ok ks =>
        simp [hp, hps] at h
        subst h
        obtain ⟨hlen, hidx⟩ := ih ks hps
        refine ⟨by simp [hlen], ?_⟩
        intro i proof hi
        cases i with
        | zero =>
          simp at hi
          subst hi
          exact ⟨key, hp, by simp⟩
        | succ i =>
          simp at hi
          simpa using hidx i proof hi

/-- The loop that appends the registry keys appends one key per credential, in order. -/
theorem appendCredentialKeys_eq (env : Env) (pubkeys : List (Option PublicKey))
    (credentials : List CredentialRequest) :
    appendCredentialKeys env pubkeys credentials =
      pubkeys ++ credentials.map
        (fun cred => (env.PublicKey cred.CredentialTypeID.IssuerIdentifier cred.KeyCounter).1) := by
  unfold appendCredentialKeys
  induction credentials generalizing pubkeys with
  | nil => simp
  | cons cred creds ih =>
    rw [List.foldl_cons, ih]
    simp

/-- The keyshare loop changes neither the number of proofs nor the second nonce. -/
theorem mergeKeyshareProofs_length (env : Env) (pubkeys : List (Option PublicKey))
    (rest : List Proof) (i : Nat) (commitments merged : IssueCommitmentMessage)
    (h : mergeKeyshareProofs env pubkeys rest i commitments = .ok merged) :
    merged.Proofs.length = commitments.Proofs.length ∧ merged.Nonce2 = commitments.Nonce2 := by
  induction rest generalizing i commitments with
  | nil =>
    simp [mergeKeyshareProofs] at h
    subst h
    exact ⟨rfl, rfl⟩
  | cons proof rest ih =>
    unfold mergeKeyshareProofs at h
    split at h
    · simp at h
    · simp at h
    · dsimp only at h
      split at h
      · split at h
        · simp at h
        · have := ih _ _ h
          simpa using this
      · exact ih _ _ h

/-- The keyshare loop never indexes `pubkeys` out of range when there is a key for each of
the proofs left to visit. -/
theorem mergeKeyshareProofs_index (env : Env) (pubkeys : List (Option PublicKey))
    (rest : List Proof) (i : Nat) (commitments : IssueCommitmentMessage)
    (h : i + rest.length ≤ pubkeys.length) :
    mergeKeyshareProofs env pubkeys rest i commitments ≠ .panicked .indexOutOfRange := by
  induction rest generalizing i commitments with
  | nil => simp [mergeKeyshareProofs]
  | cons proof rest ih =>
    have hi : i < pubkeys.length := by simp at h; omega
    have hnext : i + 1 + rest.length ≤ pubkeys.length := by simp at h; omega
    unfold mergeKeyshareProofs
    split
    · rename_i hnone
      rw [List.getElem?_eq_none_iff] at hnone
      omega
    · simp
    · dsimp only
      split
      · split
        · simp
        · exact ih _ _ hnext
      · exact ih _ _ hnext

/-- The signing loop never indexes the proofs out of range when there is a proof for each
of the credentials left to sign. -/
theorem signCredentials_index (env : Env) (now : Nat) (commitments : IssueCommitmentMessage)
    (discloseCount : Nat) (credentials : List CredentialRequest) (i : Nat) (store : Store)
    (sigs : List IssueSignatureMessage)
    (h : i + credentials.length + discloseCount ≤ commitments.Proofs.length) :
    (signCredentials env now commitments discloseCount credentials i store sigs).2 ≠
      .panicked .indexOutOfRange := by
  induction credentials generalizing i store sigs with
  | nil => simp [signCredentials]
  | cons cred creds ih =>
    have hi : i + discloseCount < commitments.Proofs.length := by simp at h; omega
    have hnext : i + 1 + creds.length + discloseCount ≤ commitments.Proofs.length := by
      simp at h; omega
    unfold signCredentials
    dsimp only
    split
    · rename_i hnone
      rw [List.getElem?_eq_none_iff] at hnone
      omega
    · simp
    · split
      · simp
      · split
        · simp
        · split
          · simp
          · exact ih _ _ _ hnext

/-- The public-key vector built by `handlePostCommitments` when there are at least as many
proofs as credentials: one entry per proof. -/
theorem pubkeys_length (env : Env) (request : IssuanceRequest)
    (commitments : IssueCommitmentMessage) (keys : List (Option PublicKey))
    (hcount : ¬ ((commitments.Proofs.length : Int) - (request.Credentials.length : Int) < 0))
    (hkeys : ExtractPublicKeys env (commitments.Proofs.take
      ((commitments.Proofs.length : Int) - (request.Credentials.length : Int)).toNat) = .ok keys) :
    (appendCredentialKeys env keys request.Credentials).length = commitments.Proofs.length := by
  have hlen := (ExtractPublicKeys_spec env _ keys hkeys).1
  rw [appendCredentialKeys_eq, List.length_append, List.length_map, hlen, List.length_take]
  omega

/-- The reply of `handlePostCommitments` is never an index out of range failure. -/
theorem handlePostCommitments_index (env : Env) (now : Nat) (session : Session) (store : Store)
    (commitments : IssueCommitmentMessage) :
    (handlePostCommitments env now session store commitments).2.2 ≠
      .panicked .indexOutOfRange := by
  unfold handlePostCommitments
  split
  · simp
  · try dsimp only
    split
    · rename_i request hreq
      try dsimp only
      split
      · simp [failWith_reply]
      · rename_i hcount
        split
        · simp [failWith_reply]
        · rename_i keys hkeys
          have hlen := pubkeys_length env request commitments keys hcount hkeys
          try dsimp only
          split
          · rename_i reason hmerge
            intro hcontra
            simp only [Reply.panicked.injEq] at hcontra
            subst hcontra
            exact mergeKeyshareProofs_index env _ _ 0 commitments (by omega) hmerge
          · simp [failWith_reply]
          · rename_i merged hmerge
            have hm := (mergeKeyshareProofs_length env _ _ 0 commitments merged hmerge).1
            unfold verifyAndSign
            try dsimp only
            split
            · split <;> simp [failWith_reply]
            · split
              · simp [failWith_reply]
              · split
                · simp [failWith_reply]
                · split
                  · rename_i st reason hsign
                    intro hcontra
                    simp only [Reply.panicked.injEq] at hcontra
                    subst hcontra
                    have := signCredentials_index env now merged
                      ((commitments.Proofs.length : Int) -
                        (request.Credentials.length : Int)).toNat
                      request.Credentials 0 store [] (by omega)
                    rw [hsign] at this
                    exact this rfl
                  · simp [failWith_reply]
                  · simp
    · simp


/-- C8: in `handlePostCommitments` with `n` proofs and `k` requested credentials,
`d = n - k >= 0`, the public-key vector has exactly `n` entries in proof order: entry `i`
for `i < d` is the key extracted from disclosure proof `i`, and entry `d + j` for `j < k` is
the registry key looked up with the issuer of `request.Credentials[j]` and its `KeyCounter`;
hence `pubkeys[i]` for `i < n` and `Proofs[j + d]` for `j < k` are in range, and the handler
never fails with an index out of range. -/
theorem pubkeys_parallel_proofs (env : Env) (request : IssuanceRequest)
    (commitments : IssueCommitmentMessage) (keys : List (Option PublicKey))
    (hcount : ¬ ((commitments.Proofs.length : Int) - (request.Credentials.length : Int) < 0))
    (hkeys : ExtractPublicKeys env (commitments.Proofs.take
      ((commitments.Proofs.length : Int) - (request.Credentials.length : Int)).toNat) = .ok keys) :
    let n := commitments.Proofs.length
    let k := request.Credentials.length
    let d := ((commitments.Proofs.length : Int) - (request.Credentials.length : Int)).toNat
    let pubkeys := appendCredentialKeys env keys request.Credentials
    d + k = n ∧
    pubkeys.length = n ∧
    (∀ i, i < d → ∃ proof key, commitments.Proofs[i]? = some proof ∧
      env.extractPublicKey proof = .ok key ∧ pubkeys[i]? = some (some key)) ∧
    (∀ j, j < k → ∃ cred, request.Credentials[j]? = some cred ∧
      pubkeys[d + j]? =
        some (env.PublicKey cred.CredentialTypeID.IssuerIdentifier cred.KeyCounter).1) ∧
    (∀ i, i < n → pubkeys[i]?.isSome = true) ∧
    (∀ merged, mergeKeyshareProofs env pubkeys commitments.Proofs 0 commitments = .ok merged →
      ∀ j, j < k → merged.Proofs[j + d]?.isSome = true) ∧
    (∀ now session store,
      (handlePostCommitments env now session store commitments).2.2 ≠
        .panicked .indexOutOfRange) := by
  intro n k d pubkeys
  obtain ⟨hklen, hkidx⟩ := ExtractPublicKeys_spec env _ keys hkeys
  have hd : d + k = n := by
    show ((commitments.Proofs.length : Int) - (request.Credentials.length : Int)).toNat +
      request.Credentials.length = commitments.Proofs.length
    omega
  have hkd : keys.length = d := by
    rw [hklen, List.length_take]
    omega
  have hpk : pubkeys = keys ++ request.Credentials.map
      (fun cred => (env.PublicKey cred.CredentialTypeID.IssuerIdentifier cred.KeyCounter).1) :=
    appendCredentialKeys_eq env keys request.Credentials
  have hlen : pubkeys.length = n := pubkeys_length env request commitments keys hcount hkeys
  refine ⟨hd, hlen, ?_, ?_, ?_, ?_, ?_⟩
  · intro i hi
    have hin : i < commitments.Proofs.length := by omega
    have hproof : (commitments.Proofs.take d)[i]? = some (commitments.Proofs[i]) := by
      rw [List.getElem?_take_of_lt hi, List.getElem?_eq_getElem hin]
    obtain ⟨key, hkey, hget⟩ := hkidx i _ hproof
    refine ⟨commitments.Proofs[i], key, List.getElem?_eq_getElem hin, hkey, ?_⟩
    rw [hpk, List.getElem?_append_left (by omega)]
    exact hget
  · intro j hj
    refine ⟨request.Credentials[j], List.getElem?_eq_getElem hj, ?_⟩
    rw [hpk, List.getElem?_append_right (by omega)]
    simp [hkd, List.getElem?_eq_getElem hj]
  · intro i hi
    rw [List.getElem?_eq_getElem (by omega)]
    rfl
  · intro merged hmerge j hj
    have hm := (mergeKeyshareProofs_length env _ _ 0 commitments merged hmerge).1
    rw [List.getElem?_eq_getElem (by omega)]
    rfl
  · intro now session store
    exact handlePostCommitments_index env now session store commitments

/-- Witness for C8: two proofs and one credential give one extracted key followed by one
registry key. -/
theorem pubkeys_parallel_proofs_witness :
    ¬ ((demoCommitments.Proofs.length : Int) - (demoIssuance.Credentials.length : Int) < 0) ∧
    (appendCredentialKeys (demoEnv false) [some demoPublicKey] demoIssuance.Credentials).length =
      demoCommitments.Proofs.length :=
  ⟨by decide,
   (pubkeys_parallel_proofs (demoEnv false) demoIssuance demoCommitments [some demoPublicKey]
      (by decide) rfl).2.1⟩


/-! ### Verification and signing in `handlePostCommitments` -/

/-- On a `Connected` issuance session with enough proofs whose key extraction and keyshare
merge succeed, `handlePostCommitments` is `verifyAndSign` on the merged proofs. -/
theorem handlePostCommitments_eq_verifyAndSign (env : Env) (now : Nat) (session : Session)
    (store : Store) (commitments merged : IssueCommitmentMessage) (request : IssuanceRequest)
    (keys : List (Option PublicKey))
    (hstatus : session.status = .Connected) (hreq : session.request = .Issuance request)
    (hcount : ¬ ((commitments.Proofs.length : Int) - (request.Credentials.length : Int) < 0))
    (hkeys : ExtractPublicKeys env (commitments.Proofs.take
      ((commitments.Proofs.length : Int) - (request.Credentials.length : Int)).toNat) = .ok keys)
    (hmerge : mergeKeyshareProofs env (appendCredentialKeys env keys request.Credentials)
      commitments.Proofs 0 commitments = .ok merged) :
    handlePostCommitments env now session store commitments =
      verifyAndSign env now (session.markAlive now) store request merged
        (appendCredentialKeys env keys request.Credentials)
        ((commitments.Proofs.length : Int) - (request.Credentials.length : Int)).toNat := by
  unfold handlePostCommitments
  rw [if_neg (by simp [hstatus])]
  have hreq2 : (session.markAlive now).request = .Issuance request := hreq
  simp only [hreq2]
  rw [if_neg hcount]
  simp only [hkeys, hmerge]

/-- When verification does not end with status `Valid` and without error, `verifyAndSign`
fails the session, returns no signature and appends nothing to the store; the error kind is
`UnknownPublicKey` for the missing-public-key error, `Unknown` for any other error,
`AttributesExpired` for the status `Expired` and `InvalidProofs` for any other status. -/
theorem verifyAndSign_rejects (env : Env) (now : Nat) (session : Session) (store : Store)
    (request : IssuanceRequest) (commitments : IssueCommitmentMessage)
    (pubkeys : List (Option PublicKey)) (discloseCount : Nat)
    (disclosed : List (List DisclosedAttribute)) (proofStatus : ProofStatus)
    (err : Option GoError)
    (hverify : env.VerifyAgainstRequest commitments.Disclosure request pubkeys now =
      (disclosed, proofStatus, err))
    (hbad : err ≠ none ∨ proofStatus ≠ .Valid) :
    (verifyAndSign env now session store request commitments pubkeys discloseCount).1.status =
      .Cancelled ∧
    (verifyAndSign env now session store request commitments pubkeys discloseCount).2.1 =
      store ∧
    (verifyAndSign env now session store request commitments pubkeys discloseCount).2.2 =
      .ret none (some (mkRemoteError (rejectionKind err proofStatus) "")) := by
  unfold verifyAndSign
  simp only [hverify]
  cases err with
  | some e =>
    by_cases hm : e = .ErrorMissingPublicKey <;>
      simp [hm, failWith, Session.fail, Session.setStatus, rejectionKind]
  | none =>
    have hne : proofStatus ≠ .Valid := by
      rcases hbad with h | h
      · exact absurd rfl h
      · exact h
    by_cases he : proofStatus = .Expired <;>
      simp [he, hne, failWith, Session.fail, Session.setStatus, rejectionKind]


/-- C9: on a `Connected` issuance session whose key extraction and keyshare merge succeed,
`handlePostCommitments` fails with `UnknownPublicKey` when proof verification returns the
missing-public-key error, with `AttributesExpired` when it returns the proof status
`Expired`, and with `InvalidProofs` (never `MalformedInput`) when it returns any proof
status other than `Valid` and `Expired`; in each of these cases no signature is returned and
no issuance record is added, and signatures are returned only when the proof status is
`Valid`. -/
theorem handlePostCommitments_rejects_invalid_proofs (env : Env) (now : Nat)
    (session : Session) (store : Store) (commitments merged : IssueCommitmentMessage)
    (request : IssuanceRequest) (keys : List (Option PublicKey))
    (disclosed : List (List DisclosedAttribute)) (proofStatus : ProofStatus)
    (err : Option GoError)
    (hstatus : session.status = .Connected) (hreq : session.request = .Issuance request)
    (hcount : ¬ ((commitments.Proofs.length : Int) - (request.Credentials.length : Int) < 0))
    (hkeys : ExtractPublicKeys env (commitments.Proofs.take
      ((commitments.Proofs.length : Int) - (request.Credentials.length : Int)).toNat) = .ok keys)
    (hmerge : mergeKeyshareProofs env (appendCredentialKeys env keys request.Credentials)
      commitments.Proofs 0 commitments = .ok merged)
    (hverify : env.VerifyAgainstRequest merged.Disclosure request
      (appendCredentialKeys env keys request.Credentials) now = (disclosed, proofStatus, err)) :
    (err = some .ErrorMissingPublicKey →
      (handlePostCommitments env now session store commitments).2.2.errKind =
        some .UnknownPublicKey) ∧
    (err = none → proofStatus = .Expired →
      (handlePostCommitments env now session store commitments).2.2.errKind =
        some .AttributesExpired) ∧
    (err = none → proofStatus ≠ .Valid → proofStatus ≠ .Expired →
      (handlePostCommitments env now session store commitments).2.2.errKind =
        some .InvalidProofs ∧
      (handlePostCommitments env now session store commitments).2.2.errKind ≠
        some .MalformedInput) ∧
    ((err ≠ none ∨ proofStatus ≠ .Valid) →
      (handlePostCommitments env now session store commitments).2.2.value = none ∧
      (handlePostCommitments env now session store commitments).2.1 = store ∧
      (handlePostCommitments env now session store commitments).1.status = .Cancelled) ∧
    (∀ sigs, (handlePostCommitments env now session store commitments).2.2.value = some sigs →
      err = none ∧ proofStatus = .Valid) := by
  rw [handlePostCommitments_eq_verifyAndSign env now session store commitments merged request
    keys hstatus hreq hcount hkeys hmerge]
  have hrej := verifyAndSign_rejects env now (session.markAlive now) store request merged
    (appendCredentialKeys env keys request.Credentials)
    ((commitments.Proofs.length : Int) - (request.Credentials.length : Int)).toNat
    disclosed proofStatus err hverify
  refine ⟨?_, ?_, ?_, ?_, ?_⟩
  · intro he
    obtain ⟨_, _, hreply⟩ := hrej (Or.inl (by simp [he]))
    rw [hreply, he]
    simp [Reply.errKind, Reply.err, mkRemoteError, rejectionKind]
  · intro he hp
    obtain ⟨_, _, hreply⟩ := hrej (Or.inr (by simp [hp]))
    rw [hreply, he, hp]
    simp [Reply.errKind, Reply.err, mkRemoteError, rejectionKind]
  · intro he hv hx
    obtain ⟨_, _, hreply⟩ := hrej (Or.inr hv)
    rw [hreply, he]
    simp [Reply.errKind, Reply.err, mkRemoteError, rejectionKind, hx]
  · intro hbad
    obtain ⟨hst, hstore, hreply⟩ := hrej hbad
    rw [hreply]
    exact ⟨rfl, hstore, hst⟩
  · intro sigs hsigs
    by_contra hcon
    have hbad : err ≠ none ∨ proofStatus ≠ .Valid := by
      by_cases he : err = none
      · right
        intro hp
        exact hcon ⟨he, hp⟩
      · left
        exact he
    obtain ⟨_, _, hreply⟩ := hrej hbad
    rw [hreply] at hsigs
    simp [Reply.value] at hsigs

/-- Witness for C9: expired attributes in an issuance session with one disclosure proof and
one commitment. -/
theorem handlePostCommitments_rejects_invalid_proofs_witness :
    (demoSession .Issuing demoIssuanceRequest .Connected).status = .Connected ∧
    (handlePostCommitments
      { demoEnv true with VerifyAgainstRequest := fun _ _ _ _ => ([], .Expired, none) } 7
      (demoSession .Issuing demoIssuanceRequest .Connected) ⟨[]⟩ demoCommitments).2.2.errKind =
      some .AttributesExpired :=
  ⟨rfl,
   (handlePostCommitments_rejects_invalid_proofs
      { demoEnv true with VerifyAgainstRequest := fun _ _ _ _ => ([], .Expired, none) } 7
      (demoSession .Issuing demoIssuanceRequest .Connected) ⟨[]⟩ demoCommitments demoCommitments
      demoIssuance [some demoPublicKey] [] .Expired none rfl rfl (by decide) rfl rfl rfl).2.1
      rfl rfl⟩


/-- When the signing loop completes it has appended one signature per credential, in
credential order, each made from the proof at the position of the credential after the
disclosure proofs. -/
theorem signCredentials_spec (env : Env) (now : Nat) (commitments : IssueCommitmentMessage)
    (discloseCount : Nat) (credentials : List CredentialRequest) (i : Nat)
    (store store' : Store) (sigs0 sigs : List IssueSignatureMessage)
    (h : signCredentials env now commitments discloseCount credentials i store sigs0 =
      (store', .ok sigs)) :
    ∃ new, sigs = sigs0 ++ new ∧ new.length = credentials.length ∧
      ∀ (j : Nat) (cred : CredentialRequest), credentials[j]? = some cred →
        ∃ sig, new[j]? = some sig ∧
          IsIssuedSignature env now commitments (i + j + discloseCount) cred sig := by
  induction credentials generalizing i store sigs0 with
  | nil =>
    simp only [signCredentials, Prod.mk.injEq, Step.ok.injEq] at h
    exact ⟨[], by simp [h.2], rfl, by simp⟩
  | cons cred creds ih =>
    unfold signCredentials at h
    dsimp only at h
    split at h
    · simp at h
    · simp at h
    · rename_i U response hproof
      split at h
      · simp at h
      · rename_i attributes hattrs
        split at h
        · simp at h
        · rename_i store1 witness nonrevAttr hwitness
          split at h
          · simp at h
          · rename_i sig0 hsig
            obtain ⟨new, hnew, hlen, hall⟩ := ih _ _ _ h
            refine ⟨{ sig0 with NonRevocationWitness := witness } :: new, ?_, ?_, ?_⟩
            · rw [hnew]
              simp
            · simp [hlen]
            · intro j c hj
              cases j with
              | zero =>
                simp only [List.getElem?_cons_zero, Option.some.injEq] at hj
                subst hj
                exact ⟨_, by simp, U, response, attributes, witness, nonrevAttr, sig0, store,
                  store1, by simpa using hproof, hattrs, hwitness, hsig, rfl⟩
              | succ j =>
                simp only [List.getElem?_cons_succ] at hj
                obtain ⟨sig, hget, hissued⟩ := hall j c hj
                refine ⟨sig, by simpa using hget, ?_⟩
                have hidx : i + (j + 1) + discloseCount = i + 1 + j + discloseCount := by omega
                rw [hidx]
                exact hissued

/-- Without distributed schemes the keyshare loop leaves the commitment message as it is. -/
theorem mergeKeyshareProofs_not_distributed (env : Env) (pubkeys : List (Option PublicKey))
    (rest : List Proof) (i : Nat) (commitments merged : IssueCommitmentMessage)
    (hno : ∀ scheme, env.Distributed scheme = false)
    (h : mergeKeyshareProofs env pubkeys rest i commitments = .ok merged) :
    merged = commitments := by
  induction rest generalizing i with
  | nil =>
    simp [mergeKeyshareProofs] at h
    exact h.symm
  | cons proof rest ih =>
    unfold mergeKeyshareProofs at h
    split at h
    · simp at h
    · simp at h
    · simp only [hno, Bool.false_eq_true, if_false] at h
      exact ih _ h


/-- When `verifyAndSign` returns without error, the proofs were valid, the signing loop
completed, its signatures are returned and the session is `Done`. -/
theorem verifyAndSign_success (env : Env) (now : Nat) (session : Session) (store : Store)
    (request : IssuanceRequest) (commitments : IssueCommitmentMessage)
    (pubkeys : List (Option PublicKey)) (discloseCount : Nat)
    (v : Option (List IssueSignatureMessage))
    (hret : (verifyAndSign env now session store request commitments pubkeys
      discloseCount).2.2 = .ret v none) :
    ∃ disclosed sigs store',
      env.VerifyAgainstRequest commitments.Disclosure request pubkeys now =
        (disclosed, .Valid, none) ∧
      signCredentials env now commitments discloseCount request.Credentials 0 store [] =
        (store', .ok sigs) ∧
      v = some sigs ∧
      (verifyAndSign env now session store request commitments pubkeys
        discloseCount).1.status = .Done ∧
      (verifyAndSign env now session store request commitments pubkeys
        discloseCount).2.1 = store' := by
  rcases hverify : env.VerifyAgainstRequest commitments.Disclosure request pubkeys now with
    ⟨disclosed, proofStatus, err⟩
  by_cases hbad : err ≠ none ∨ proofStatus ≠ .Valid
  · obtain ⟨_, _, hreply⟩ := verifyAndSign_rejects env now session store request commitments
      pubkeys discloseCount disclosed proofStatus err hverify hbad
    rw [hreply] at hret
    simp at hret
  · simp only [ne_eq, not_or, not_not] at hbad
    obtain ⟨he, hp⟩ := hbad
    subst he hp
    unfold verifyAndSign at hret ⊢
    simp only [hverify] at hret ⊢
    rcases hsign : signCredentials env now commitments discloseCount request.Credentials 0
      store [] with ⟨store', step⟩
    cases step with
    | ok sigs =>
      simp [hsign, Session.setStatus] at hret ⊢
      exact hret.symm
    | fail kind message => simp [hsign, failWith, Session.fail] at hret
    | panicked reason => simp [hsign] at hret

/-- When `handlePostCommitments` returns without error, the session was a `Connected`
issuance session with enough proofs, key extraction and keyshare merge succeeded, the merged
proofs were valid, and the signatures of the signing loop are returned. -/
theorem handlePostCommitments_success (env : Env) (now : Nat) (session : Session)
    (store : Store) (commitments : IssueCommitmentMessage)
    (v : Option (List IssueSignatureMessage))
    (hret : (handlePostCommitments env now session store commitments).2.2 = .ret v none) :
    ∃ request keys merged,
      session.status = .Connected ∧
      session.request = .Issuance request ∧
      ¬ ((commitments.Proofs.length : Int) - (request.Credentials.length : Int) < 0) ∧
      ExtractPublicKeys env (commitments.Proofs.take
        ((commitments.Proofs.length : Int) - (request.Credentials.length : Int)).toNat) =
          .ok keys ∧
      mergeKeyshareProofs env (appendCredentialKeys env keys request.Credentials)
        commitments.Proofs 0 commitments = .ok merged := by
  unfold handlePostCommitments at hret
  split at hret
  · simp at hret
  · rename_i hstatus
    try dsimp only at hret
    split at hret
    · rename_i request hreq
      try dsimp only at hret
      split at hret
      · simp [failWith_reply] at hret
      · rename_i hcount
        split at hret
        · simp [failWith_reply] at hret
        · rename_i keys hkeys
          try dsimp only at hret
          split at hret
          · simp at hret
          · simp [failWith_reply] at hret
          · rename_i merged hmerge
            exact ⟨request, keys, merged, by simpa using hstatus, hreq, hcount, hkeys, hmerge⟩
    · simp at hret


/-- C10: when `handlePostCommitments` succeeds on a request with `k` credentials and a
commitment message with `n = d + k` proofs, it returns exactly `k` signatures in credential
order, where signature `j` is the CL issuer's signature over the commitment `U` of proof
`d + j` (which is a `ProofU`; the proofs are those of the message after the keyshare merge,
which are the proofs as received when no scheme is distributed), the attribute integers of
`request.Credentials[j]` computed with metadata byte `0x03`, the non-revocation attribute if
any, and `Nonce2` of the commitment message; and the session status is `Done`. -/
theorem handlePostCommitments_issues_signatures (env : Env) (now : Nat) (session : Session)
    (store : Store) (commitments : IssueCommitmentMessage)
    (v : Option (List IssueSignatureMessage))
    (hret : (handlePostCommitments env now session store commitments).2.2 = .ret v none) :
    ∃ request keys merged sigs,
      session.request = .Issuance request ∧
      v = some sigs ∧
      mergeKeyshareProofs env (appendCredentialKeys env keys request.Credentials)
        commitments.Proofs 0 commitments = .ok merged ∧
      merged.Proofs.length = commitments.Proofs.length ∧
      merged.Nonce2 = commitments.Nonce2 ∧
      ((∀ scheme, env.Distributed scheme = false) → merged = commitments) ∧
      ((commitments.Proofs.length : Int) - (request.Credentials.length : Int)).toNat +
        request.Credentials.length = commitments.Proofs.length ∧
      sigs.length = request.Credentials.length ∧
      (∀ (j : Nat) (cred : CredentialRequest), request.Credentials[j]? = some cred →
        ∃ sig, sigs[j]? = some sig ∧
          IsIssuedSignature env now merged
            (((commitments.Proofs.length : Int) - (request.Credentials.length : Int)).toNat + j)
            cred sig) ∧
      (handlePostCommitments env now session store commitments).1.status = .Done := by
  obtain ⟨request, keys, merged, hstatus, hreq, hcount, hkeys, hmerge⟩ :=
    handlePostCommitments_success env now session store commitments v hret
  have heq := handlePostCommitments_eq_verifyAndSign env now session store commitments merged
    request keys hstatus hreq hcount hkeys hmerge
  rw [heq] at hret ⊢
  obtain ⟨disclosed, sigs, store', _, hsign, hv, hdone, _⟩ :=
    verifyAndSign_success env now _ store request merged _ _ v hret
  obtain ⟨new, hnew, hlen, hall⟩ := signCredentials_spec env now merged _ _ 0 store store' []
    sigs hsign
  obtain ⟨hmlen, hnonce⟩ := mergeKeyshareProofs_length env _ _ 0 commitments merged hmerge
  simp only [List.nil_append] at hnew
  subst hnew
  refine ⟨request, keys, merged, sigs, hreq, hv, hmerge, hmlen, hnonce, ?_, by omega, hlen, ?_,
    hdone⟩
  · intro hno
    exact mergeKeyshareProofs_not_distributed env _ _ 0 commitments merged hno hmerge
  · intro j cred hj
    obtain ⟨sig, hget, hissued⟩ := hall j cred hj
    refine ⟨sig, hget, ?_⟩
    have hidx : ((commitments.Proofs.length : Int) - (request.Credentials.length : Int)).toNat + j
        = 0 + j + ((commitments.Proofs.length : Int) -
          (request.Credentials.length : Int)).toNat := by omega
    rw [hidx]
    exact hissued

/-- Witness for C10: one disclosure proof and one commitment `U = 6` for one credential give
one signature, and the session is `Done`. -/
theorem handlePostCommitments_issues_signatures_witness :
    (handlePostCommitments (demoEnv false) 7
      (demoSession .Issuing demoIssuanceRequest .Connected) ⟨[]⟩ demoCommitments).2.2 =
      .ret (some [{ Signature := 27, Proof := 0, NonRevocationWitness := none }]) none ∧
    (handlePostCommitments (demoEnv false) 7
      (demoSession .Issuing demoIssuanceRequest .Connected) ⟨[]⟩ demoCommitments).1.status =
      .Done :=
  ⟨by decide,
   let ⟨_, _, _, _, _, _, _, _, _, _, _, _, _, hdone⟩ :=
     handlePostCommitments_issues_signatures (demoEnv false) 7
       (demoSession .Issuing demoIssuanceRequest .Connected) ⟨[]⟩ demoCommitments _
       (by decide :
         (handlePostCommitments (demoEnv false) 7
           (demoSession .Issuing demoIssuanceRequest .Connected) ⟨[]⟩ demoCommitments).2.2 =
         .ret (some [{ Signature := 27, Proof := 0, NonRevocationWitness := none }]) none)
   hdone⟩


/-! ### Issuance records written by the signing loop -/

/-- When the revocation block succeeds, either the credential is not recorded (no witness,
no non-revocation attribute, store unchanged), or a witness was generated, its `E` is the
non-revocation attribute, and exactly the record of this credential, with `Attr` the `E`
of the witness, was appended to the store. -/
theorem issueWitness_ok (env : Env) (now : Nat) (cred : CredentialRequest)
    (attributes : AttributeList) (sk : Option PrivateKey) (store store' : Store)
    (witness : Option Witness) (nonrevAttr : Option Nat)
    (h : issueWitness env now cred attributes sk store = (store', .ok (witness, nonrevAttr))) :
    (revocationEnabled env cred = false ∧ witness = none ∧ nonrevAttr = none ∧
        store' = store) ∨
    (revocationEnabled env cred = true ∧
      ∃ w, witness = some w ∧ nonrevAttr = some w.E ∧
        store'.issuanceRecords =
          store.issuanceRecords ++ [issuanceRecordFor now cred attributes w]) := by
  unfold issueWitness at h
  unfold revocationEnabled
  split at h
  · rename_i hsup
    split at h
    · simp at h
    · rename_i db hdb
      split at h
      · rename_i hen
        split at h
        · simp at h
        · rename_i w hw
          dsimp only at h
          split at h
          · simp at h
          · simp only [Prod.mk.injEq, Except.ok.injEq] at h
            obtain ⟨hs, hwit, hnr⟩ := h
            right
            refine ⟨by simp [hsup, hdb, hen], w, hwit.symm, hnr.symm, ?_⟩
            rw [← hs]
            rfl
      · rename_i hen
        simp only [Prod.mk.injEq, Except.ok.injEq] at h
        obtain ⟨hs, hwit, hnr⟩ := h
        left
        exact ⟨by simp [hsup, hdb, hen], hwit.symm, hnr.symm, hs.symm⟩
  · rename_i hsup
    simp only [Prod.mk.injEq, Except.ok.injEq] at h
    obtain ⟨hs, hwit, hnr⟩ := h
    left
    exact ⟨by simp [hsup], hwit.symm, hnr.symm, hs.symm⟩

/-- When the revocation block fails, it leaves the store as it was. -/
theorem issueWitness_error (env : Env) (now : Nat) (cred : CredentialRequest)
    (attributes : AttributeList) (sk : Option PrivateKey) (store store' : Store)
    (e : ErrorKind × String)
    (h : issueWitness env now cred attributes sk store = (store', .error e)) :
    store' = store := by
  unfold issueWitness at h
  dsimp only at h
  repeat' split at h
  all_goals simp at h
  all_goals exact h.1.symm


/-- What the signing loop has done when it completes: the store has grown by one record for
each credential whose issuance is recorded, in credential order and with the revocation key
of the credential as `Key`; and each credential was signed with either no witness and no
non-revocation attribute, or a witness whose `E` is both the non-revocation attribute given
to the CL issuer and the `Attr` of the record appended for the credential. -/
theorem signCredentials_records (env : Env) (now : Nat) (commitments : IssueCommitmentMessage)
    (discloseCount : Nat) (credentials : List CredentialRequest) (i : Nat)
    (store store' : Store) (sigs0 sigs : List IssueSignatureMessage)
    (h : signCredentials env now commitments discloseCount credentials i store sigs0 =
      (store', .ok sigs)) :
    ∃ recs, store'.issuanceRecords = store.issuanceRecords ++ recs ∧
      recs.map (fun r => (r.1, r.2.Key)) =
        (credentials.filter (revocationEnabled env)).map
          (fun cred => (cred.CredentialTypeID, cred.RevocationKey)) ∧
      ∀ (j : Nat) (cred : CredentialRequest), credentials[j]? = some cred →
        ∃ U response attributes witness nonrevAttr sig0,
          commitments.Proofs[i + j + discloseCount]? = some (.ProofU U response) ∧
          env.AttributeList cred 0x03 = .ok attributes ∧
          env.IssueSignature (env.PrivateKey cred.CredentialTypeID.IssuerIdentifier).1
            (env.PublicKey cred.CredentialTypeID.IssuerIdentifier cred.KeyCounter).1
            U attributes.Ints nonrevAttr commitments.Nonce2 = .ok sig0 ∧
          sigs[sigs0.length + j]? = some { sig0 with NonRevocationWitness := witness } ∧
          ((revocationEnabled env cred = false ∧ witness = none ∧ nonrevAttr = none) ∨
            (revocationEnabled env cred = true ∧
              ∃ w, witness = some w ∧ nonrevAttr = some w.E ∧
                issuanceRecordFor now cred attributes w ∈ recs)) := by
  induction credentials generalizing i store sigs0 with
  | nil =>
    simp only [signCredentials, Prod.mk.injEq, Step.ok.injEq] at h
    refine ⟨[], by simp [h.1], by simp, by simp⟩
  | cons cred creds ih =>
    have h0 := h
    unfold signCredentials at h
    dsimp only at h
    split at h
    · simp at h
    · simp at h
    · rename_i U response hproof
      split at h
      · simp at h
      · rename_i attributes hattrs
        split at h
        · simp at h
        · rename_i store1 witness nonrevAttr hwitness
          split at h
          · simp at h
          · rename_i sig0 hsig
            obtain ⟨recs', hst, hmap, hall⟩ := ih _ _ _ h
            obtain ⟨new, hnew, _, _⟩ := signCredentials_spec env now commitments discloseCount
              creds (i + 1) store1 store' _ sigs h
            have hhead : sigs[sigs0.length + 0]? =
                some { sig0 with NonRevocationWitness := witness } := by
              rw [hnew, List.append_assoc, Nat.add_zero,
                List.getElem?_append_right (Nat.le_refl _)]
              simp
            have htail : ∀ (j : Nat) (c : CredentialRequest), creds[j]? = some c →
                ∀ recs : List (CredentialTypeIdentifier × IssuanceRecord),
                (∀ r, r ∈ recs' → r ∈ recs) →
                ∃ U response attributes witness nonrevAttr sig0,
                  commitments.Proofs[i + (j + 1) + discloseCount]? =
                    some (.ProofU U response) ∧
                  env.AttributeList c 0x03 = .ok attributes ∧
                  env.IssueSignature (env.PrivateKey c.CredentialTypeID.IssuerIdentifier).1
                    (env.PublicKey c.CredentialTypeID.IssuerIdentifier c.KeyCounter).1
                    U attributes.Ints nonrevAttr commitments.Nonce2 = .ok sig0 ∧
                  sigs[sigs0.length + (j + 1)]? =
                    some { sig0 with NonRevocationWitness := witness } ∧
                  ((revocationEnabled env c = false ∧ witness = none ∧ nonrevAttr = none) ∨
                    (revocationEnabled env c = true ∧
                      ∃ w, witness = some w ∧ nonrevAttr = some w.E ∧
                        issuanceRecordFor now c attributes w ∈ recs)) := by
              intro j c hj recs hsub
              obtain ⟨U', r', a', w', n', s', hp, ha, hs, hg, hcase⟩ := hall j c hj
              have hidx : i + (j + 1) + discloseCount = i + 1 + j + discloseCount := by omega
              have hlen : sigs0.length + (j + 1) = (sigs0 ++ [{ sig0 with
                  NonRevocationWitness := witness }]).length + j := by
                simp
                omega
              refine ⟨U', r', a', w', n', s', by rw [hidx]; exact hp, ha, hs,
                by rw [hlen]; exact hg, ?_⟩
              rcases hcase with hc | ⟨hen, w, hw, hn, hmem⟩
              · exact Or.inl hc
              · exact Or.inr ⟨hen, w, hw, hn, hsub _ hmem⟩
            rcases issueWitness_ok env now cred attributes _ store store1 witness nonrevAttr
              hwitness with ⟨hen, hw, hnr, hs1⟩ | ⟨hen, w, hw, hnr, hs1⟩
            · refine ⟨recs', by rw [hst, hs1], by simp [List.filter_cons, hen, hmap], ?_⟩
              intro j c hj
              cases j with
              | zero =>
                simp only [List.getElem?_cons_zero, Option.some.injEq] at hj
                subst hj
                exact ⟨U, response, attributes, witness, nonrevAttr, sig0,
                  by simpa using hproof, hattrs, hsig, hhead, Or.inl ⟨hen, hw, hnr⟩⟩
              | succ j =>
                simp only [List.getElem?_cons_succ] at hj
                exact htail j c hj recs' (fun _ hr => hr)
            · refine ⟨issuanceRecordFor now cred attributes w :: recs',
                by rw [hst, hs1]; simp,
                by simp [List.filter_cons, hen, hmap, issuanceRecordFor], ?_⟩
              intro j c hj
              cases j with
              | zero =>
                simp only [List.getElem?_cons_zero, Option.some.injEq] at hj
                subst hj
                exact ⟨U, response, attributes, witness, nonrevAttr, sig0,
                  by simpa using hproof, hattrs, hsig, hhead,
                  Or.inr ⟨hen, w, hw, hnr, List.mem_cons_self _ _⟩⟩
              | succ j =>
                simp only [List.getElem?_cons_succ] at hj
                exact htail j c hj _ (fun _ hr => List.mem_cons_of_mem _ hr)


/-- However the revocation block ends, it leaves the earlier records in place and appends
at most records of the credential at hand. -/
theorem issueWitness_appends (env : Env) (now : Nat) (cred : CredentialRequest)
    (attributes : AttributeList) (sk : Option PrivateKey) (store : Store) :
    ∃ recs, (issueWitness env now cred attributes sk store).1.issuanceRecords =
        store.issuanceRecords ++ recs ∧
      ∀ r ∈ recs, recordOf env cred r := by
  rcases hres : issueWitness env now cred attributes sk store with ⟨store', res⟩
  cases res with
  | error e =>
    have := issueWitness_error env now cred attributes sk store store' e hres
    subst this
    exact ⟨[], by simp, by simp⟩
  | ok val =>
    obtain ⟨witness, nonrevAttr⟩ := val
    rcases issueWitness_ok env now cred attributes sk store store' witness nonrevAttr hres with
      ⟨_, _, _, hs⟩ | ⟨hen, w, _, _, hs⟩
    · subst hs
      exact ⟨[], by simp, by simp⟩
    · refine ⟨[issuanceRecordFor now cred attributes w], hs, ?_⟩
      intro r hr
      simp only [List.mem_singleton] at hr
      subst hr
      exact ⟨rfl, rfl, hen⟩

/-- However the signing loop ends, it leaves the earlier records in place and appends only
records of credentials it was given. -/
theorem signCredentials_appends (env : Env) (now : Nat) (commitments : IssueCommitmentMessage)
    (discloseCount : Nat) (credentials : List CredentialRequest) (i : Nat) (store : Store)
    (sigs : List IssueSignatureMessage) :
    ∃ recs, (signCredentials env now commitments discloseCount credentials i store
        sigs).1.issuanceRecords = store.issuanceRecords ++ recs ∧
      ∀ r ∈ recs, ∃ cred ∈ credentials, recordOf env cred r := by
  induction credentials generalizing i store sigs with
  | nil => exact ⟨[], by simp [signCredentials], by simp⟩
  | cons cred creds ih =>
    unfold signCredentials
    dsimp only
    split
    · exact ⟨[], by simp, by simp⟩
    · exact ⟨[], by simp, by simp⟩
    · split
      · exact ⟨[], by simp, by simp⟩
      · rename_i attributes hattrs
        obtain ⟨recs1, hst1, hof1⟩ := issueWitness_appends env now cred attributes
          (env.PrivateKey cred.CredentialTypeID.IssuerIdentifier).1 store
        have hlift : ∀ r ∈ recs1, ∃ c ∈ cred :: creds, recordOf env c r :=
          fun r hr => ⟨cred, List.mem_cons_self _ _, hof1 r hr⟩
        split
        · rename_i store1 kind message hw
          rw [hw] at hst1
          exact ⟨recs1, hst1, hlift⟩
        · rename_i store1 witness nonrevAttr hw
          rw [hw] at hst1
          split
          · exact ⟨recs1, hst1, hlift⟩
          · obtain ⟨recs2, hst2, hof2⟩ := ih (i + 1) store1
              (sigs ++ [{ (‹IssueSignatureMessage› : IssueSignatureMessage) with
                NonRevocationWitness := witness }])
            refine ⟨recs1 ++ recs2, ?_, ?_⟩
            · rw [hst2]
              simp only at hst1
              rw [hst1, List.append_assoc]
            · intro r hr
              rcases List.mem_append.mp hr with h1 | h2
              · exact hlift r h1
              · obtain ⟨c, hc, hrec⟩ := hof2 r h2
                exact ⟨c, List.mem_cons_of_mem _ hc, hrec⟩


/-- However `verifyAndSign` ends, it leaves the earlier records in place; it appends only
records of credentials of the request, and only when the proofs were valid. -/
theorem verifyAndSign_appends (env : Env) (now : Nat) (session : Session) (store : Store)
    (request : IssuanceRequest) (commitments : IssueCommitmentMessage)
    (pubkeys : List (Option PublicKey)) (discloseCount : Nat) :
    ∃ recs, (verifyAndSign env now session store request commitments pubkeys
        discloseCount).2.1.issuanceRecords = store.issuanceRecords ++ recs ∧
      (∀ r ∈ recs, ∃ cred ∈ request.Credentials, recordOf env cred r) ∧
      (recs ≠ [] → ∃ disclosed,
        env.VerifyAgainstRequest commitments.Disclosure request pubkeys now =
          (disclosed, .Valid, none)) := by
  rcases hverify : env.VerifyAgainstRequest commitments.Disclosure request pubkeys now with
    ⟨disclosed, proofStatus, err⟩
  by_cases hbad : err ≠ none ∨ proofStatus ≠ .Valid
  · obtain ⟨_, hstore, _⟩ := verifyAndSign_rejects env now session store request commitments
      pubkeys discloseCount disclosed proofStatus err hverify hbad
    exact ⟨[], by rw [hstore]; simp, by simp, by simp⟩
  · simp only [ne_eq, not_or, not_not] at hbad
    obtain ⟨he, hp⟩ := hbad
    subst he hp
    obtain ⟨recs, hst, hof⟩ := signCredentials_appends env now commitments discloseCount
      request.Credentials 0 store []
    refine ⟨recs, ?_, hof, fun _ => ⟨disclosed, rfl⟩⟩
    rw [← hst]
    unfold verifyAndSign
    simp only [hverify]
    rcases hsign : signCredentials env now commitments discloseCount request.Credentials 0
      store [] with ⟨store', step⟩
    cases step <;> simp [failWith]

/-- However `handlePostCommitments` ends, it leaves the earlier records in place; it appends
only records of credentials of the request, and only when the signing loop was reached: on a
`Connected` issuance session with enough proofs, after key extraction, keyshare merge and a
verification that returned `Valid` without error. -/
theorem handlePostCommitments_appends (env : Env) (now : Nat) (session : Session)
    (store : Store) (commitments : IssueCommitmentMessage) :
    ∃ recs, (handlePostCommitments env now session store commitments).2.1.issuanceRecords =
        store.issuanceRecords ++ recs ∧
      (∀ r ∈ recs, ∃ request cred, session.request = .Issuance request ∧
        cred ∈ request.Credentials ∧ recordOf env cred r) ∧
      (recs ≠ [] → ∃ request keys merged disclosed,
        session.status = .Connected ∧
        session.request = .Issuance request ∧
        ¬ ((commitments.Proofs.length : Int) - (request.Credentials.length : Int) < 0) ∧
        ExtractPublicKeys env (commitments.Proofs.take
          ((commitments.Proofs.length : Int) - (request.Credentials.length : Int)).toNat) =
            .ok keys ∧
        mergeKeyshareProofs env (appendCredentialKeys env keys request.Credentials)
          commitments.Proofs 0 commitments = .ok merged ∧
        env.VerifyAgainstRequest merged.Disclosure request
          (appendCredentialKeys env keys request.Credentials) now =
            (disclosed, .Valid, none)) := by
  have hnone : (handlePostCommitments env now session store commitments).2.1 = store →
      ∃ recs, (handlePostCommitments env now session store commitments).2.1.issuanceRecords =
          store.issuanceRecords ++ recs ∧
        (∀ r ∈ recs, ∃ request cred, session.request = .Issuance request ∧
          cred ∈ request.Credentials ∧ recordOf env cred r) ∧
        (recs ≠ [] → ∃ request keys merged disclosed,
          session.status = .Connected ∧
          session.request = .Issuance request ∧
          ¬ ((commitments.Proofs.length : Int) - (request.Credentials.length : Int) < 0) ∧
          ExtractPublicKeys env (commitments.Proofs.take
            ((commitments.Proofs.length : Int) - (request.Credentials.length : Int)).toNat) =
              .ok keys ∧
          mergeKeyshareProofs env (appendCredentialKeys env keys request.Credentials)
            commitments.Proofs 0 commitments = .ok merged ∧
          env.VerifyAgainstRequest merged.Disclosure request
            (appendCredentialKeys env keys request.Credentials) now =
              (disclosed, .Valid, none)) := by
    intro hout
    exact ⟨[], by rw [hout]; simp, by simp, by simp⟩
  by_cases hstatus : session.status = .Connected
  swap
  · exact hnone (by simp [handlePostCommitments, hstatus])
  obtain ⟨sreq, hreq⟩ : ∃ sreq, session.request = sreq := ⟨_, rfl⟩
  cases sreq with
  | Disclosure q =>
    exact hnone (by simp [handlePostCommitments, hstatus, Session.markAlive, hreq])
  | Signature q =>
    exact hnone (by simp [handlePostCommitments, hstatus, Session.markAlive, hreq])
  | Issuance request =>
    by_cases hcount :
        (commitments.Proofs.length : Int) - (request.Credentials.length : Int) < 0
    · refine hnone ?_
      unfold handlePostCommitments
      rw [if_neg (by simp [hstatus])]
      have hreq2 : (session.markAlive now).request = .Issuance request := hreq
      simp only [hreq2]
      rw [if_pos hcount]
      rfl
    · cases hkeys : ExtractPublicKeys env (commitments.Proofs.take
          ((commitments.Proofs.length : Int) - (request.Credentials.length : Int)).toNat) with
      | error e =>
        refine hnone ?_
        unfold handlePostCommitments
        rw [if_neg (by simp [hstatus])]
        have hreq2 : (session.markAlive now).request = .Issuance request := hreq
        simp only [hreq2]
        rw [if_neg hcount]
        simp only [hkeys]
        rfl
      | ok keys =>
        cases hmerge : mergeKeyshareProofs env
            (appendCredentialKeys env keys request.Credentials) commitments.Proofs 0
            commitments with
        | panicked reason =>
          refine hnone ?_
          unfold handlePostCommitments
          rw [if_neg (by simp [hstatus])]
          have hreq2 : (session.markAlive now).request = .Issuance request := hreq
          simp only [hreq2]
          rw [if_neg hcount]
          simp only [hkeys, hmerge]
        | fail kind message =>
          refine hnone ?_
          unfold handlePostCommitments
          rw [if_neg (by simp [hstatus])]
          have hreq2 : (session.markAlive now).request = .Issuance request := hreq
          simp only [hreq2]
          rw [if_neg hcount]
          simp only [hkeys, hmerge]
          rfl
        | ok merged =>
          rw [handlePostCommitments_eq_verifyAndSign env now session store commitments merged
            request keys hstatus hreq hcount hkeys hmerge]
          obtain ⟨recs, hst, hof, hvalid⟩ := verifyAndSign_appends env now
            (session.markAlive now) store request merged
            (appendCredentialKeys env keys request.Credentials)
            ((commitments.Proofs.length : Int) - (request.Credentials.length : Int)).toNat
          refine ⟨recs, hst, ?_, ?_⟩
          · intro r hr
            obtain ⟨cred, hc, hrec⟩ := hof r hr
            exact ⟨request, cred, hreq, hc, hrec⟩
          · intro hne
            obtain ⟨disclosed, hv⟩ := hvalid hne
            exact ⟨request, keys, merged, disclosed, hstatus, hreq, hcount, hkeys, hmerge, hv⟩


/-- What a call has appended, when the store after it is the store before it followed by
some records. -/
theorem appendedRecords_eq (before after : Store)
    (recs : List (CredentialTypeIdentifier × IssuanceRecord))
    (h : after.issuanceRecords = before.issuanceRecords ++ recs) :
    appendedRecords before after = recs := by
  unfold appendedRecords
  rw [h, List.drop_left]

/-- Counterexample to C11 as stated: the credential type supports revocation, its revocation
database is not enabled, `handlePostCommitments` succeeds and returns a signature, and no
issuance record has been appended. -/
theorem issuance_record_missing_when_disabled_counterexample :
    demoEnvDisabled.SupportsRevocation demoCredential.CredentialTypeID = true ∧
    (handlePostCommitments demoEnvDisabled 7
      (demoSession .Issuing demoIssuanceRequest .Connected) ⟨[]⟩ demoCommitments).2.2 =
      .ret (some [{ Signature := 27, Proof := 0, NonRevocationWitness := none }]) none ∧
    (handlePostCommitments demoEnvDisabled 7
      (demoSession .Issuing demoIssuanceRequest .Connected) ⟨[]⟩ demoCommitments).2.1 =
      ⟨[]⟩ := by
  decide

/-- C11 (amended): when `handlePostCommitments` succeeds, the records it has appended to the
revocation databases are, in credential order, exactly one issuance record for each
requested credential whose credential type supports revocation and whose revocation
database is enabled, in the database of that credential type and with `Key` the
`RevocationKey` of the credential request; for credentials whose type does not support
revocation (or whose database is not enabled) no record is appended. -/
theorem issuance_records_of_enabled_credentials (env : Env) (now : Nat) (session : Session)
    (store : Store) (commitments : IssueCommitmentMessage) (request : IssuanceRequest)
    (v : Option (List IssueSignatureMessage))
    (hreq : session.request = .Issuance request)
    (hret : (handlePostCommitments env now session store commitments).2.2 = .ret v none) :
    (handlePostCommitments env now session store commitments).2.1.issuanceRecords =
      store.issuanceRecords ++
        appendedRecords store (handlePostCommitments env now session store commitments).2.1 ∧
    (appendedRecords store
        (handlePostCommitments env now session store commitments).2.1).map
        (fun r => (r.1, r.2.Key)) =
      (request.Credentials.filter (revocationEnabled env)).map
        (fun cred => (cred.CredentialTypeID, cred.RevocationKey)) ∧
    (∀ cred ∈ request.Credentials, env.SupportsRevocation cred.CredentialTypeID = false →
      revocationEnabled env cred = false) := by
  obtain ⟨request', keys, merged, hstatus, hreq', hcount, hkeys, hmerge⟩ :=
    handlePostCommitments_success env now session store commitments v hret
  rw [hreq] at hreq'
  cases hreq'
  have heq := handlePostCommitments_eq_verifyAndSign env now session store commitments merged
    request keys hstatus hreq hcount hkeys hmerge
  rw [heq] at hret ⊢
  obtain ⟨disclosed, sigs, store', _, hsign, _, _, hstore⟩ :=
    verifyAndSign_success env now _ store request merged _ _ v hret
  obtain ⟨recs, hst, hmap, _⟩ := signCredentials_records env now merged _ _ 0 store store' []
    sigs hsign
  rw [hstore, appendedRecords_eq store store' recs hst]
  refine ⟨hst, hmap, ?_⟩
  intro cred _ hsup
  simp [revocationEnabled, hsup]

/-- Witness for C11: with the database enabled, issuing the credential with revocation key
"12345" appends one record with that key. -/
theorem issuance_records_of_enabled_credentials_witness :
    (handlePostCommitments (demoEnv true) 7
      (demoSession .Issuing demoIssuanceRequest .Connected) ⟨[]⟩ demoCommitments).2.2 =
      .ret (some [{ Signature := 128, Proof := 0,
                    NonRevocationWitness := some { E := 101, U := 5, Index := 1 } }]) none ∧
    (appendedRecords ⟨[]⟩
        (handlePostCommitments (demoEnv true) 7
          (demoSession .Issuing demoIssuanceRequest .Connected) ⟨[]⟩ demoCommitments).2.1).map
        (fun r => (r.1, r.2.Key)) =
      (demoIssuance.Credentials.filter (revocationEnabled (demoEnv true))).map
        (fun cred => (cred.CredentialTypeID, cred.RevocationKey)) :=
  ⟨by decide,
   (issuance_records_of_enabled_credentials (demoEnv true) 7
      (demoSession .Issuing demoIssuanceRequest .Connected) ⟨[]⟩ demoCommitments demoIssuance _
      rfl
      (by decide :
        (handlePostCommitments (demoEnv true) 7
          (demoSession .Issuing demoIssuanceRequest .Connected) ⟨[]⟩ demoCommitments).2.2 =
        .ret (some [{ Signature := 128, Proof := 0,
                      NonRevocationWitness := some { E := 101, U := 5, Index := 1 } }])
          none)).2.1⟩


/-- When the revocation block succeeds: if the issuance of the credential is not recorded,
there is no witness, no non-revocation attribute, and the store is unchanged; if it is
recorded, the database was opened, a witness was generated on the store as it was, its `E`
is the non-revocation attribute, and exactly the record of this credential, with `Attr` the
`E` of the witness, was appended. -/
theorem issueWitness_generated (env : Env) (now : Nat) (cred : CredentialRequest)
    (attributes : AttributeList) (sk : Option PrivateKey) (store store' : Store)
    (witness : Option Witness) (nonrevAttr : Option Nat)
    (h : issueWitness env now cred attributes sk store = (store', .ok (witness, nonrevAttr))) :
    (revocationEnabled env cred = false ∧ witness = none ∧ nonrevAttr = none ∧
        store' = store) ∨
    (revocationEnabled env cred = true ∧
      ∃ db w, env.RevocationDB cred.CredentialTypeID = .ok db ∧
        env.RevocationGenerateWitness sk db.Current store = .ok w ∧
        env.addIssuanceRecordFailure store cred.CredentialTypeID
          (issuanceRecordFor now cred attributes w).2 = none ∧
        witness = some w ∧ nonrevAttr = some w.E ∧
        store'.issuanceRecords =
          store.issuanceRecords ++ [issuanceRecordFor now cred attributes w]) := by
  unfold issueWitness at h
  unfold revocationEnabled
  split at h
  · rename_i hsup
    split at h
    · simp at h
    · rename_i db hdb
      split at h
      · rename_i hen
        split at h
        · simp at h
        · rename_i w hw
          dsimp only at h
          split at h
          · simp at h
          · rename_i hadd
            simp only [Prod.mk.injEq, Except.ok.injEq] at h
            obtain ⟨hs, hwit, hnr⟩ := h
            right
            refine ⟨by simp [hsup, hdb, hen], db, w, hdb, hw, hadd, hwit.symm, hnr.symm, ?_⟩
            rw [← hs]
            rfl
      · rename_i hen
        simp only [Prod.mk.injEq, Except.ok.injEq] at h
        obtain ⟨hs, hwit, hnr⟩ := h
        left
        exact ⟨by simp [hsup, hdb, hen], hwit.symm, hnr.symm, hs.symm⟩
  · rename_i hsup
    simp only [Prod.mk.injEq, Except.ok.injEq] at h
    obtain ⟨hs, hwit, hnr⟩ := h
    left
    exact ⟨by simp [hsup], hwit.symm, hnr.symm, hs.symm⟩


/-- What the signing loop has done, credential by credential, when it completes: the store
has grown by one record for each credential whose issuance is recorded, in credential order,
and each credential was signed as `UsesWitnessPrime` describes, its record being at the
position `recordIndex` among those records. -/
theorem signCredentials_trace (env : Env) (now : Nat) (commitments : IssueCommitmentMessage)
    (discloseCount : Nat) (credentials : List CredentialRequest) (i : Nat)
    (store store' : Store) (sigs0 sigs : List IssueSignatureMessage)
    (h : signCredentials env now commitments discloseCount credentials i store sigs0 =
      (store', .ok sigs)) :
    ∃ recs, store'.issuanceRecords = store.issuanceRecords ++ recs ∧
      recs.length = (credentials.filter (revocationEnabled env)).length ∧
      ∀ (j : Nat) (cred : CredentialRequest), credentials[j]? = some cred →
        ∃ sig, sigs[sigs0.length + j]? = some sig ∧
          UsesWitnessPrime env now store commitments.Proofs (i + j + discloseCount)
            commitments.Nonce2 cred sig recs (recordIndex env credentials j) := by
  induction credentials generalizing i store sigs0 with
  | nil =>
    simp only [signCredentials, Prod.mk.injEq, Step.ok.injEq] at h
    exact ⟨[], by simp [h.1], by simp, by simp⟩
  | cons cred creds ih =>
    unfold signCredentials at h
    dsimp only at h
    split at h
    · simp at h
    · simp at h
    · rename_i U response hproof
      split at h
      · simp at h
      · rename_i attributes hattrs
        split at h
        · simp at h
        · rename_i store1 witness nonrevAttr hwitness
          split at h
          · simp at h
          · rename_i sig0 hsig
            obtain ⟨recs', hst, hlen, hall⟩ := ih _ _ _ h
            obtain ⟨new, hnew, _, _⟩ := signCredentials_spec env now commitments discloseCount
              creds (i + 1) store1 store' _ sigs h
            have hhead : sigs[sigs0.length + 0]? =
                some { sig0 with NonRevocationWitness := witness } := by
              rw [hnew, List.append_assoc, Nat.add_zero,
                List.getElem?_append_right (Nat.le_refl _)]
              simp
            have hproof0 : commitments.Proofs[i + 0 + discloseCount]? =
                some (.ProofU U response) := by simpa using hproof
            rcases issueWitness_generated env now cred attributes _ store store1 witness
              nonrevAttr hwitness with
              ⟨hen, hw, hnr, hs1⟩ | ⟨hen, db, w, hdb, hgen, _, hw, hnr, hs1⟩
            · subst hw hnr hs1
              refine ⟨recs', hst, by simp [List.filter_cons, hen, hlen], ?_⟩
              intro j c hj
              cases j with
              | zero =>
                simp only [List.getElem?_cons_zero, Option.some.injEq] at hj
                subst hj
                exact ⟨_, hhead, U, response, attributes, sig0, hproof0, hattrs,
                  Or.inr ⟨hen, hsig, rfl⟩⟩
              | succ j =>
                simp only [List.getElem?_cons_succ] at hj
                obtain ⟨sig, hget, hused⟩ := hall j c hj
                have hidx : i + (j + 1) + discloseCount = i + 1 + j + discloseCount := by omega
                have hpos : sigs0.length + (j + 1) = (sigs0 ++ [{ sig0 with
                    NonRevocationWitness := none }]).length + j := by
                  simp
                  omega
                have hrec : recordIndex env (cred :: creds) (j + 1) = recordIndex env creds j := by
                  simp [recordIndex, List.filter_cons, hen]
                rw [hidx, hpos, hrec]
                exact ⟨sig, hget, hused⟩
            · subst hw hnr
              refine ⟨issuanceRecordFor now cred attributes w :: recs',
                by rw [hst, hs1]; simp,
                by simp [List.filter_cons, hen, hlen], ?_⟩
              intro j c hj
              cases j with
              | zero =>
                simp only [List.getElem?_cons_zero, Option.some.injEq] at hj
                subst hj
                refine ⟨_, hhead, U, response, attributes, sig0, hproof0, hattrs,
                  Or.inl ⟨hen, db, w, hdb, ?_, ?_, hsig, rfl⟩⟩
                · simpa [recordIndex] using hgen
                · simp [recordIndex, issuanceRecordFor]
              | succ j =>
                simp only [List.getElem?_cons_succ] at hj
                obtain ⟨sig, hget, U', response', attributes', sig0', hp', ha', hcase⟩ :=
                  hall j c hj
                have hidx : i + (j + 1) + discloseCount = i + 1 + j + discloseCount := by omega
                have hpos : sigs0.length + (j + 1) = (sigs0 ++ [{ sig0 with
                    NonRevocationWitness := some w }]).length + j := by
                  simp
                  omega
                have hrec : recordIndex env (cred :: creds) (j + 1) =
                    recordIndex env creds j + 1 := by
                  simp [recordIndex, List.filter_cons, hen]
                rw [hidx, hpos, hrec]
                refine ⟨sig, hget, U', response', attributes', sig0', hp', ha', ?_⟩
                rcases hcase with ⟨hen', db', w', hdb', hgen', hrec', hsig', hsigeq⟩ | hdis
                · refine Or.inl ⟨hen', db', w', hdb', ?_, ?_, hsig', hsigeq⟩
                  · rw [hs1, List.append_assoc] at hgen'
                    simpa using hgen'
                  · simpa using hrec'
                · exact Or.inr hdis


/-- What `UsesWitnessPrime` says when read from the signature. If the signature carries a
witness, the issuance of the credential is recorded, the record at position `k` is the
record of the credential with `Attr` the `E` of that witness, and the CL issuer was given
the `E` of that witness. If the signature carries no witness, the issuance of the credential
is not recorded and the CL issuer was given no non-revocation attribute. -/
theorem UsesWitnessPrime_signature (env : Env) (now : Nat) (store : Store)
    (proofs : List Proof) (index : Nat) (nonce2 : Nat) (cred : CredentialRequest)
    (sig : IssueSignatureMessage)
    (appended : List (CredentialTypeIdentifier × IssuanceRecord)) (k : Nat)
    (h : UsesWitnessPrime env now store proofs index nonce2 cred sig appended k) :
    (∀ w, sig.NonRevocationWitness = some w →
      revocationEnabled env cred = true ∧
      (∃ r, appended[k]? = some r ∧ r.1 = cred.CredentialTypeID ∧
        r.2.Key = cred.RevocationKey ∧ r.2.Attr = some w.E) ∧
      ∃ U response attributes sig0,
        proofs[index]? = some (.ProofU U response) ∧
        env.AttributeList cred 0x03 = .ok attributes ∧
        env.IssueSignature (env.PrivateKey cred.CredentialTypeID.IssuerIdentifier).1
          (env.PublicKey cred.CredentialTypeID.IssuerIdentifier cred.KeyCounter).1
          U attributes.Ints (some w.E) nonce2 = .ok sig0 ∧
        sig = { sig0 with NonRevocationWitness := some w }) ∧
    (sig.NonRevocationWitness = none →
      revocationEnabled env cred = false ∧
      ∃ U response attributes sig0,
        proofs[index]? = some (.ProofU U response) ∧
        env.AttributeList cred 0x03 = .ok attributes ∧
        env.IssueSignature (env.PrivateKey cred.CredentialTypeID.IssuerIdentifier).1
          (env.PublicKey cred.CredentialTypeID.IssuerIdentifier cred.KeyCounter).1
          U attributes.Ints none nonce2 = .ok sig0 ∧
        sig = { sig0 with NonRevocationWitness := none }) := by
  obtain ⟨U, response, attributes, sig0, hp, ha, hcase⟩ := h
  rcases hcase with ⟨hen, db, w, hdb, hgen, hrec, hsig, hsigeq⟩ | ⟨hen, hsig, hsigeq⟩
  · subst hsigeq
    refine ⟨?_, ?_⟩
    · intro w' hw'
      simp only [Option.some.injEq] at hw'
      subst hw'
      exact ⟨hen, ⟨_, hrec, rfl, rfl, rfl⟩, U, response, attributes, sig0, hp, ha, hsig, rfl⟩
    · intro hnone
      simp at hnone
  · subst hsigeq
    refine ⟨?_, ?_⟩
    · intro w' hw'
      simp at hw'
    · intro _
      exact ⟨hen, U, response, attributes, sig0, hp, ha, hsig, rfl⟩


/-- C12: when `handlePostCommitments` succeeds, every credential is issued with one prime
throughout, and whether a witness is used is decided by the credential alone. The records
appended by the call are one for each credential whose issuance is recorded (its type
supports revocation and its database is enabled), in credential order. For such a
credential a witness was generated from the private key of the issuer and the accumulator
of the database; the issuance record appended for the credential has the `E` of that
witness as `Attr`; the non-revocation attribute passed to the CL issuer is the `E` of that
witness; and the `NonRevocationWitness` of the returned signature is that witness. For
every other credential no record is appended, no non-revocation attribute is passed to the
issuer and the `NonRevocationWitness` of the returned signature is nil. The signature at
position `j` is the one made for the credential at position `j`, from the proof at position
`d + j` of the proofs after the keyshare merge. -/
theorem witness_prime_used_throughout (env : Env) (now : Nat) (session : Session)
    (store : Store) (commitments : IssueCommitmentMessage) (request : IssuanceRequest)
    (sigs : List IssueSignatureMessage)
    (hreq : session.request = .Issuance request)
    (hret : (handlePostCommitments env now session store commitments).2.2 =
      .ret (some sigs) none) :
    ∃ keys merged,
      ExtractPublicKeys env (commitments.Proofs.take
        ((commitments.Proofs.length : Int) - (request.Credentials.length : Int)).toNat) =
          .ok keys ∧
      mergeKeyshareProofs env (appendCredentialKeys env keys request.Credentials)
        commitments.Proofs 0 commitments = .ok merged ∧
      (handlePostCommitments env now session store commitments).2.1.issuanceRecords =
        store.issuanceRecords ++
          appendedRecords store (handlePostCommitments env now session store commitments).2.1 ∧
      (appendedRecords store
          (handlePostCommitments env now session store commitments).2.1).length =
        (request.Credentials.filter (revocationEnabled env)).length ∧
      sigs.length = request.Credentials.length ∧
      ∀ (j : Nat) (cred : CredentialRequest), request.Credentials[j]? = some cred →
        ∃ sig, sigs[j]? = some sig ∧
          UsesWitnessPrime env now store merged.Proofs
            (((commitments.Proofs.length : Int) - (request.Credentials.length : Int)).toNat + j)
            commitments.Nonce2 cred sig
            (appendedRecords store
              (handlePostCommitments env now session store commitments).2.1)
            (recordIndex env request.Credentials j) := by
  obtain ⟨request', keys, merged, hstatus, hreq', hcount, hkeys, hmerge⟩ :=
    handlePostCommitments_success env now session store commitments _ hret
  rw [hreq] at hreq'
  cases hreq'
  have heq := handlePostCommitments_eq_verifyAndSign env now session store commitments merged
    request keys hstatus hreq hcount hkeys hmerge
  rw [heq] at hret ⊢
  obtain ⟨disclosed, sigs', store', _, hsign, hv, _, hstore⟩ :=
    verifyAndSign_success env now _ store request merged _ _ _ hret
  cases hv
  obtain ⟨recs, hst, hlen, hall⟩ := signCredentials_trace env now merged _ _ 0 store store' []
    sigs hsign
  obtain ⟨new, hnew, hsigs, _⟩ := signCredentials_spec env now merged _ _ 0 store store' []
    sigs hsign
  obtain ⟨_, hnonce⟩ := mergeKeyshareProofs_length env _ _ 0 commitments merged hmerge
  simp only [List.nil_append] at hnew
  subst hnew
  rw [hstore, appendedRecords_eq store store' recs hst]
  refine ⟨keys, merged, hkeys, hmerge, hst, hlen, hsigs, ?_⟩
  intro j cred hj
  obtain ⟨sig, hget, hused⟩ := hall j cred hj
  simp only [List.length_nil, Nat.zero_add] at hget
  have hidx : 0 + j + ((commitments.Proofs.length : Int) -
      (request.Credentials.length : Int)).toNat =
      ((commitments.Proofs.length : Int) - (request.Credentials.length : Int)).toNat + j := by
    omega
  rw [hidx, hnonce] at hused
  exact ⟨sig, hget, hused⟩

/-- Witness for C12: the credential of the demo request is of a type whose issuance is
recorded; it is issued with the witness of prime 101, which is the `Attr` of the one record
appended. -/
theorem witness_prime_used_throughout_witness :
    revocationEnabled (demoEnv true) demoCredential = true ∧
    appendedRecords ⟨[]⟩
      (handlePostCommitments (demoEnv true) 7
        (demoSession .Issuing demoIssuanceRequest .Connected) ⟨[]⟩ demoCommitments).2.1 =
      [(demoCredType, { Key := "12345", Attr := some 101, Issued := 7, ValidUntil := 1000 })] ∧
    ∃ keys merged,
      ExtractPublicKeys (demoEnv true) (demoCommitments.Proofs.take
        ((demoCommitments.Proofs.length : Int) -
          (demoIssuance.Credentials.length : Int)).toNat) = .ok keys ∧
      mergeKeyshareProofs (demoEnv true)
        (appendCredentialKeys (demoEnv true) keys demoIssuance.Credentials)
        demoCommitments.Proofs 0 demoCommitments = .ok merged ∧
      (handlePostCommitments (demoEnv true) 7
        (demoSession .Issuing demoIssuanceRequest .Connected) ⟨[]⟩
        demoCommitments).2.1.issuanceRecords =
        (⟨[]⟩ : Store).issuanceRecords ++
          appendedRecords ⟨[]⟩ (handlePostCommitments (demoEnv true) 7
            (demoSession .Issuing demoIssuanceRequest .Connected) ⟨[]⟩ demoCommitments).2.1 ∧
      (appendedRecords ⟨[]⟩
          (handlePostCommitments (demoEnv true) 7
            (demoSession .Issuing demoIssuanceRequest .Connected) ⟨[]⟩
            demoCommitments).2.1).length =
        (demoIssuance.Credentials.filter (revocationEnabled (demoEnv true))).length ∧
      [({ Signature := 128, Proof := 0,
          NonRevocationWitness := some { E := 101, U := 5, Index := 1 } } :
        IssueSignatureMessage)].length = demoIssuance.Credentials.length ∧
      ∀ (j : Nat) (cred : CredentialRequest), demoIssuance.Credentials[j]? = some cred →
        ∃ sig,
          [({ Signature := 128, Proof := 0,
              NonRevocationWitness := some { E := 101, U := 5, Index := 1 } } :
            IssueSignatureMessage)][j]? = some sig ∧
          UsesWitnessPrime (demoEnv true) 7 ⟨[]⟩ merged.Proofs
            (((demoCommitments.Proofs.length : Int) -
              (demoIssuance.Credentials.length : Int)).toNat + j)
            demoCommitments.Nonce2 cred sig
            (appendedRecords ⟨[]⟩
              (handlePostCommitments (demoEnv true) 7
                (demoSession .Issuing demoIssuanceRequest .Connected) ⟨[]⟩
                demoCommitments).2.1)
            (recordIndex (demoEnv true) demoIssuance.Credentials j) :=
  ⟨by decide, by decide,
   witness_prime_used_throughout (demoEnv true) 7
    (demoSession .Issuing demoIssuanceRequest .Connected) ⟨[]⟩ demoCommitments demoIssuance _
    rfl
    (by decide :
      (handlePostCommitments (demoEnv true) 7
        (demoSession .Issuing demoIssuanceRequest .Connected) ⟨[]⟩ demoCommitments).2.2 =
      .ret (some [{ Signature := 128, Proof := 0,
                    NonRevocationWitness := some { E := 101, U := 5, Index := 1 } }]) none)⟩


/-- Counterexample to C16 as stated: a `Connected` issuance session for one credential
receives a commitment message without proofs; the handler returns `MalformedInput`, and the
session is `Cancelled` with the error recorded in its result, not `Connected` with its
result unchanged. -/
theorem insufficient_proofs_cancels_session_counterexample :
    (demoSession .Issuing demoIssuanceRequest .Connected).status = .Connected ∧
    (demoNoProofs.Proofs.length : Int) - (demoIssuance.Credentials.length : Int) < 0 ∧
    (handlePostCommitments (demoEnv true) 7
      (demoSession .Issuing demoIssuanceRequest .Connected) ⟨[]⟩ demoNoProofs).2.2.errKind =
      some .MalformedInput ∧
    (handlePostCommitments (demoEnv true) 7
      (demoSession .Issuing demoIssuanceRequest .Connected) ⟨[]⟩ demoNoProofs).1.status =
      .Cancelled ∧
    (handlePostCommitments (demoEnv true) 7
      (demoSession .Issuing demoIssuanceRequest .Connected) ⟨[]⟩ demoNoProofs).1.result ≠
      (demoSession .Issuing demoIssuanceRequest .Connected).result := by
  decide

/-- C16 (amended): for every `Connected` issuance session and every commitment message that
carries fewer proofs than the request has credentials, `handlePostCommitments` returns the
error kind `MalformedInput` and fails the session: the status becomes `Cancelled` and the
result records the error; no signature is returned and the revocation store is unchanged,
and any message posted afterwards is refused with `UnexpectedRequest`. -/
theorem insufficient_proofs_fails_session (env : Env) (now : Nat) (session : Session)
    (store : Store) (commitments : IssueCommitmentMessage) (request : IssuanceRequest)
    (hstatus : session.status = .Connected) (hreq : session.request = .Issuance request)
    (hcount : (commitments.Proofs.length : Int) - (request.Credentials.length : Int) < 0) :
    (handlePostCommitments env now session store commitments).2.2 =
      .ret none (some (mkRemoteError .MalformedInput "Received insufficient proofs")) ∧
    (handlePostCommitments env now session store commitments).1.status = .Cancelled ∧
    (handlePostCommitments env now session store commitments).1.result =
      { session.result with
        Status := .Cancelled,
        Err := some (mkRemoteError .MalformedInput "Received insufficient proofs") } ∧
    (handlePostCommitments env now session store commitments).2.1 = store ∧
    (∀ (later : Nat) (corrected : IssueCommitmentMessage),
      (handlePostCommitments env later
        (handlePostCommitments env now session store commitments).1 store
        corrected).2.2.errKind = some .UnexpectedRequest) := by
  have heq : handlePostCommitments env now session store commitments =
      failWith (session.markAlive now) store .MalformedInput "Received insufficient proofs" := by
    unfold handlePostCommitments
    rw [if_neg (by simp [hstatus])]
    have hreq2 : (session.markAlive now).request = .Issuance request := hreq
    simp only [hreq2]
    rw [if_pos hcount]
  rw [heq]
  refine ⟨rfl, rfl, rfl, rfl, ?_⟩
  intro later corrected
  simp [handlePostCommitments, failWith, Session.fail, Session.setStatus, Reply.errKind,
    Reply.err, mkRemoteError]

/-- Witness for C16: the demo issuance session and a message without proofs. -/
theorem insufficient_proofs_fails_session_witness :
    (demoSession .Issuing demoIssuanceRequest .Connected).status = .Connected ∧
    (handlePostCommitments (demoEnv true) 7
      (demoSession .Issuing demoIssuanceRequest .Connected) ⟨[]⟩ demoNoProofs).1.status =
      .Cancelled :=
  ⟨rfl,
   (insufficient_proofs_fails_session (demoEnv true) 7
      (demoSession .Issuing demoIssuanceRequest .Connected) ⟨[]⟩ demoNoProofs demoIssuance
      rfl rfl (by decide)).2.1⟩

/-- The body of the signing loop fails in one way only: for a credential, a position and a
store, `FailsAt` determines the error and the records left behind. -/
theorem FailsAt_unique (env : Env) (now : Nat) (commitments : IssueCommitmentMessage)
    (index : Nat) (cred : CredentialRequest) (before : Store)
    (kind kind' : ErrorKind) (message message' : String)
    (extra extra' : List (CredentialTypeIdentifier × IssuanceRecord))
    (h : FailsAt env now commitments index cred before kind message extra)
    (h' : FailsAt env now commitments index cred before kind' message' extra') :
    kind = kind' ∧ message = message' ∧ extra = extra' := by
  have hon : ∀ (attributes : AttributeList) (sk : Option PrivateKey) (e : ErrorKind × String)
      (db : DB) (w : Witness),
      revocationEnabled env cred = true →
      env.RevocationDB cred.CredentialTypeID = .ok db →
      env.RevocationGenerateWitness sk db.Current before = .ok w →
      env.addIssuanceRecordFailure before cred.CredentialTypeID
        (issuanceRecordFor now cred attributes w).2 = none →
      issueWitness env now cred attributes sk before ≠ (before, .error e) := by
    intro attributes sk e db w hen hdb hgen hadd hw
    unfold revocationEnabled at hen
    simp only [hdb, Bool.and_eq_true] at hen
    unfold issueWitness at hw
    simp only [hen.1, hen.2, hdb, hgen, if_true] at hw
    simp only [issuanceRecordFor] at hadd
    simp [hadd] at hw
  unfold FailsAt at h h'
  rcases h with ⟨_, _, _, hp, hk, hm, he⟩ | ⟨U, response, hp, hrest⟩ <;>
    rcases h' with ⟨_, _, _, hp', hk', hm', he'⟩ | ⟨U', response', hp', hrest'⟩
  · subst hk hm he hk' hm' he'
    exact ⟨rfl, rfl, rfl⟩
  · rw [hp] at hp'
    simp at hp'
  · rw [hp] at hp'
    simp at hp'
  · rw [hp] at hp'
    simp only [Option.some.injEq, Proof.ProofU.injEq] at hp'
    obtain ⟨hU, _⟩ := hp'
    subst hU
    rcases hrest with ⟨err, ha, hk, hm, he⟩ | ⟨attributes, ha, hcase⟩ <;>
      rcases hrest' with ⟨err', ha', hk', hm', he'⟩ | ⟨attributes', ha', hcase'⟩
    · rw [ha] at ha'
      cases ha'
      subst hk hm he hk' hm' he'
      exact ⟨rfl, rfl, rfl⟩
    · rw [ha] at ha'
      cases ha'
    · rw [ha] at ha'
      cases ha'
    · rw [ha] at ha'
      cases ha'
      rcases hcase with ⟨hw, he⟩ | ⟨err, hen, hok, hs, hk, hm, he⟩ |
          ⟨db, w, err, hen, hdb, hgen, hadd, hs, hk, hm, he⟩ <;>
        rcases hcase' with ⟨hw', he'⟩ | ⟨err', hen', hok', hs', hk', hm', he'⟩ |
          ⟨db', w', err', hen', hdb', hgen', hadd', hs', hk', hm', he'⟩
      · rw [hw] at hw'
        simp only [Prod.mk.injEq, Except.error.injEq, true_and] at hw'
        subst he he'
        exact ⟨hw'.1, hw'.2, rfl⟩
      · rw [hw] at hok'
        simp at hok'
      · exact absurd hw (hon _ _ _ db' w' hen' hdb' hgen' hadd')
      · rw [hw'] at hok
        simp at hok
      · rw [hs] at hs'
        cases hs'
        subst hk hm he hk' hm' he'
        exact ⟨rfl, rfl, rfl⟩
      · rw [hen] at hen'
        cases hen'
      · exact absurd hw' (hon _ _ _ db w hen hdb hgen hadd)
      · rw [hen] at hen'
        cases hen'
      · rw [hdb] at hdb'
        cases hdb'
        rw [hgen] at hgen'
        cases hgen'
        rw [hs] at hs'
        cases hs'
        subst hk hm he hk' hm' he'
        exact ⟨rfl, rfl, rfl⟩

/-- When the signing loop fails, it fails at one credential: the loop on the credentials
before it completes, and the body fails for that credential on the store the completed part
has left, as `FailsAt` describes; the store at the end is that store followed by the records
the failing body has left behind. -/
theorem signCredentials_failure (env : Env) (now : Nat) (commitments : IssueCommitmentMessage)
    (discloseCount : Nat) (credentials : List CredentialRequest) (i : Nat)
    (store store' : Store) (sigs0 : List IssueSignatureMessage)
    (kind : ErrorKind) (message : String)
    (h : signCredentials env now commitments discloseCount credentials i store sigs0 =
      (store', .fail kind message)) :
    ∃ m cred before sigsBefore extra,
      credentials[m]? = some cred ∧
      signCredentials env now commitments discloseCount (credentials.take m) i store sigs0 =
        (before, .ok sigsBefore) ∧
      store'.issuanceRecords = before.issuanceRecords ++ extra ∧
      FailsAt env now commitments (i + m + discloseCount) cred before kind message extra := by
  induction credentials generalizing i store sigs0 with
  | nil => simp [signCredentials] at h
  | cons cred creds ih =>
    have hstart : signCredentials env now commitments discloseCount
        ((cred :: creds).take 0) i store sigs0 = (store, .ok sigs0) := by
      simp [signCredentials]
    have hzero : (cred :: creds)[0]? = some cred := by simp
    unfold signCredentials at h
    dsimp only at h
    split at h
    · simp at h
    · rename_i issuer counter response hproof
      simp only [Prod.mk.injEq, Step.fail.injEq] at h
      obtain ⟨hs, hk, hm⟩ := h
      subst hs hk hm
      exact ⟨0, cred, store, sigs0, [], hzero, hstart, by simp,
        Or.inl ⟨issuer, counter, response, by simpa using hproof, rfl, rfl, rfl⟩⟩
    · rename_i U response hproof
      have hproof0 : commitments.Proofs[i + 0 + discloseCount]? =
          some (.ProofU U response) := by simpa using hproof
      split at h
      · rename_i err hattrs
        simp only [Prod.mk.injEq, Step.fail.injEq] at h
        obtain ⟨hs, hk, hm⟩ := h
        subst hs hk hm
        exact ⟨0, cred, store, sigs0, [], hzero, hstart, by simp,
          Or.inr ⟨U, response, hproof0, Or.inl ⟨err, hattrs, rfl, rfl, rfl⟩⟩⟩
      · rename_i attributes hattrs
        split at h
        · rename_i store1 kind1 message1 hwitness
          simp only [Prod.mk.injEq, Step.fail.injEq] at h
          obtain ⟨hs, hk, hm⟩ := h
          subst hs hk hm
          have hsame := issueWitness_error env now cred attributes _ store store1 _ hwitness
          subst hsame
          exact ⟨0, cred, store1, sigs0, [], hzero, hstart, by simp,
            Or.inr ⟨U, response, hproof0,
              Or.inr ⟨attributes, hattrs, Or.inl ⟨hwitness, rfl⟩⟩⟩⟩
        · rename_i store1 witness nonrevAttr hwitness
          split at h
          · rename_i err hsig
            simp only [Prod.mk.injEq, Step.fail.injEq] at h
            obtain ⟨hs, hk, hm⟩ := h
            subst hs hk hm
            rcases issueWitness_generated env now cred attributes _ store store1 witness
              nonrevAttr hwitness with
              ⟨hen, hw, hnr, hs1⟩ | ⟨hen, db, w, hdb, hgen, hadd, hw, hnr, hs1⟩
            · subst hw hnr hs1
              exact ⟨0, cred, store1, sigs0, [], hzero, hstart, by simp,
                Or.inr ⟨U, response, hproof0,
                  Or.inr ⟨attributes, hattrs, Or.inr (Or.inl ⟨err, hen, hwitness, hsig, rfl, rfl, rfl⟩)⟩⟩⟩
            · subst hw hnr
              exact ⟨0, cred, store, sigs0, [issuanceRecordFor now cred attributes w], hzero,
                hstart, hs1,
                Or.inr ⟨U, response, hproof0,
                  Or.inr ⟨attributes, hattrs,
                    Or.inr (Or.inr ⟨db, w, err, hen, hdb, hgen, hadd, hsig, rfl, rfl, rfl⟩)⟩⟩⟩
          · rename_i sig0 hsig
            obtain ⟨m, c, before, sigsBefore, extra, hm, hrun, hafter, hfails⟩ := ih _ _ _ h
            refine ⟨m + 1, c, before, sigsBefore, extra, by simpa using hm, ?_, hafter, ?_⟩
            · rw [List.take_succ_cons]
              unfold signCredentials
              simp only [hproof, hattrs, hwitness, hsig]
              exact hrun
            · have hidx : i + (m + 1) + discloseCount = i + 1 + m + discloseCount := by omega
              rw [hidx]
              exact hfails

/-- When the proofs are valid and `verifyAndSign` returns an error, the signing loop has
failed: no signature is returned, the error is the one of the loop, and the store is the
one the loop has left. -/
theorem verifyAndSign_failure (env : Env) (now : Nat) (session : Session) (store : Store)
    (request : IssuanceRequest) (commitments : IssueCommitmentMessage)
    (pubkeys : List (Option PublicKey)) (discloseCount : Nat)
    (disclosed : List (List DisclosedAttribute))
    (v : Option (List IssueSignatureMessage)) (rerr : RemoteError)
    (hverify : env.VerifyAgainstRequest commitments.Disclosure request pubkeys now =
      (disclosed, .Valid, none))
    (hret : (verifyAndSign env now session store request commitments pubkeys
      discloseCount).2.2 = .ret v (some rerr)) :
    ∃ store' kind message,
      signCredentials env now commitments discloseCount request.Credentials 0 store [] =
        (store', .fail kind message) ∧
      v = none ∧ rerr = mkRemoteError kind message ∧
      (verifyAndSign env now session store request commitments pubkeys
        discloseCount).2.1 = store' := by
  unfold verifyAndSign at hret ⊢
  simp only [hverify] at hret ⊢
  rcases hsign : signCredentials env now commitments discloseCount request.Credentials 0
    store [] with ⟨store', step⟩
  cases step with
  | ok sigs => simp [hsign] at hret
  | fail kind message =>
    simp [hsign, failWith, Session.fail] at hret
    exact ⟨store', kind, message, rfl, hret.1.symm, hret.2.symm,
      by simp [hsign, failWith, Session.fail]⟩
  | panicked reason => simp [hsign] at hret


/-- Counterexample to C17 as stated: the credential type supports revocation and the CL
issuer fails; `handlePostCommitments` returns the error `IssuanceFailed`, and the issuance
record of the credential, saved before the issuer was called, has been appended. -/
theorem issuance_not_atomic_counterexample :
    (demoSession .Issuing demoIssuanceRequest .Connected).status = .Connected ∧
    (handlePostCommitments demoEnvIssuerFails 7
      (demoSession .Issuing demoIssuanceRequest .Connected) ⟨[]⟩ demoCommitments).2.2.errKind =
      some .IssuanceFailed ∧
    (handlePostCommitments demoEnvIssuerFails 7
      (demoSession .Issuing demoIssuanceRequest .Connected) ⟨[]⟩ demoCommitments).2.1 =
      ⟨[(demoCredType,
          { Key := "12345", Attr := some 101, Issued := 7, ValidUntil := 1000 })]⟩ := by
  decide

/-- C17 (amended): `handlePostCommitments` only appends to the revocation store, and an
error raised inside the signing loop leaves what the loop has appended so far in the store.
Whatever it returns, the records that were there before the call are kept, and every record
it has appended was written for a credential of the request whose issuance is recorded. A
record is appended only if the signing loop was reached, that is on a `Connected` issuance
session with enough proofs whose key extraction, keyshare merge and proof verification
(status `Valid`, no error) succeeded: an error before the signing loop appends nothing. If
the signing loop was reached and the handler returns an error, then the loop failed at some
credential, at position `m`: the error returned is the one of `FailsAt` for that credential
and no signature is returned; the credentials before position `m` were all signed, and the
records appended by the call are exactly the records `signed` of those among them whose
issuance is recorded, one for each in credential order, followed by the records `extra` of
`FailsAt`: the record of the failing credential itself when the CL issuer failed after that
record was saved, and nothing otherwise. -/
theorem issuance_appends_only (env : Env) (now : Nat) (session : Session) (store : Store)
    (commitments : IssueCommitmentMessage) :
    (handlePostCommitments env now session store commitments).2.1.issuanceRecords =
      store.issuanceRecords ++
        appendedRecords store (handlePostCommitments env now session store commitments).2.1 ∧
    (∀ r ∈ appendedRecords store
        (handlePostCommitments env now session store commitments).2.1,
      ∃ request cred, session.request = .Issuance request ∧ cred ∈ request.Credentials ∧
        recordOf env cred r) ∧
    (appendedRecords store
        (handlePostCommitments env now session store commitments).2.1 ≠ [] →
      ∃ request keys merged disclosed,
        session.status = .Connected ∧
        session.request = .Issuance request ∧
        ¬ ((commitments.Proofs.length : Int) - (request.Credentials.length : Int) < 0) ∧
        ExtractPublicKeys env (commitments.Proofs.take
          ((commitments.Proofs.length : Int) - (request.Credentials.length : Int)).toNat) =
            .ok keys ∧
        mergeKeyshareProofs env (appendCredentialKeys env keys request.Credentials)
          commitments.Proofs 0 commitments = .ok merged ∧
        env.VerifyAgainstRequest merged.Disclosure request
          (appendCredentialKeys env keys request.Credentials) now =
            (disclosed, .Valid, none)) ∧
    (∀ (request : IssuanceRequest) (keys : List (Option PublicKey))
        (merged : IssueCommitmentMessage) (disclosed : List (List DisclosedAttribute))
        (v : Option (List IssueSignatureMessage)) (rerr : RemoteError),
      session.status = .Connected →
      session.request = .Issuance request →
      ¬ ((commitments.Proofs.length : Int) - (request.Credentials.length : Int) < 0) →
      ExtractPublicKeys env (commitments.Proofs.take
        ((commitments.Proofs.length : Int) - (request.Credentials.length : Int)).toNat) =
          .ok keys →
      mergeKeyshareProofs env (appendCredentialKeys env keys request.Credentials)
        commitments.Proofs 0 commitments = .ok merged →
      env.VerifyAgainstRequest merged.Disclosure request
        (appendCredentialKeys env keys request.Credentials) now =
          (disclosed, .Valid, none) →
      (handlePostCommitments env now session store commitments).2.2 =
        .ret v (some rerr) →
      ∃ m cred before sigsBefore signed extra kind message,
        request.Credentials[m]? = some cred ∧
        signCredentials env now merged
          ((commitments.Proofs.length : Int) - (request.Credentials.length : Int)).toNat
          (request.Credentials.take m) 0 store [] = (before, .ok sigsBefore) ∧
        before.issuanceRecords = store.issuanceRecords ++ signed ∧
        signed.map (fun r => (r.1, r.2.Key)) =
          ((request.Credentials.take m).filter (revocationEnabled env)).map
            (fun cred => (cred.CredentialTypeID, cred.RevocationKey)) ∧
        FailsAt env now merged
          (((commitments.Proofs.length : Int) - (request.Credentials.length : Int)).toNat + m)
          cred before kind message extra ∧
        v = none ∧
        rerr = mkRemoteError kind message ∧
        appendedRecords store
          (handlePostCommitments env now session store commitments).2.1 =
            signed ++ extra) := by
  obtain ⟨recs, hst, hof, hreached⟩ :=
    handlePostCommitments_appends env now session store commitments
  rw [appendedRecords_eq store _ recs hst]
  refine ⟨hst, hof, hreached, ?_⟩
  intro request keys merged disclosed v rerr hstatus hreq hcount hkeys hmerge hverify hret
  have heq := handlePostCommitments_eq_verifyAndSign env now session store commitments merged
    request keys hstatus hreq hcount hkeys hmerge
  rw [heq] at hret hst
  obtain ⟨store', kind, message, hsign, hv, hrerr, hstore⟩ :=
    verifyAndSign_failure env now _ store request merged _ _ disclosed v rerr hverify hret
  rw [hstore] at hst
  obtain ⟨m, cred, before, sigsBefore, extra, hm, hrun, hafter, hfails⟩ :=
    signCredentials_failure env now merged _ _ 0 store store' [] kind message hsign
  obtain ⟨signed, hbefore, hmap, _⟩ := signCredentials_records env now merged _ _ 0 store
    before [] sigsBefore hrun
  have hidx : 0 + m + ((commitments.Proofs.length : Int) -
      (request.Credentials.length : Int)).toNat =
      ((commitments.Proofs.length : Int) - (request.Credentials.length : Int)).toNat + m := by
    omega
  rw [hidx] at hfails
  refine ⟨m, cred, before, sigsBefore, signed, extra, kind, message, hm, hrun, hbefore, hmap,
    hfails, hv, hrerr, ?_⟩
  rw [hafter, hbefore, List.append_assoc] at hst
  exact (List.append_cancel_left hst).symm

/-- Witness for C17. When the CL issuer fails after the record was saved, something has been
appended, and the theorem tells that the signing loop was reached. When the second of two
credentials comes with a proof that is not a `ProofU`, the handler returns `MalformedInput`
and the record of the first credential is in the store; the theorem tells where the loop
failed and what it has left. -/
theorem issuance_appends_only_witness :
    (appendedRecords ⟨[]⟩
      (handlePostCommitments demoEnvIssuerFails 7
        (demoSession .Issuing demoIssuanceRequest .Connected) ⟨[]⟩ demoCommitments).2.1 ≠ [] ∧
    ∃ request keys merged disclosed,
      (demoSession .Issuing demoIssuanceRequest .Connected).status = .Connected ∧
      (demoSession .Issuing demoIssuanceRequest .Connected).request = .Issuance request ∧
      ¬ ((demoCommitments.Proofs.length : Int) - (request.Credentials.length : Int) < 0) ∧
      ExtractPublicKeys demoEnvIssuerFails (demoCommitments.Proofs.take
        ((demoCommitments.Proofs.length : Int) - (request.Credentials.length : Int)).toNat) =
          .ok keys ∧
      mergeKeyshareProofs demoEnvIssuerFails
        (appendCredentialKeys demoEnvIssuerFails keys request.Credentials)
        demoCommitments.Proofs 0 demoCommitments = .ok merged ∧
      demoEnvIssuerFails.VerifyAgainstRequest merged.Disclosure request
        (appendCredentialKeys demoEnvIssuerFails keys request.Credentials) 7 =
          (disclosed, .Valid, none)) ∧
    ((handlePostCommitments (demoEnv true) 7
        (demoSession .Issuing (.Issuance demoTwoCredentials) .Connected) ⟨[]⟩
        demoSecondNotProofU).2.2 =
      .ret none (some (mkRemoteError .MalformedInput
        "Received invalid issuance commitment")) ∧
    (handlePostCommitments (demoEnv true) 7
        (demoSession .Issuing (.Issuance demoTwoCredentials) .Connected) ⟨[]⟩
        demoSecondNotProofU).2.1 =
      ⟨[(demoCredType,
          { Key := "12345", Attr := some 101, Issued := 7, ValidUntil := 1000 })]⟩ ∧
    ∃ m cred before sigsBefore signed extra kind message,
      demoTwoCredentials.Credentials[m]? = some cred ∧
      signCredentials (demoEnv true) 7 demoSecondNotProofU
        ((demoSecondNotProofU.Proofs.length : Int) -
          (demoTwoCredentials.Credentials.length : Int)).toNat
        (demoTwoCredentials.Credentials.take m) 0 ⟨[]⟩ [] = (before, .ok sigsBefore) ∧
      before.issuanceRecords = (⟨[]⟩ : Store).issuanceRecords ++ signed ∧
      signed.map (fun r => (r.1, r.2.Key)) =
        ((demoTwoCredentials.Credentials.take m).filter
          (revocationEnabled (demoEnv true))).map
          (fun cred => (cred.CredentialTypeID, cred.RevocationKey)) ∧
      FailsAt (demoEnv true) 7 demoSecondNotProofU
        (((demoSecondNotProofU.Proofs.length : Int) -
          (demoTwoCredentials.Credentials.length : Int)).toNat + m)
        cred before kind message extra ∧
      (none : Option (List IssueSignatureMessage)) = none ∧
      mkRemoteError .MalformedInput "Received invalid issuance commitment" =
        mkRemoteError kind message ∧
      appendedRecords ⟨[]⟩
        (handlePostCommitments (demoEnv true) 7
          (demoSession .Issuing (.Issuance demoTwoCredentials) .Connected) ⟨[]⟩
          demoSecondNotProofU).2.1 = signed ++ extra) :=
  ⟨⟨by decide,
    (issuance_appends_only demoEnvIssuerFails 7
      (demoSession .Issuing demoIssuanceRequest .Connected) ⟨[]⟩ demoCommitments).2.2.1
      (by decide)⟩,
   by decide, by decide,
   (issuance_appends_only (demoEnv true) 7
      (demoSession .Issuing (.Issuance demoTwoCredentials) .Connected) ⟨[]⟩
      demoSecondNotProofU).2.2.2
      demoTwoCredentials [] demoSecondNotProofU [] none
      (mkRemoteError .MalformedInput "Received invalid issuance commitment")
      rfl rfl (by decide) rfl rfl rfl (by decide)⟩


/-! ### Revocation records -/

/-- C13: `handleGetRevocationRecords(cred, index)` is refused with the error kind
`InvalidRequest`, without opening or reading the revocation database, if and only if `cred`
is a key of the configured `RevocationServers`; for every other `cred` it returns exactly
the records that the revocation database returns for `index`, or the error kind `Unknown`
if opening or reading the database fails. -/
theorem getRevocationRecords_refused_iff_authority (env : Env)
    (cred : CredentialTypeIdentifier) (index : Int) :
    ((handleGetRevocationRecords env cred index).2.errKind = some .InvalidRequest ↔
      cred ∈ env.RevocationServers) ∧
    (cred ∈ env.RevocationServers →
      (handleGetRevocationRecords env cred index).1 = [] ∧
      (handleGetRevocationRecords env cred index).2.value = none) ∧
    (cred ∉ env.RevocationServers →
      (∀ db records, env.RevocationDB cred = .ok db →
        env.RevocationRecords cred db index = .ok records →
        (handleGetRevocationRecords env cred index).2 = .ret (some records) none) ∧
      (∀ e, env.RevocationDB cred = .error e →
        (handleGetRevocationRecords env cred index).2.errKind = some .Unknown ∧
        (handleGetRevocationRecords env cred index).2.value = none) ∧
      (∀ db e, env.RevocationDB cred = .ok db →
        env.RevocationRecords cred db index = .error e →
        (handleGetRevocationRecords env cred index).2.errKind = some .Unknown ∧
        (handleGetRevocationRecords env cred index).2.value = none)) := by
  by_cases hmem : cred ∈ env.RevocationServers
  · simp [handleGetRevocationRecords, hmem, Reply.errKind, Reply.err, Reply.value,
      mkRemoteError]
  · refine ⟨?_, fun h => absurd h hmem, fun _ => ⟨?_, ?_, ?_⟩⟩
    · cases hdb : env.RevocationDB cred with
      | error e =>
        simp [handleGetRevocationRecords, hmem, hdb, Reply.errKind, Reply.err, mkRemoteError]
      | ok db =>
        cases hrec : env.RevocationRecords cred db index <;>
          simp [handleGetRevocationRecords, hmem, hdb, hrec, Reply.errKind, Reply.err,
            mkRemoteError]
    · intro db records hdb hrec
      simp [handleGetRevocationRecords, hmem, hdb, hrec]
    · intro e hdb
      simp [handleGetRevocationRecords, hmem, hdb, Reply.errKind, Reply.err, Reply.value,
        mkRemoteError]
    · intro db e hdb hrec
      simp [handleGetRevocationRecords, hmem, hdb, hrec, Reply.errKind, Reply.err, Reply.value,
        mkRemoteError]

/-- Witness for C13: the authority of the demo credential type refuses the request for that
type without touching the database, and serves the records after index 1 of another
type. -/
theorem getRevocationRecords_refused_iff_authority_witness :
    demoCredType ∈ demoEnvAuthority.RevocationServers ∧
    (handleGetRevocationRecords demoEnvAuthority demoCredType 1).1 = [] ∧
    demoStudentCard ∉ demoEnvAuthority.RevocationServers ∧
    (handleGetRevocationRecords demoEnvAuthority demoStudentCard 1).2 =
      .ret (some [{ Index := 2, Accumulator := 20 }]) none :=
  ⟨by decide,
   ((getRevocationRecords_refused_iff_authority demoEnvAuthority demoCredType 1).2.1
      (by decide)).1,
   by decide,
   ((getRevocationRecords_refused_iff_authority demoEnvAuthority demoStudentCard 1).2.2
      (by decide)).1 { Enabled := true, Current := 5 } [{ Index := 2, Accumulator := 20 }]
      rfl rfl⟩


/-! ### Replays -/

/-- A message that is not the one whose response is kept goes to its handler, and its
response is kept. -/
theorem handleProtocolMessage_fresh (env : Env) (now : Nat) (served : ServedSession)
    (message : ClientMessage)
    (hkept : ∀ response, served.kept ≠ some (message, response)) :
    handleProtocolMessage env now served message =
      ({ session := (route env now served.session message).1,
         kept := some (message, (route env now served.session message).2) },
        (route env now served.session message).2) := by
  unfold handleProtocolMessage
  split
  · rename_i keptMessage keptResponse hk
    split
    · rename_i heq
      subst heq
      exact absurd hk (hkept keptResponse)
    · rfl
  · rfl

/-- A message equal to the one whose response is kept is answered from the kept response
and leaves the session and the kept response as they are. -/
theorem handleProtocolMessage_replay (env : Env) (now : Nat) (served : ServedSession)
    (message : ClientMessage) (response : Response)
    (hkept : served.kept = some (message, response)) :
    handleProtocolMessage env now served message = (served, response) := by
  unfold handleProtocolMessage
  simp [hkept]


/-- A server that supports version 2.5 negotiates 2.5 with a client that offers exactly
2.5. -/
theorem chooseProtocolVersion_v25 (env : Env)
    (hmin : v25.BelowVersion env.minProtocolVersion = false)
    (hmax : env.maxProtocolVersion.BelowVersion v25 = false) :
    chooseProtocolVersion env v25 v25 = .ok v25 := by
  have hvmin : env.maxProtocolVersion.vmin v25 = v25 := by
    unfold ProtocolVersion.vmin
    split
    · rfl
    · rename_i hnot
      rcases hm : env.maxProtocolVersion with ⟨major, minor⟩
      rw [hm] at hmax hnot
      simp only [ProtocolVersion.BelowVersion, ProtocolVersion.Below, v25, Bool.or_eq_true,
        Bool.and_eq_true, decide_eq_true_eq, Bool.or_eq_false_iff, Bool.and_eq_false_iff,
        decide_eq_false_iff_not, not_or, not_and] at hmax hnot
      have h1 : major = 2 := by omega
      have h2 : minor = 5 := by omega
      rw [h1, h2]
      rfl
  have hvmax : env.minProtocolVersion.vmax v25 = v25 := by
    unfold ProtocolVersion.vmax
    split
    · rfl
    · rename_i hnot
      rcases hm : env.minProtocolVersion with ⟨major, minor⟩
      rw [hm] at hmin hnot
      simp only [ProtocolVersion.BelowVersion, ProtocolVersion.Below, v25, Bool.or_eq_true,
        Bool.and_eq_true, decide_eq_true_eq, Bool.or_eq_false_iff, Bool.and_eq_false_iff,
        decide_eq_false_iff_not, not_or, not_and] at hmin hnot
      have h1 : major = 2 := by omega
      have h2 : minor = 5 := by omega
      rw [h1, h2]
      rfl
  unfold chooseProtocolVersion
  simp only [hvmin, hvmax]
  rw [if_neg (by decide)]

/-- On an `Initialized` disclosure session, when the revocation records are fetched and the
server supports version 2.5, `handleGetRequest` for versions 2.5 to 2.5 returns the request
of the session without error and leaves the session `Connected`. -/
theorem handleGetRequest_v25 (env : Env) (now : Nat) (session : Session)
    (request : DisclosureRequest)
    (hstatus : session.status = .Initialized) (hreq : session.request = .Disclosure request)
    (hrev : (env.SetRevocationRecords session.request.Base).2 = none)
    (hmin : v25.BelowVersion env.minProtocolVersion = false)
    (hmax : env.maxProtocolVersion.BelowVersion v25 = false) :
    (handleGetRequest env now session v25 v25).2 =
      .ret (some (.condiscon (handleGetRequest env now session v25 v25).1.request)) none ∧
    (handleGetRequest env now session v25 v25).1.status = .Connected := by
  have hchoose := chooseProtocolVersion_v25 env hmin hmax
  rcases hsr : env.SetRevocationRecords session.request.Base with ⟨base, e⟩
  rw [hsr] at hrev
  simp only at hrev
  subst hrev
  simp only [hreq, SessionRequest.Base] at hsr
  have hlow : v25.Below 2 5 = false := by decide
  cases hleg : env.Legacy (.Disclosure { request with Base := base }) <;>
    simp [handleGetRequest, hstatus, Session.markAlive, hsr, hchoose, hlow, hleg, hreq,
      Session.setStatus, SessionRequest.setBase, SessionRequest.Base]

/-- When `handlePostDisclosure` ends a `Connected` session in `Done`, it returns a proof
status and no error. -/
theorem handlePostDisclosure_done (env : Env) (now : Nat) (session : Session)
    (disclosure : Disclosure) (hstatus : session.status = .Connected)
    (hdone : (handlePostDisclosure env now session disclosure).1.status = .Done) :
    ∃ proofStatus,
      (handlePostDisclosure env now session disclosure).2 = .ret (some proofStatus) none := by
  obtain ⟨sreq, hreq⟩ : ∃ sreq, session.request = sreq := ⟨_, rfl⟩
  cases sreq with
  | Disclosure request =>
    rcases hv : env.VerifyDisclosure disclosure request with ⟨disclosed, proofStatus, err⟩
    cases err with
    | none =>
      exact ⟨proofStatus, by
        simp [handlePostDisclosure, hstatus, hreq, hv, Session.markAlive, Session.setStatus]⟩
    | some err =>
      by_cases hm : err = .ErrorMissingPublicKey <;>
        simp [handlePostDisclosure, hstatus, hreq, hv, hm, Session.markAlive, Session.fail,
          Session.setStatus] at hdone
  | Signature request =>
    simp [handlePostDisclosure, hstatus, hreq, Session.markAlive] at hdone
  | Issuance request =>
    simp [handlePostDisclosure, hstatus, hreq, Session.markAlive] at hdone

/-- When `handlePostSignature` ends a `Connected` session in `Done`, it returns a proof
status and no error. -/
theorem handlePostSignature_done (env : Env) (now : Nat) (session : Session)
    (signature : SignedMessage) (hstatus : session.status = .Connected)
    (hdone : (handlePostSignature env now session signature).1.status = .Done) :
    ∃ proofStatus,
      (handlePostSignature env now session signature).2 = .ret (some proofStatus) none := by
  obtain ⟨sreq, hreq⟩ : ∃ sreq, session.request = sreq := ⟨_, rfl⟩
  cases sreq with
  | Signature request =>
    rcases hv : env.VerifySignature signature request with ⟨disclosed, proofStatus, err⟩
    cases err with
    | none =>
      exact ⟨proofStatus, by
        simp [handlePostSignature, hstatus, hreq, hv, Session.markAlive, Session.setStatus]⟩
    | some err =>
      by_cases hm : err = .ErrorMissingPublicKey <;>
        simp [handlePostSignature, hstatus, hreq, hv, hm, Session.markAlive, Session.fail,
          Session.setStatus] at hdone
  | Disclosure request =>
    simp [handlePostSignature, hstatus, hreq, Session.markAlive] at hdone
  | Issuance request =>
    simp [handlePostSignature, hstatus, hreq, Session.markAlive] at hdone

/-- When a `POST /proofs` ends a `Connected` session in `Done`, its response has status 200
and carries no error. -/
theorem route_done (env : Env) (now : Nat) (session : Session) (message : ClientMessage)
    (hpost : message.isPostProofs = true) (hstatus : session.status = .Connected)
    (hdone : (route env now session message).1.status = .Done) :
    (route env now session message).2.status = 200 ∧
    (route env now session message).2.error = none := by
  cases message with
  | GetRequest min max => simp [ClientMessage.isPostProofs] at hpost
  | PostDisclosure disclosure =>
    obtain ⟨proofStatus, hreply⟩ :=
      handlePostDisclosure_done env now session disclosure hstatus hdone
    simp [route, hreply, httpStatus, Response.error, Reply.err]
  | PostSignature signature =>
    obtain ⟨proofStatus, hreply⟩ :=
      handlePostSignature_done env now session signature hstatus hdone
    simp [route, hreply, httpStatus, Response.error, Reply.err]


/-- Counterexample to C14 as stated. First, on a server that cannot fetch the revocation
records, the first `GET /` of a freshly started disclosure session with versions 2.5 to 2.5
already fails (status 400, error `Unknown`). Second, the handler itself refuses a second
call: after a successful `handleGetRequest`, another `handleGetRequest` with the same
versions returns `UnexpectedRequest`. -/
theorem double_get_counterexample :
    (demoServed.session.status = .Initialized ∧ demoServed.kept = none ∧
      (handleProtocolMessage demoEnvNoRecords 7 demoServed (.GetRequest v25 v25)).2.status =
        400 ∧
      ((handleProtocolMessage demoEnvNoRecords 7 demoServed
        (.GetRequest v25 v25)).2.error.map RemoteError.ErrorName) = some .Unknown) ∧
    ((handleGetRequest (demoEnv false) 7 demoServed.session v25 v25).2.errKind = none ∧
      (handleGetRequest (demoEnv false) 8
        (handleGetRequest (demoEnv false) 7 demoServed.session v25 v25).1
        v25 v25).2.errKind = some .UnexpectedRequest) := by
  decide

/-- C14 (amended): for every freshly started (`Initialized`, no response kept) disclosure
session on a server that supports version 2.5 and fetches the revocation records of the
request without error, two consecutive `GET /` with versions 2.5 to 2.5 both succeed and
the status is `Connected` after the second: the first is handled by `handleGetRequest`; the
second is answered from the response kept for the first and leaves the session as it is
(`handleGetRequest` itself would refuse it with `UnexpectedRequest`). -/
theorem double_get_replays_first_response (env : Env) (now later : Nat)
    (served : ServedSession) (request : DisclosureRequest)
    (hstatus : served.session.status = .Initialized)
    (hreq : served.session.request = .Disclosure request)
    (hfresh : served.kept = none)
    (hrev : (env.SetRevocationRecords served.session.request.Base).2 = none)
    (hmin : v25.BelowVersion env.minProtocolVersion = false)
    (hmax : env.maxProtocolVersion.BelowVersion v25 = false) :
    (handleProtocolMessage env now served (.GetRequest v25 v25)).2.status = 200 ∧
    (handleProtocolMessage env now served (.GetRequest v25 v25)).2.error = none ∧
    (handleProtocolMessage env later
      (handleProtocolMessage env now served (.GetRequest v25 v25)).1
      (.GetRequest v25 v25)).2 =
      (handleProtocolMessage env now served (.GetRequest v25 v25)).2 ∧
    (handleProtocolMessage env later
      (handleProtocolMessage env now served (.GetRequest v25 v25)).1
      (.GetRequest v25 v25)).1 =
      (handleProtocolMessage env now served (.GetRequest v25 v25)).1 ∧
    (handleProtocolMessage env later
      (handleProtocolMessage env now served (.GetRequest v25 v25)).1
      (.GetRequest v25 v25)).1.session.status = .Connected ∧
    (handleGetRequest env later
      (handleProtocolMessage env now served (.GetRequest v25 v25)).1.session
      v25 v25).2.errKind = some .UnexpectedRequest := by
  have hfirst := handleProtocolMessage_fresh env now served (.GetRequest v25 v25)
    (by intro response; rw [hfresh]; simp)
  obtain ⟨hreply, hconnected⟩ := handleGetRequest_v25 env now served.session request hstatus
    hreq hrev hmin hmax
  have hroute1 : (route env now served.session (.GetRequest v25 v25)).1 =
      (handleGetRequest env now served.session v25 v25).1 := rfl
  have hroute2 : (route env now served.session (.GetRequest v25 v25)).2 =
      { status := httpStatus (handleGetRequest env now served.session v25 v25).2,
        body := .request (handleGetRequest env now served.session v25 v25).2 } := rfl
  have hsecond := handleProtocolMessage_replay env later
    (handleProtocolMessage env now served (.GetRequest v25 v25)).1 (.GetRequest v25 v25)
    (handleProtocolMessage env now served (.GetRequest v25 v25)).2 (by rw [hfirst])
  rw [hsecond]
  rw [hfirst, hroute1, hroute2]
  refine ⟨?_, ?_, rfl, rfl, hconnected, ?_⟩
  · simp only
    rw [hreply]
    rfl
  · simp only [Response.error]
    rw [hreply]
    rfl
  · simp only
    generalize (handleGetRequest env now served.session v25 v25).1 = first at hconnected ⊢
    have hne : first.status ≠ .Initialized := by
      rw [hconnected]
      decide
    unfold handleGetRequest
    rw [if_pos hne]
    rfl

/-- Witness for C14: the freshly started demo disclosure session. -/
theorem double_get_replays_first_response_witness :
    demoServed.session.status = .Initialized ∧
    demoServed.kept = none ∧
    (handleProtocolMessage (demoEnv false) 8
      (handleProtocolMessage (demoEnv false) 7 demoServed (.GetRequest v25 v25)).1
      (.GetRequest v25 v25)).2.status = 200 ∧
    (handleProtocolMessage (demoEnv false) 8
      (handleProtocolMessage (demoEnv false) 7 demoServed (.GetRequest v25 v25)).1
      (.GetRequest v25 v25)).1.session.status = .Connected :=
  ⟨rfl, rfl,
   (congrArg Response.status
      (double_get_replays_first_response (demoEnv false) 7 8 demoServed _ rfl rfl rfl rfl
        (by decide) (by decide)).2.2.1).trans
     (double_get_replays_first_response (demoEnv false) 7 8 demoServed _ rfl rfl rfl rfl
      (by decide) (by decide)).1,
   (double_get_replays_first_response (demoEnv false) 7 8 demoServed _ rfl rfl rfl rfl
      (by decide) (by decide)).2.2.2.2.1⟩

/-- C15: for every `Connected` session and every `POST /proofs` (disclosure or signature)
that the server accepted (the session ended in `Done`), posting the same body a second time
succeeds (no error, HTTP status below 300), returns the same response as the first post, and
leaves the session, hence its status and result, unchanged; the response is the kept one
(the handler itself would refuse the second post). -/
theorem replayed_proofs_same_response (env : Env) (now later : Nat) (served : ServedSession)
    (message : ClientMessage)
    (hpost : message.isPostProofs = true)
    (hstatus : served.session.status = .Connected)
    (hdone : (handleProtocolMessage env now served message).1.session.status = .Done) :
    (handleProtocolMessage env later (handleProtocolMessage env now served message).1
      message).2 = (handleProtocolMessage env now served message).2 ∧
    (handleProtocolMessage env later (handleProtocolMessage env now served message).1
      message).2.status < 300 ∧
    (handleProtocolMessage env later (handleProtocolMessage env now served message).1
      message).2.error = none ∧
    (handleProtocolMessage env later (handleProtocolMessage env now served message).1
      message).1 = (handleProtocolMessage env now served message).1 ∧
    (handleProtocolMessage env later (handleProtocolMessage env now served message).1
      message).1.session.status = (handleProtocolMessage env now served message).1.session.status ∧
    (handleProtocolMessage env later (handleProtocolMessage env now served message).1
      message).1.session.result = (handleProtocolMessage env now served message).1.session.result ∧
    (route env later (handleProtocolMessage env now served message).1.session
      message).2.status = 400 := by
  by_cases hk : ∃ response, served.kept = some (message, response)
  · obtain ⟨response, hkept⟩ := hk
    rw [handleProtocolMessage_replay env now served message response hkept] at hdone
    rw [hstatus] at hdone
    exact absurd hdone (by decide)
  · have hfirst := handleProtocolMessage_fresh env now served message
      (fun response hkept => hk ⟨response, hkept⟩)
    have hsecond := handleProtocolMessage_replay env later
      (handleProtocolMessage env now served message).1 message
      (handleProtocolMessage env now served message).2 (by rw [hfirst])
    rw [hsecond]
    rw [hfirst] at hdone ⊢
    have hdone1 : (route env now served.session message).1.status = .Done := hdone
    obtain ⟨h200, herr⟩ := route_done env now served.session message hpost hstatus hdone1
    refine ⟨rfl, ?_, herr, rfl, rfl, rfl, ?_⟩
    · show (route env now served.session message).2.status < 300
      rw [h200]
      decide
    · show (route env later (route env now served.session message).1 message).2.status = 400
      generalize (route env now served.session message).1 = first at hdone1 ⊢
      have hne : first.status ≠ .Connected := by
        rw [hdone1]
        decide
      cases message with
      | GetRequest min max => simp [ClientMessage.isPostProofs] at hpost
      | PostDisclosure disclosure => simp [route, handlePostDisclosure, hne, httpStatus]
      | PostSignature signature => simp [route, handlePostSignature, hne, httpStatus]

/-- Witness for C15: the demo disclosure is accepted and then replayed. -/
theorem replayed_proofs_same_response_witness :
    (demoSession .Disclosing demoDisclosureRequest .Connected).status = .Connected ∧
    (handleProtocolMessage (demoEnv false) 7
      { session := demoSession .Disclosing demoDisclosureRequest .Connected, kept := none }
      (.PostDisclosure demoDisclosure)).1.session.status = .Done ∧
    (handleProtocolMessage (demoEnv false) 8
      (handleProtocolMessage (demoEnv false) 7
        { session := demoSession .Disclosing demoDisclosureRequest .Connected, kept := none }
        (.PostDisclosure demoDisclosure)).1
      (.PostDisclosure demoDisclosure)).2.status < 300 :=
  ⟨rfl, by decide,
   (replayed_proofs_same_response (demoEnv false) 7 8
      { session := demoSession .Disclosing demoDisclosureRequest .Connected, kept := none }
      (.PostDisclosure demoDisclosure) rfl rfl (by decide)).2.1⟩


end Servercore
